import Mathlib

/-! Embree: the 4-wide SSE integer vector and the hardware RTAS build driver.

Shallow embedding of

* `src/common/simd/ssei.h` (the `ssei` value type and its reductions), and
* `src/kernels/sycl/rthwif_embree_builder.cpp` (`rthwifBuild` and its helpers).

Machine integers are embedded in `Int` / `Nat`.  A lane of an `ssei` is an `int32`, i.e. an
integer in `[-2^31, 2^31)`; operations that cannot leave that range (min, max, compare, select,
shuffle) are written directly on `Int`.  `size_t` arithmetic is written on `Nat` with an explicit
reduction modulo `2^64` wherever the C++ expression can wrap.
-/

namespace embree

/-! ## `ssei` : the data -/

/-- The four `int32` lanes of `union { __m128i m128; int32 v[4]; }`. -/
structure ssei where
  v0 : Int
  v1 : Int
  v2 : Int
  v3 : Int
deriving DecidableEq, Repr

/-- Modelled from the spec: the companion mask type `sseb` (declared in `sseb.h`, which is not part
of the sources at hand) is "a boolean mask vector, one boolean per lane".  Lane `i` is the sign bit
of the `i`-th 32-bit element, which is the only bit `_mm_blendv_ps` and `_mm_movemask_ps` read. -/
structure sseb where
  b0 : Bool
  b1 : Bool
  b2 : Bool
  b3 : Bool
deriving DecidableEq, Repr

/-- An `int32` value. -/
def isInt32 (x : Int) : Prop := -2147483648 ≤ x ∧ x ≤ 2147483647

instance (x : Int) : Decidable (isInt32 x) := by unfold isInt32; infer_instance

/-- All four lanes are `int32` values. -/
def ssei.inRange (a : ssei) : Prop :=
  isInt32 a.v0 ∧ isInt32 a.v1 ∧ isInt32 a.v2 ∧ isInt32 a.v3

instance (a : ssei) : Decidable a.inRange := by unfold ssei.inRange; infer_instance

/-- The array access `operator[]` of `ssei`: `assert(i < 4); return v[i];`.  The assertion is the
validity condition of the index. -/
instance : GetElem ssei Nat Int (fun _ i => i < 4) where
  getElem a i _ :=
    match i with
    | 0 => a.v0
    | 1 => a.v1
    | 2 => a.v2
    | _ => a.v3

/-- Lane access of the mask type (same layout as `ssei`). -/
instance : GetElem sseb Nat Bool (fun _ i => i < 4) where
  getElem m i _ :=
    match i with
    | 0 => m.b0
    | 1 => m.b1
    | 2 => m.b2
    | _ => m.b3

/-- Modelled from the spec: `pos_inf` converted to `int` (the constant lives in a header that is not
part of the sources at hand); the integer "positive infinity" pattern is `INT_MAX`. -/
def pos_inf : Int := 2147483647

/-- Modelled from the spec: `neg_inf` converted to `int`; the integer "negative infinity" pattern is
`INT_MIN`. -/
def neg_inf : Int := -2147483648

/-- The constructor `ssei(PosInfTy)`: `_mm_set_epi32(pos_inf, pos_inf, pos_inf, pos_inf)`. -/
def ssei.ofPosInf : ssei := ⟨pos_inf, pos_inf, pos_inf, pos_inf⟩

/-- The constructor `ssei(NegInfTy)`: `_mm_set_epi32(neg_inf, neg_inf, neg_inf, neg_inf)`. -/
def ssei.ofNegInf : ssei := ⟨neg_inf, neg_inf, neg_inf, neg_inf⟩

/-! ## `ssei` : operations -/

/-- The lane-wise signed minimum `min(a,b)`, i.e. `_mm_min_epi32`. -/
def ssei.min (a b : ssei) : ssei :=
  ⟨Min.min a.v0 b.v0, Min.min a.v1 b.v1, Min.min a.v2 b.v2, Min.min a.v3 b.v3⟩

/-- The lane-wise signed maximum `max(a,b)`, i.e. `_mm_max_epi32`. -/
def ssei.max (a b : ssei) : ssei :=
  ⟨Max.max a.v0 b.v0, Max.max a.v1 b.v1, Max.max a.v2 b.v2, Max.max a.v3 b.v3⟩

/-- The comparison `operator ==(ssei, ssei)`, i.e. `_mm_cmpeq_epi32`: lane `i` of the mask is set
exactly when the two lanes are equal. -/
def ssei.eq (a b : ssei) : sseb :=
  ⟨decide (a.v0 = b.v0), decide (a.v1 = b.v1), decide (a.v2 = b.v2), decide (a.v3 = b.v3)⟩

/-- Modelled from the spec: `operator &(sseb, sseb)` of the mask type, the lane-wise conjunction. -/
def sseb.and (m n : sseb) : sseb :=
  ⟨m.b0 && n.b0, m.b1 && n.b1, m.b2 && n.b2, m.b3 && n.b3⟩

/-- The lane select `select(m,a,b)` (the `#else` branch):
`_mm_blendv_ps(b, a, m)` takes the lane of its second operand where the mask lane's sign bit is set
and the lane of its first operand otherwise. -/
def select (m : sseb) (a b : ssei) : ssei :=
  ⟨if m.b0 then a.v0 else b.v0, if m.b1 then a.v1 else b.v1,
   if m.b2 then a.v2 else b.v2, if m.b3 then a.v3 else b.v3⟩

/-- The one-vector `shuffle<i0,i1,i2,i3>(a)`: `_mm_shuffle_epi32(a, _MM_SHUFFLE(i3,i2,i1,i0))`, whose
result lane `k` is lane `i_k` of `a`. -/
def shuffle (i0 i1 i2 i3 : Fin 4) (a : ssei) : ssei :=
  ⟨a[i0.val], a[i1.val], a[i2.val], a[i3.val]⟩

/-- The lane read `extract<src>(b)`: `_mm_extract_epi32(b, src)`. -/
def extract (src : Fin 4) (b : ssei) : Int := b[src.val]

/-- Modelled from the spec: `movemask` of a mask (`_mm_movemask_ps`), the 4-bit integer whose bit `i`
is mask lane `i`. -/
def movemask (m : sseb) : Nat :=
  (if m.b0 then 1 else 0) + (if m.b1 then 2 else 0) + (if m.b2 then 4 else 0) +
    (if m.b3 then 8 else 0)

/-- Scan of at most `fuel` bits of `x` from the least significant end for the first set bit. -/
def bsfAux : Nat → Nat → Nat
  | 0, _ => 0
  | fuel + 1, x => if x % 2 = 1 then 0 else bsfAux fuel (x / 2) + 1

/-- Modelled from the spec: the bit-scan-forward intrinsic `__bsf` on a 64-bit word, the index of
the first (lowest) set bit.  The hardware instruction leaves its result undefined when no bit is
set, which is `none` here. -/
def bsf (x : Nat) : Option Nat :=
  if x % 2 ^ 64 = 0 then none else some (bsfAux 64 (x % 2 ^ 64))

/-! ## `ssei` : reductions -/

/-- The source line
`ssei h = min(shuffle<1,0,3,2>(v),v); return min(shuffle<2,3,0,1>(h),h);`. -/
def vreduce_min (v : ssei) : ssei :=
  let h := ssei.min (shuffle 1 0 3 2 v) v
  ssei.min (shuffle 2 3 0 1 h) h

/-- The source line
`ssei h = max(shuffle<1,0,3,2>(v),v); return max(shuffle<2,3,0,1>(h),h);`. -/
def vreduce_max (v : ssei) : ssei :=
  let h := ssei.max (shuffle 1 0 3 2 v) v
  ssei.max (shuffle 2 3 0 1 h) h

/-- The scalar reduction `reduce_min(v)`: `extract<0>(vreduce_min(v))`. -/
def reduce_min (v : ssei) : Int := extract 0 (vreduce_min v)

/-- The scalar reduction `reduce_max(v)`: `extract<0>(vreduce_max(v))`. -/
def reduce_max (v : ssei) : Int := extract 0 (vreduce_max v)

/-- The lane search `select_min(v)`: `__bsf(movemask(v == vreduce_min(v)))`. -/
def select_min (v : ssei) : Option Nat := bsf (movemask (v.eq (vreduce_min v)))

/-- The lane search `select_max(v)`: `__bsf(movemask(v == vreduce_max(v)))`. -/
def select_max (v : ssei) : Option Nat := bsf (movemask (v.eq (vreduce_max v)))

/-- The masked lane search `select_min(valid,v)`:
`const ssei a = select(valid,v,ssei(pos_inf)); return __bsf(movemask(valid & (a == vreduce_min(a))));`. -/
def select_min_valid (valid : sseb) (v : ssei) : Option Nat :=
  let a := select valid v ssei.ofPosInf
  bsf (movemask (valid.and (a.eq (vreduce_min a))))

/-- The masked lane search `select_max(valid,v)`:
`const ssei a = select(valid,v,ssei(neg_inf)); return __bsf(movemask(valid & (a == vreduce_max(a))));`. -/
def select_max_valid (valid : sseb) (v : ssei) : Option Nat :=
  let a := select valid v ssei.ofNegInf
  bsf (movemask (valid.and (a.eq (vreduce_max a))))

/-! ## The build driver: geometry classification -/

/-- The value computed by a piece of code together with the fate of its `assert`s: `val` is what
the code yields when assertions are compiled out, `ok` is `false` when an `assert` on the executed
path fails (the build with assertions enabled stops there). -/
structure Checked (α : Type) where
  val : α
  ok : Bool
deriving DecidableEq, Repr

/-- Modelled from the spec: the geometry kinds `Geometry::GType` (declared in `geometry.h`, which is
not part of the sources at hand), one constructor per `case` label of the `switch` in `getType`. -/
inductive GType
  | GTY_FLAT_LINEAR_CURVE
  | GTY_ROUND_LINEAR_CURVE
  | GTY_ORIENTED_LINEAR_CURVE
  | GTY_CONE_LINEAR_CURVE
  | GTY_FLAT_BEZIER_CURVE
  | GTY_ROUND_BEZIER_CURVE
  | GTY_ORIENTED_BEZIER_CURVE
  | GTY_FLAT_BSPLINE_CURVE
  | GTY_ROUND_BSPLINE_CURVE
  | GTY_ORIENTED_BSPLINE_CURVE
  | GTY_FLAT_HERMITE_CURVE
  | GTY_ROUND_HERMITE_CURVE
  | GTY_ORIENTED_HERMITE_CURVE
  | GTY_FLAT_CATMULL_ROM_CURVE
  | GTY_ROUND_CATMULL_ROM_CURVE
  | GTY_ORIENTED_CATMULL_ROM_CURVE
  | GTY_TRIANGLE_MESH
  | GTY_QUAD_MESH
  | GTY_GRID_MESH
  | GTY_SUBDIV_MESH
  | GTY_SPHERE_POINT
  | GTY_DISC_POINT
  | GTY_ORIENTED_DISC_POINT
  | GTY_USER_GEOMETRY
  | GTY_INSTANCE_CHEAP
  | GTY_INSTANCE_EXPENSIVE
deriving DecidableEq, Repr

/-- Modelled from the spec: the instance subtypes `AccelSet::GSubType` ("quaternion vs default"). -/
inductive GSubType
  | GTY_SUBTYPE_DEFAULT
  | GTY_SUBTYPE_INSTANCE_QUATERNION
deriving DecidableEq, Repr

/-- Modelled from the spec: the attributes of a scene geometry that the build driver reads through
the accessors of `Geometry` / `Instance` (declared in headers that are not part of the sources at
hand).  `numTimeSegments` and `mask` are `unsigned int`.  For an instance geometry,
`instancedNumTimeSegments` is the `numTimeSegments` stored in the header of the instanced scene's
built structure (`object->numTimeSegments`). -/
structure Geometry where
  gtype : GType
  numTimeSegments : Nat := 0
  mask : Nat := 0xFFFFFFFF
  gsubtype : GSubType := GSubType.GTY_SUBTYPE_DEFAULT
  instancedNumTimeSegments : Nat := 1
  hasArgumentFilterFunctions : Bool := false
  hasGeometryFilterFunctions : Bool := false
deriving DecidableEq, Repr

/-- Modelled from the spec: the scene as the build driver sees it, a sequence of geometry slots
(`scene->size()` slots, `scene->get(geomID)` possibly null). -/
structure Scene where
  geometries : List (Option Geometry)
deriving DecidableEq, Repr

/-- The slot count `scene->size()`. -/
def Scene.size (scene : Scene) : Nat := scene.geometries.length

/-- Modelled from the spec: the classification tag `ze_rtas_builder_geometry_type_exp_t`
(a Level Zero header that is not part of the sources at hand): "one of Triangles, Quads,
Procedural, Instance". -/
inductive ze_rtas_builder_geometry_type_exp_t
  | TRIANGLES
  | QUADS
  | PROCEDURAL
  | INSTANCE
deriving DecidableEq, Repr

/-- The tag with its extra bytes, `struct GEOMETRY_TYPE`. -/
structure GEOMETRY_TYPE where
  type : ze_rtas_builder_geometry_type_exp_t
  extraBytes : Nat := 0
deriving DecidableEq, Repr

/-- The `sizeof` / `alignof` values of the record types, which come from headers that are not part
of the sources at hand and are therefore parameters of the embedding. -/
structure TypeSizes where
  sizeof_triangles : Nat
  sizeof_quads : Nat
  sizeof_procedural : Nat
  sizeof_instance : Nat
  sizeof_GEOMETRY_INSTANCE_DESC : Nat
  alignof_triangles : Nat
  alignof_quads : Nat
  alignof_procedural : Nat
  alignof_instance : Nat
  sizeof_EmbreeHWAccel : Nat
deriving DecidableEq, Repr

/-- The compile-time switches that select code in `rthwif_embree_builder.cpp`. -/
structure BuildConfig where
  RTC_MAX_INSTANCE_LEVEL_COUNT : Nat
  EMBREE_RAY_MASK : Bool
deriving DecidableEq, Repr

/-- The width of `size_t`. -/
def SIZE_MOD : Nat := 2 ^ 64

/-- The helper `static void align(size_t& ofs, size_t alignment)`:
`ofs = (ofs+(alignment-1))&(-alignment);` in `size_t` arithmetic. -/
def align (ofs alignment : Nat) : Nat :=
  ((ofs + (alignment + SIZE_MOD - 1) % SIZE_MOD) % SIZE_MOD) &&&
    ((SIZE_MOD - alignment % SIZE_MOD) % SIZE_MOD)

/-- The function `sizeof_RTHWIF_GEOMETRY`: the record size of the tag plus its extra bytes.  The
`default:` branch has no counterpart, the tag type having exactly the four constructors. -/
def sizeof_RTHWIF_GEOMETRY (L : TypeSizes) (type : GEOMETRY_TYPE) : Nat :=
  match type.type with
  | .TRIANGLES => (L.sizeof_triangles + type.extraBytes) % SIZE_MOD
  | .QUADS => (L.sizeof_quads + type.extraBytes) % SIZE_MOD
  | .PROCEDURAL => (L.sizeof_procedural + type.extraBytes) % SIZE_MOD
  | .INSTANCE => (L.sizeof_instance + type.extraBytes) % SIZE_MOD

/-- The function `alignof_RTHWIF_GEOMETRY`: the alignment of the tag's record type. -/
def alignof_RTHWIF_GEOMETRY (L : TypeSizes) (type : GEOMETRY_TYPE) : Nat :=
  match type.type with
  | .TRIANGLES => L.alignof_triangles
  | .QUADS => L.alignof_quads
  | .PROCEDURAL => L.alignof_procedural
  | .INSTANCE => L.alignof_instance

/-- The tag `ZE_RTAS_BUILDER_GEOMETRY_TYPE_EXP_PROCEDURAL` converted to a `GEOMETRY_TYPE`. -/
def GEOMETRY_TYPE.procedural : GEOMETRY_TYPE := ⟨.PROCEDURAL, 0⟩

/-- The lambda `getType` of `rthwifBuild`, on the geometry `scene->get(geomID)` (non-null where it
is called).  The instance cases follow the `#if RTC_MAX_INSTANCE_LEVEL_COUNT < 2` switch; the
subdivision case carries its `assert(false)`. -/
def getType (L : TypeSizes) (cfg : BuildConfig) (geom : Geometry) : Checked GEOMETRY_TYPE :=
  if geom.numTimeSegments > 0 then ⟨GEOMETRY_TYPE.procedural, true⟩
  else
    match geom.gtype with
    | .GTY_FLAT_LINEAR_CURVE => ⟨GEOMETRY_TYPE.procedural, true⟩
    | .GTY_ROUND_LINEAR_CURVE => ⟨GEOMETRY_TYPE.procedural, true⟩
    | .GTY_ORIENTED_LINEAR_CURVE => ⟨GEOMETRY_TYPE.procedural, true⟩
    | .GTY_CONE_LINEAR_CURVE => ⟨GEOMETRY_TYPE.procedural, true⟩
    | .GTY_FLAT_BEZIER_CURVE => ⟨GEOMETRY_TYPE.procedural, true⟩
    | .GTY_ROUND_BEZIER_CURVE => ⟨GEOMETRY_TYPE.procedural, true⟩
    | .GTY_ORIENTED_BEZIER_CURVE => ⟨GEOMETRY_TYPE.procedural, true⟩
    | .GTY_FLAT_BSPLINE_CURVE => ⟨GEOMETRY_TYPE.procedural, true⟩
    | .GTY_ROUND_BSPLINE_CURVE => ⟨GEOMETRY_TYPE.procedural, true⟩
    | .GTY_ORIENTED_BSPLINE_CURVE => ⟨GEOMETRY_TYPE.procedural, true⟩
    | .GTY_FLAT_HERMITE_CURVE => ⟨GEOMETRY_TYPE.procedural, true⟩
    | .GTY_ROUND_HERMITE_CURVE => ⟨GEOMETRY_TYPE.procedural, true⟩
    | .GTY_ORIENTED_HERMITE_CURVE => ⟨GEOMETRY_TYPE.procedural, true⟩
    | .GTY_FLAT_CATMULL_ROM_CURVE => ⟨GEOMETRY_TYPE.procedural, true⟩
    | .GTY_ROUND_CATMULL_ROM_CURVE => ⟨GEOMETRY_TYPE.procedural, true⟩
    | .GTY_ORIENTED_CATMULL_ROM_CURVE => ⟨GEOMETRY_TYPE.procedural, true⟩
    | .GTY_TRIANGLE_MESH => ⟨⟨.TRIANGLES, 0⟩, true⟩
    | .GTY_QUAD_MESH => ⟨⟨.QUADS, 0⟩, true⟩
    | .GTY_GRID_MESH => ⟨GEOMETRY_TYPE.procedural, true⟩
    | .GTY_SUBDIV_MESH => ⟨GEOMETRY_TYPE.procedural, false⟩
    | .GTY_SPHERE_POINT => ⟨GEOMETRY_TYPE.procedural, true⟩
    | .GTY_DISC_POINT => ⟨GEOMETRY_TYPE.procedural, true⟩
    | .GTY_ORIENTED_DISC_POINT => ⟨GEOMETRY_TYPE.procedural, true⟩
    | .GTY_USER_GEOMETRY => ⟨GEOMETRY_TYPE.procedural, true⟩
    | .GTY_INSTANCE_CHEAP | .GTY_INSTANCE_EXPENSIVE =>
      if cfg.RTC_MAX_INSTANCE_LEVEL_COUNT < 2 then
        if geom.instancedNumTimeSegments > 1 then ⟨GEOMETRY_TYPE.procedural, true⟩
        else if geom.mask &&& 0xFFFFFF80 ≠ 0 then ⟨GEOMETRY_TYPE.procedural, true⟩
        else if geom.gsubtype = GSubType.GTY_SUBTYPE_INSTANCE_QUATERNION then
          ⟨⟨.INSTANCE,
            (L.sizeof_GEOMETRY_INSTANCE_DESC + SIZE_MOD - L.sizeof_instance % SIZE_MOD) % SIZE_MOD⟩,
            true⟩
        else ⟨⟨.INSTANCE, 0⟩, true⟩
      else ⟨GEOMETRY_TYPE.procedural, true⟩

/-! ## The build driver: time segments and descriptor layout -/

/-- The first loop of `rthwifBuild`:
`uint32_t maxTimeSegments = 1; for (geomID ...) { if (geom == nullptr) continue;
maxTimeSegments = std::max(maxTimeSegments, geom->numTimeSegments()); }`. -/
def maxTimeSegments (scene : Scene) : Nat :=
  scene.geometries.foldl
    (fun m slot =>
      match slot with
      | none => m
      | some geom => Max.max m geom.numTimeSegments)
    1

/-- One iteration of the measure loop on the running `totalBytes`. -/
def measureStep (L : TypeSizes) (cfg : BuildConfig) (totalBytes : Nat) (slot : Option Geometry) :
    Nat :=
  match slot with
  | none => totalBytes
  | some geom =>
    let type := (getType L cfg geom).val
    (align totalBytes (alignof_RTHWIF_GEOMETRY L type) + sizeof_RTHWIF_GEOMETRY L type) % SIZE_MOD

/-- The measure pass of `rthwifBuild` ("calculate size of geometry descriptor buffer"), the final
value of `totalBytes`. -/
def measurePass (L : TypeSizes) (cfg : BuildConfig) (scene : Scene) : Nat :=
  scene.geometries.foldl (measureStep L cfg) 0

/-- The variables of the fill loop: the running `offset`, the pointer table `geomDescr` (each entry
the offset of the record inside `geomDescrData`, `none` for `nullptr`), and whether every
`assert(offset <= geomDescrData.size())` so far held. -/
structure FillState where
  offset : Nat
  geomDescr : List (Option Nat)
  ok : Bool
deriving DecidableEq, Repr

/-- One iteration of the fill loop; `dataSize` is `geomDescrData.size()`.  The record contents that
`createGeometryDesc` writes at `&geomDescrData[offset]` are not part of the layout state. -/
def fillStep (L : TypeSizes) (cfg : BuildConfig) (dataSize : Nat) (st : FillState)
    (slot : Option Geometry) : FillState :=
  match slot with
  | none => { st with geomDescr := st.geomDescr ++ [none] }
  | some geom =>
    let type := (getType L cfg geom).val
    let aligned := align st.offset (alignof_RTHWIF_GEOMETRY L type)
    let offset := (aligned + sizeof_RTHWIF_GEOMETRY L type) % SIZE_MOD
    { offset := offset
      geomDescr := st.geomDescr ++ [some aligned]
      ok := st.ok && decide (offset ≤ dataSize) }

/-- The fill pass of `rthwifBuild` ("fill geomdesc buffers") over a data buffer of `dataSize`
bytes. -/
def fillPass (L : TypeSizes) (cfg : BuildConfig) (dataSize : Nat) (scene : Scene) : FillState :=
  scene.geometries.foldl (fillStep L cfg dataSize) ⟨0, [], true⟩

/-- The sequence of tags of a scene, slot by slot (`none` for a null slot). -/
def Scene.tags (L : TypeSizes) (cfg : BuildConfig) (scene : Scene) : List (Option GEOMETRY_TYPE) :=
  scene.geometries.map (Option.map fun geom => (getType L cfg geom).val)

/-- The padding that rounds `ofs` up to the next multiple of `alignment`. -/
def padding (ofs alignment : Nat) : Nat := (alignment - ofs % alignment) % alignment

/-- The sum, over the tags in order, of the padding that rounds the running offset `ofs` up to the
tag's alignment plus the tag's record size (null slots contribute nothing). -/
def paddedSize (L : TypeSizes) : List (Option GEOMETRY_TYPE) → Nat → Nat
  | [], _ => 0
  | none :: ts, ofs => paddedSize L ts ofs
  | some t :: ts, ofs =>
    let step := padding ofs (alignof_RTHWIF_GEOMETRY L t) + sizeof_RTHWIF_GEOMETRY L t
    step + paddedSize L ts (ofs + step)

/-- The record sizes and alignments are those of C++ object types: every alignment is a power of
two, every record fits in `2^31` bytes, and the wide instance record extends the default one. -/
def TypeSizes.wellFormed (L : TypeSizes) : Prop :=
  (∃ k, k ≤ 31 ∧ L.alignof_triangles = 2 ^ k) ∧ (∃ k, k ≤ 31 ∧ L.alignof_quads = 2 ^ k) ∧
  (∃ k, k ≤ 31 ∧ L.alignof_procedural = 2 ^ k) ∧ (∃ k, k ≤ 31 ∧ L.alignof_instance = 2 ^ k) ∧
  L.sizeof_triangles < 2 ^ 31 ∧ L.sizeof_quads < 2 ^ 31 ∧ L.sizeof_procedural < 2 ^ 31 ∧
  L.sizeof_instance < L.sizeof_GEOMETRY_INSTANCE_DESC ∧ L.sizeof_GEOMETRY_INSTANCE_DESC < 2 ^ 31

/-! ## The build driver: size growth -/

/-- Number of binary digits of `n`, reading at most `fuel` digits. -/
def bitLength : Nat → Nat → Nat
  | 0, _ => 0
  | fuel + 1, n => if n = 0 then 0 else bitLength fuel (n / 2) + 1

/-- Rounding of a natural number (below `2^128`) to the nearest number with at most 53 significant
binary digits, ties to the even significand: the rounding of IEEE-754 double precision. -/
def roundToDouble (p : Nat) : Nat :=
  if p < 2 ^ 53 then p
  else
    let e := bitLength 128 p - 53
    let q := p / 2 ^ e
    let r := p % 2 ^ e
    let up := decide (2 ^ (e - 1) < r) || (decide (r = 2 ^ (e - 1)) && decide (q % 2 = 1))
    (if up then q + 1 else q) * 2 ^ e

/-- The expression `size_t(1.2*x)` for a `size_t` value `x`: `x` is converted to `double`, multiplied
by the `double` nearest to 1.2, which is `5404319552844595 / 2^52`, the product is rounded to
`double`, and the result is truncated.  (The conversion back is undefined in C++ when the product
reaches `2^64`; the embedding then still returns the truncated product.) -/
def mul1_2 (x : Nat) : Nat :=
  roundToDouble (roundToDouble x * 5404319552844595) / 2 ^ 52

/-- The expression `(y+127)&-128` in `size_t` arithmetic. -/
def roundUp128 (y : Nat) : Nat :=
  ((y + 127) % SIZE_MOD) &&& ((SIZE_MOD - 128) % SIZE_MOD)

/-- The new value of `sizeTotal.rtasBufferSizeBytesExpected` on a retry:
`std::min(sizeTotal.rtasBufferSizeBytesMax,(size_t(1.2*sizeTotal.rtasBufferSizeBytesExpected)+127)&-128)`. -/
def growExpected (expected max : Nat) : Nat :=
  Min.min max (roundUp128 (mul1_2 expected))

/-! ## The build driver: the build loop -/

/-- Modelled from the spec: the result codes `ze_result_t_` that `rthwifBuild` tells apart (the
enumeration belongs to a header that is not part of the sources at hand); `ERROR_OTHER` stands for
every other code. -/
inductive ze_result_t
  | SUCCESS
  | ERROR_OUT_OF_HOST_MEMORY
  | ERROR_OTHER
deriving DecidableEq, Repr

/-- What one segment build hands back to the loop: `completed err bounds` is the value of `err`
after the build call and the joins of the parallel operation, with the bounds the builder wrote to
`bounds`; `propertiesFailed` is the case in which `zeRTASParallelOperationGetPropertiesExp` fails
("get max concurrency failed"). -/
inductive SegmentReply (β : Type)
  | completed (err : ze_result_t) (bounds : β)
  | propertiesFailed
deriving DecidableEq, Repr

/-- The two kinds of exception `rthwifBuild` throws. -/
inductive BuildError
  | runtime_error (what : String)
  | RTCError (what : String)
deriving DecidableEq, Repr

/-- The external collaborators of `rthwifBuild`: the device, the Level Zero builder (whose `n`-th
segment build, counted from 0 over the whole run, answers `build n`) and the size estimate
`sizeTotal` it returns. -/
structure Driver (β : Type) where
  isGPUDevice : Bool
  builderCreate : ze_result_t
  parallelOperationCreate : ze_result_t
  getRTASProperties : ze_result_t
  getBuildProperties : ze_result_t
  rtasBufferSizeBytesExpected : Nat
  rtasBufferSizeBytesMax : Nat
  scratchBufferSizeBytes : Nat
  build : Nat → SegmentReply β
  parallelOperationDestroy : ze_result_t
  builderDestroy : ze_result_t

/-- Modelled from the spec: the two operations of `BBox3f` that the loop uses on the bounds (the
type belongs to a header that is not part of the sources at hand): the `empty` box and
`extend`, the component-wise min/max union. -/
structure BoundsOps (β : Type) where
  empty : β
  extend : β → β → β

/-- One call of `zeRTASBuilderBuildExp` as the loop issues it: the time segment `i` out of
`maxTimeSegments` (which fixes the time range `[i/maxTimeSegments, (i+1)/maxTimeSegments]`), the
offset `headerBytes + i*expected` of `accelBuffer` from `accel.data()` (the product in `size_t`),
and `accelBufferBytes`. -/
structure BuildCall where
  segment : Nat
  accelBufferOffset : Nat
  accelBufferBytes : Nat
deriving DecidableEq, Repr

/-- The variables of the build loop: `sizeTotal.rtasBufferSizeBytesExpected`, `accel.size()`,
`fullBounds`, `err`, and the builder calls issued so far (oldest first). -/
structure BuildState (β : Type) where
  expected : Nat
  accelSize : Nat
  fullBounds : β
  err : ze_result_t
  calls : List BuildCall

/-- The `for` loop over the time segments, from segment `i` with `n` segments to go.  It ends by
running out of segments, by `break`, or by a `throw`. -/
def segmentLoop {β : Type} (drv : Driver β) (ops : BoundsOps β) (headerBytes : Nat) :
    Nat → Nat → BuildState β → Except BuildError (BuildState β)
  | 0, _, st => .ok st
  | n + 1, i, st =>
    let call : BuildCall :=
      ⟨i, headerBytes + (i * st.expected) % SIZE_MOD, st.expected⟩
    match drv.build st.calls.length with
    | .propertiesFailed => .error (.runtime_error "get max concurrency failed")
    | .completed err bounds =>
      let st1 : BuildState β :=
        { st with err := err, fullBounds := ops.extend st.fullBounds bounds,
                  calls := st.calls ++ [call] }
      if err = .ERROR_OUT_OF_HOST_MEMORY then
        if st.expected = drv.rtasBufferSizeBytesMax then .error (.RTCError "build error")
        else .ok { st1 with expected := growExpected st.expected drv.rtasBufferSizeBytesMax }
      else if err ≠ .SUCCESS then .ok st1
      else segmentLoop drv ops headerBytes n (i + 1) st1

/-- The start of one pass of `while (true)`: the buffer is grown to
`headerBytes + maxTimeSegments*expected` bytes when it is smaller. -/
def resizeAccel {β : Type} (maxTimeSegments headerBytes : Nat) (st : BuildState β) :
    BuildState β :=
  let bytes := (headerBytes + (maxTimeSegments * st.expected) % SIZE_MOD) % SIZE_MOD
  { st with accelSize := if st.accelSize < bytes then bytes else st.accelSize }

/-- The `while (true)` loop of `rthwifBuild`, run for at most `fuel` passes; `none` when the passes
are used up before the loop ends. -/
def buildLoop {β : Type} (drv : Driver β) (ops : BoundsOps β) (maxTimeSegments headerBytes : Nat) :
    Nat → BuildState β → Option (Except BuildError (BuildState β))
  | 0, _ => none
  | fuel + 1, st =>
    match segmentLoop drv ops headerBytes maxTimeSegments 0
        (resizeAccel maxTimeSegments headerBytes st) with
    | .error e => some (.error e)
    | .ok st1 =>
      if st1.err ≠ .ERROR_OUT_OF_HOST_MEMORY then some (.ok st1)
      else buildLoop drv ops maxTimeSegments headerBytes fuel st1

/-- The size of the header of the output blob:
`size_t headerBytes = sizeof(EmbreeHWAccel) + std::max(1u,maxTimeSegments)*8; align(headerBytes,128);`
where the product is computed in `unsigned int`. -/
def headerBytes (L : TypeSizes) (maxTimeSegments : Nat) : Nat :=
  align ((L.sizeof_EmbreeHWAccel + (Max.max 1 maxTimeSegments * 8) % 2 ^ 32) % SIZE_MOD) 128

/-- What a successful `rthwifBuild` leaves behind: the header fields `numTimeSegments` and
`AccelTable` (addresses), the final `accel.size()` and expected segment size, the returned bounds,
the pointer table of the descriptors, and the builder calls that were issued. -/
structure BuildResult (β : Type) where
  numTimeSegments : Nat
  AccelTable : List Nat
  accelSize : Nat
  expected : Nat
  fullBounds : β
  geomDescr : List (Option Nat)
  calls : List BuildCall

/-- The function `rthwifBuild(scene, accel)`.  `accelData` is the address `accel.data()` of the
output buffer at the end of the build and `accelSize` its size on entry; the loop runs for at most
`fuel` passes. -/
def rthwifBuild {β : Type} (L : TypeSizes) (cfg : BuildConfig) (drv : Driver β) (ops : BoundsOps β)
    (scene : Scene) (accelData accelSize : Nat) (fuel : Nat) :
    Option (Except BuildError (BuildResult β)) :=
  if drv.isGPUDevice = false then some (.error (.runtime_error "internal error"))
  else if drv.builderCreate ≠ .SUCCESS then
    some (.error (.runtime_error "ze_rtas_builder creation failed"))
  else
    let mts := maxTimeSegments scene
    let totalBytes := measurePass L cfg scene
    let fill := fillPass L cfg totalBytes scene
    if drv.parallelOperationCreate ≠ .SUCCESS then
      some (.error (.runtime_error "parallel operation creation failed"))
    else if drv.getRTASProperties ≠ .SUCCESS then
      some (.error (.runtime_error "get rtas device properties failed"))
    else if drv.getBuildProperties ≠ .SUCCESS then
      some (.error (.RTCError "BVH size estimate failed"))
    else
      let hb := headerBytes L mts
      match buildLoop drv ops mts hb fuel
          ⟨drv.rtasBufferSizeBytesExpected, accelSize, ops.empty, .SUCCESS, []⟩ with
      | none => none
      | some (.error e) => some (.error e)
      | some (.ok st) =>
        if st.err ≠ .SUCCESS then some (.error (.RTCError "build error"))
        else if drv.parallelOperationDestroy ≠ .SUCCESS then
          some (.error (.runtime_error "parallel operation destruction failed"))
        else if drv.builderDestroy ≠ .SUCCESS then
          some (.error (.runtime_error "ze_rtas_builder destruction failed"))
        else
          some (.ok
            { numTimeSegments := mts
              AccelTable :=
                (List.range mts).map fun i => accelData + hb + (i * st.expected) % SIZE_MOD
              accelSize := st.accelSize
              expected := st.expected
              fullBounds := st.fullBounds
              geomDescr := fill.geomDescr
              calls := st.calls })

/-! ## `ssei` : addition and the sum reduction -/

/-- The value of an integer as an `int32` in two's complement: its residue modulo `2^32` read as
a signed 32-bit value. -/
def int32_wrap (x : Int) : Int := (x + 2147483648) % 4294967296 - 2147483648

/-- The lane-wise sum `operator +(ssei, ssei)`, i.e. `_mm_add_epi32`: each lane is the sum of the
two lanes in 32-bit two's-complement arithmetic. -/
def ssei.add (a b : ssei) : ssei :=
  ⟨int32_wrap (a.v0 + b.v0), int32_wrap (a.v1 + b.v1), int32_wrap (a.v2 + b.v2),
   int32_wrap (a.v3 + b.v3)⟩

/-- The source line
`ssei h = shuffle<1,0,3,2>(v) + v; return shuffle<2,3,0,1>(h) + h;`. -/
def vreduce_add (v : ssei) : ssei :=
  let h := ssei.add (shuffle 1 0 3 2 v) v
  ssei.add (shuffle 2 3 0 1 h) h

/-- The scalar reduction `reduce_add(v)`: `extract<0>(vreduce_add(v))`. -/
def reduce_add (v : ssei) : Int := extract 0 (vreduce_add v)

/-! ## The descriptor translator: flags, build options and procedural bounds -/

/-- Modelled from the spec: the two geometry flags `ze_rtas_builder_geometry_exp_flag_t` that
`getGeometryFlags` returns (a Level Zero header that is not part of the sources at hand): opaque,
or none ("non-opaque so hit callbacks fire"). -/
inductive ze_rtas_builder_geometry_exp_flag_t
  | NONE
  | OPAQUE
deriving DecidableEq, Repr

/-- The function `getGeometryFlags(scene, geom)`; the second test is compiled only under
`#if defined(EMBREE_RAY_MASK)`. -/
def getGeometryFlags (cfg : BuildConfig) (_scene : Scene) (geom : Geometry) :
    ze_rtas_builder_geometry_exp_flag_t :=
  let gflags := ze_rtas_builder_geometry_exp_flag_t.OPAQUE
  let gflags :=
    if geom.hasArgumentFilterFunctions || geom.hasGeometryFilterFunctions then
      ze_rtas_builder_geometry_exp_flag_t.NONE
    else gflags
  let gflags :=
    if cfg.EMBREE_RAY_MASK then
      if geom.mask &&& 0xFFFFFF80 ≠ 0 then ze_rtas_builder_geometry_exp_flag_t.NONE else gflags
    else gflags
  gflags

/-- Modelled from the spec: the build quality `RTCBuildQuality` ("low/medium/high/refit"), an
enumeration of a header that is not part of the sources at hand; `other` stands for every value
that is not one of the four enumerators the `switch` names. -/
inductive RTCBuildQuality
  | RTC_BUILD_QUALITY_LOW
  | RTC_BUILD_QUALITY_MEDIUM
  | RTC_BUILD_QUALITY_HIGH
  | RTC_BUILD_QUALITY_REFIT
  | other (code : Nat)
deriving DecidableEq, Repr

/-- Modelled from the spec: the builder's quality hints `ze_rtas_builder_build_quality_hint_exp_t`
("low-hint", "medium-hint", "high-hint"). -/
inductive ze_rtas_builder_build_quality_hint_exp_t
  | LOW
  | MEDIUM
  | HIGH
deriving DecidableEq, Repr

/-- The function `convertBuildQuality`. -/
def convertBuildQuality (quality_flags : RTCBuildQuality) :
    ze_rtas_builder_build_quality_hint_exp_t :=
  match quality_flags with
  | .RTC_BUILD_QUALITY_LOW => .LOW
  | .RTC_BUILD_QUALITY_MEDIUM => .MEDIUM
  | .RTC_BUILD_QUALITY_HIGH => .HIGH
  | .RTC_BUILD_QUALITY_REFIT => .LOW
  | .other _ => .MEDIUM

/-- The values of the flag constants that `convertBuildFlags` combines, which come from headers
that are not part of the sources at hand and are therefore parameters of the embedding. -/
structure BuildFlagBits where
  RTC_SCENE_FLAG_COMPACT : Nat
  FLAG_NONE : Nat
  FLAG_COMPACT : Nat
  FLAG_NO_DUPLICATE_ANYHIT_INVOCATION : Nat
deriving DecidableEq, Repr

/-- The flag constants are those of a bit-flag enumeration: `NONE` is zero and the two build
flags are distinct single bits of a 32-bit word. -/
def BuildFlagBits.wellFormed (K : BuildFlagBits) : Prop :=
  K.FLAG_NONE = 0 ∧
  ∃ a b, a < 32 ∧ b < 32 ∧ a ≠ b ∧ K.FLAG_COMPACT = 2 ^ a ∧
    K.FLAG_NO_DUPLICATE_ANYHIT_INVOCATION = 2 ^ b

/-- The function `convertBuildFlags`, the result as the `uint32_t` it is accumulated in. -/
def convertBuildFlags (K : BuildFlagBits) (scene_flags : Nat) (quality_flags : RTCBuildQuality) :
    Nat :=
  let result := K.FLAG_NONE
  let result :=
    if scene_flags &&& K.RTC_SCENE_FLAG_COMPACT ≠ 0 then result ||| K.FLAG_COMPACT else result
  let result :=
    if quality_flags ≠ RTCBuildQuality.RTC_BUILD_QUALITY_HIGH then
      result ||| K.FLAG_NO_DUPLICATE_ANYHIT_INVOCATION
    else result
  result

/-- The three coordinates `ze_rtas_float3_exp_t`, over a type `F` of `float` values. -/
structure ze_rtas_float3_exp_t (F : Type) where
  x : F
  y : F
  z : F
deriving DecidableEq, Repr

/-- The box `ze_rtas_aabb_exp_t`. -/
structure ze_rtas_aabb_exp_t (F : Type) where
  lower : ze_rtas_float3_exp_t F
  upper : ze_rtas_float3_exp_t F
deriving DecidableEq, Repr

/-- Modelled from the spec: what `getProceduralAABB` takes from outside the sources at hand.
`pos_inf` and `neg_inf` are the two `float` infinities; `createPrimRefArray geom primID` is the
materialisation `geom->createPrimRefArray(&prim, range(primID), 0, 0)` of one primitive, given as
the pair of `pinfo.size()` and `prim.bounds()`; `createPrimRefArrayMB geom time_range primID` is
the motion-blur materialisation over a time range of type `T`. -/
structure PrimRefOps (F T : Type) where
  pos_inf : F
  neg_inf : F
  createPrimRefArray : Geometry → Nat → Nat × ze_rtas_aabb_exp_t F
  createPrimRefArrayMB : Geometry → T → Nat → Nat × ze_rtas_aabb_exp_t F

/-- The body of the `for` loop of `getProceduralAABB` for index `i`: the box written to
`boundsOut[i]`.  `primID` is the `uint32_t` sum `primIDStart+i`. -/
def proceduralAABBEntry {F T : Type} (ops : PrimRefOps F T) (primIDStart : Nat) (geom : Geometry)
    (time_range : T) (i : Nat) : ze_rtas_aabb_exp_t F :=
  let primID := (primIDStart + i) % 2 ^ 32
  let pinfo :=
    if geom.numTimeSegments > 0 then ops.createPrimRefArrayMB geom time_range primID
    else ops.createPrimRefArray geom primID
  if pinfo.1 = 0 then
    ⟨⟨ops.pos_inf, ops.pos_inf, ops.pos_inf⟩, ⟨ops.neg_inf, ops.neg_inf, ops.neg_inf⟩⟩
  else
    ⟨⟨pinfo.2.lower.x, pinfo.2.lower.y, pinfo.2.lower.z⟩,
     ⟨pinfo.2.upper.x, pinfo.2.upper.y, pinfo.2.upper.z⟩⟩

/-- The `for (uint32_t i=...; i<primIDCount; i++)` loop of `getProceduralAABB` from index `i` with
`n` iterations to go, on the array `boundsOut`. -/
def getProceduralAABBLoop {F T : Type} (ops : PrimRefOps F T) (primIDStart : Nat)
    (geom : Geometry) (time_range : T) :
    Nat → Nat → (Nat → ze_rtas_aabb_exp_t F) → Nat → ze_rtas_aabb_exp_t F
  | 0, _, boundsOut => boundsOut
  | n + 1, i, boundsOut =>
    getProceduralAABBLoop ops primIDStart geom time_range n (i + 1)
      (Function.update boundsOut i (proceduralAABBEntry ops primIDStart geom time_range i))

/-- The callback `getProceduralAABB(primIDStart, primIDCount, geomUserPtr, buildUserPtr, boundsOut)`
with `geom` the geometry behind `geomUserPtr` and `time_range` the range behind `buildUserPtr`;
the result is the array `boundsOut` after the call. -/
def getProceduralAABB {F T : Type} (ops : PrimRefOps F T) (primIDStart primIDCount : Nat)
    (geom : Geometry) (time_range : T) (boundsOut : Nat → ze_rtas_aabb_exp_t F) :
    Nat → ze_rtas_aabb_exp_t F :=
  getProceduralAABBLoop ops primIDStart geom time_range primIDCount 0 boundsOut

/-- The geometry kinds that are curves: the linear, Bezier, B-spline, Hermite and Catmull-Rom
variants. -/
def GType.isCurve : GType → Bool
  | .GTY_FLAT_LINEAR_CURVE | .GTY_ROUND_LINEAR_CURVE | .GTY_ORIENTED_LINEAR_CURVE
  | .GTY_CONE_LINEAR_CURVE | .GTY_FLAT_BEZIER_CURVE | .GTY_ROUND_BEZIER_CURVE
  | .GTY_ORIENTED_BEZIER_CURVE | .GTY_FLAT_BSPLINE_CURVE | .GTY_ROUND_BSPLINE_CURVE
  | .GTY_ORIENTED_BSPLINE_CURVE | .GTY_FLAT_HERMITE_CURVE | .GTY_ROUND_HERMITE_CURVE
  | .GTY_ORIENTED_HERMITE_CURVE | .GTY_FLAT_CATMULL_ROM_CURVE | .GTY_ROUND_CATMULL_ROM_CURVE
  | .GTY_ORIENTED_CATMULL_ROM_CURVE => true
  | _ => false

/-- The geometry kinds that are points: sphere, disc, oriented disc. -/
def GType.isPoint : GType → Bool
  | .GTY_SPHERE_POINT | .GTY_DISC_POINT | .GTY_ORIENTED_DISC_POINT => true
  | _ => false

/-- The geometry kinds that are instances. -/
def GType.isInstance : GType → Bool
  | .GTY_INSTANCE_CHEAP | .GTY_INSTANCE_EXPENSIVE => true
  | _ => false

/-! ## `ssei` : constructors, negation, shifts, comparisons, shuffles, insert -/

/-- The intrinsic `_mm_set_epi32(e3, e2, e1, e0)`: lane `k` of the result is `e_k`. -/
def mm_set_epi32 (e3 e2 e1 e0 : Int) : ssei := ⟨e0, e1, e2, e3⟩

/-- The constructor `ssei(int32 a, int32 b, int32 c, int32 d)`: `_mm_set_epi32(d, c, b, a)`. -/
def ssei.ofInt4 (a b c d : Int) : ssei := mm_set_epi32 d c b a

/-- The constructor `ssei(int32 a, int32 b)`: `_mm_set_epi32(b, a, b, a)`. -/
def ssei.ofInt2 (a b : Int) : ssei := mm_set_epi32 b a b a

/-- The constructor `ssei(const int32& a)`:
`_mm_shuffle_epi32(_mm_castps_si128(_mm_load_ss((float*)&a)), _MM_SHUFFLE(0, 0, 0, 0))`, where
`_mm_load_ss` puts the scalar in lane 0 and zero in the other lanes. -/
def ssei.broadcast (a : Int) : ssei := shuffle 0 0 0 0 ⟨a, 0, 0, 0⟩

/-- The constructor `ssei(ZeroTy)`: `_mm_setzero_si128()`. -/
def ssei.ofZero : ssei := ⟨0, 0, 0, 0⟩

/-- The constructor `ssei(OneTy)`: `_mm_set_epi32(1, 1, 1, 1)`. -/
def ssei.ofOne : ssei := mm_set_epi32 1 1 1 1

/-- The constructor `ssei(StepTy)`: `_mm_set_epi32(3, 2, 1, 0)`. -/
def ssei.ofStep : ssei := mm_set_epi32 3 2 1 0

/-- The lane-wise difference `operator -(ssei, ssei)`, i.e. `_mm_sub_epi32`: each lane is the
difference of the two lanes in 32-bit two's-complement arithmetic. -/
def ssei.sub (a b : ssei) : ssei :=
  ⟨int32_wrap (a.v0 - b.v0), int32_wrap (a.v1 - b.v1), int32_wrap (a.v2 - b.v2),
   int32_wrap (a.v3 - b.v3)⟩

/-- The unary `operator -(ssei)`: `_mm_sub_epi32(_mm_setzero_si128(), a.m128)`. -/
def ssei.neg (a : ssei) : ssei := ssei.sub ssei.ofZero a

/-- One lane of `_mm_abs_epi32`: a negative lane is negated in 32-bit two's-complement
arithmetic, any other lane is kept. -/
def abs_epi32 (x : Int) : Int := if x < 0 then int32_wrap (-x) else x

/-- The function `abs(ssei)`: `_mm_abs_epi32(a.m128)`. -/
def ssei.abs (a : ssei) : ssei := ⟨abs_epi32 a.v0, abs_epi32 a.v1, abs_epi32 a.v2, abs_epi32 a.v3⟩

/-- One lane of `_mm_slli_epi32` with count `n`: the lane shifted left by `n` bits with zeros
shifted in, the bits above bit 31 dropped; all zeros for a count above 31. -/
def slli_epi32 (x : Int) (n : Nat) : Int := if n ≤ 31 then int32_wrap (x * 2 ^ n) else 0

/-- One lane of `_mm_srai_epi32` with count `n`: the lane shifted right by `n` bits with copies of
the sign bit shifted in; a count above 31 acts as 31. -/
def srai_epi32 (x : Int) (n : Nat) : Int := x / 2 ^ (Min.min n 31)

/-- One lane of `_mm_srli_epi32` with count `n`: the 32-bit pattern of the lane shifted right by
`n` bits with zeros shifted in; all zeros for a count above 31. -/
def srli_epi32 (x : Int) (n : Nat) : Int :=
  if n ≤ 31 then int32_wrap (x % 4294967296 / 2 ^ n) else 0

/-- The shift `operator <<(ssei, int32 n)`: `_mm_slli_epi32(a.m128, n)`. -/
def ssei.shl (a : ssei) (n : Nat) : ssei :=
  ⟨slli_epi32 a.v0 n, slli_epi32 a.v1 n, slli_epi32 a.v2 n, slli_epi32 a.v3 n⟩

/-- The shift `operator >>(ssei, int32 n)`: `_mm_srai_epi32(a.m128, n)`. -/
def ssei.shr (a : ssei) (n : Nat) : ssei :=
  ⟨srai_epi32 a.v0 n, srai_epi32 a.v1 n, srai_epi32 a.v2 n, srai_epi32 a.v3 n⟩

/-- The function `sra(a, b)`: `_mm_srai_epi32(a.m128, b)`. -/
def sra (a : ssei) (b : Nat) : ssei :=
  ⟨srai_epi32 a.v0 b, srai_epi32 a.v1 b, srai_epi32 a.v2 b, srai_epi32 a.v3 b⟩

/-- The function `srl(a, b)`: `_mm_srli_epi32(a.m128, b)`. -/
def srl (a : ssei) (b : Nat) : ssei :=
  ⟨srli_epi32 a.v0 b, srli_epi32 a.v1 b, srli_epi32 a.v2 b, srli_epi32 a.v3 b⟩

/-- Modelled from the spec: `operator !(sseb)` of the mask type, the lane-wise complement. -/
def sseb.not (m : sseb) : sseb := ⟨!m.b0, !m.b1, !m.b2, !m.b3⟩

/-- The comparison `operator !=(ssei, ssei)`: `!(a == b)`. -/
def ssei.ne (a b : ssei) : sseb := (a.eq b).not

/-- The comparison `operator <(ssei, ssei)`, i.e. `_mm_cmplt_epi32`: lane `i` of the mask is set
exactly when lane `i` of `a` is less than lane `i` of `b` as signed 32-bit integers. -/
def ssei.lt (a b : ssei) : sseb :=
  ⟨decide (a.v0 < b.v0), decide (a.v1 < b.v1), decide (a.v2 < b.v2), decide (a.v3 < b.v3)⟩

/-- The comparison `operator >=(ssei, ssei)`: `!(a < b)`. -/
def ssei.ge (a b : ssei) : sseb := (a.lt b).not

/-- The comparison `operator >(ssei, ssei)`, i.e. `_mm_cmpgt_epi32`. -/
def ssei.gt (a b : ssei) : sseb :=
  ⟨decide (a.v0 > b.v0), decide (a.v1 > b.v1), decide (a.v2 > b.v2), decide (a.v3 > b.v3)⟩

/-- The comparison `operator <=(ssei, ssei)`: `!(a > b)`. -/
def ssei.le (a b : ssei) : sseb := (a.gt b).not

/-- The overload `operator ==(ssei, int32)`: `a == ssei(b)`. -/
def ssei.eqScalar (a : ssei) (b : Int) : sseb := a.eq (ssei.broadcast b)

/-- The overload `operator ==(int32, ssei)`: `ssei(a) == b`. -/
def ssei.scalarEq (a : Int) (b : ssei) : sseb := (ssei.broadcast a).eq b

/-- The overload `operator !=(ssei, int32)`: `a != ssei(b)`. -/
def ssei.neScalar (a : ssei) (b : Int) : sseb := a.ne (ssei.broadcast b)

/-- The overload `operator !=(int32, ssei)`: `ssei(a) != b`. -/
def ssei.scalarNe (a : Int) (b : ssei) : sseb := (ssei.broadcast a).ne b

/-- The overload `operator <(ssei, int32)`: `a < ssei(b)`. -/
def ssei.ltScalar (a : ssei) (b : Int) : sseb := a.lt (ssei.broadcast b)

/-- The overload `operator <(int32, ssei)`: `ssei(a) < b`. -/
def ssei.scalarLt (a : Int) (b : ssei) : sseb := (ssei.broadcast a).lt b

/-- The overload `operator >=(ssei, int32)`: `a >= ssei(b)`. -/
def ssei.geScalar (a : ssei) (b : Int) : sseb := a.ge (ssei.broadcast b)

/-- The overload `operator >=(int32, ssei)`: `ssei(a) >= b`. -/
def ssei.scalarGe (a : Int) (b : ssei) : sseb := (ssei.broadcast a).ge b

/-- The overload `operator >(ssei, int32)`: `a > ssei(b)`. -/
def ssei.gtScalar (a : ssei) (b : Int) : sseb := a.gt (ssei.broadcast b)

/-- The overload `operator >(int32, ssei)`: `ssei(a) > b`. -/
def ssei.scalarGt (a : Int) (b : ssei) : sseb := (ssei.broadcast a).gt b

/-- The overload `operator <=(ssei, int32)`: `a <= ssei(b)`. -/
def ssei.leScalar (a : ssei) (b : Int) : sseb := a.le (ssei.broadcast b)

/-- The overload `operator <=(int32, ssei)`: `ssei(a) <= b`. -/
def ssei.scalarLe (a : Int) (b : ssei) : sseb := (ssei.broadcast a).le b

/-- The specialisation `shuffle<0, 0, 2, 2>`: `_mm_moveldup_ps`, which duplicates the
even-indexed lanes. -/
def shuffle_0_0_2_2 (a : ssei) : ssei := ⟨a.v0, a.v0, a.v2, a.v2⟩

/-- The specialisation `shuffle<1, 1, 3, 3>`: `_mm_movehdup_ps`, which duplicates the
odd-indexed lanes. -/
def shuffle_1_1_3_3 (a : ssei) : ssei := ⟨a.v1, a.v1, a.v3, a.v3⟩

/-- The specialisation `shuffle<0, 1, 0, 1>`: `_mm_movedup_pd`, which duplicates the low 64 bits,
i.e. lanes 0 and 1. -/
def shuffle_0_1_0_1 (a : ssei) : ssei := ⟨a.v0, a.v1, a.v0, a.v1⟩

/-- The function that a call `shuffle<i0,i1,i2,i3>(a)` resolves to: one of the three explicit
specialisations when the indices are theirs, the generic template otherwise. -/
def shuffleCall (i0 i1 i2 i3 : Fin 4) (a : ssei) : ssei :=
  if i0 = 0 ∧ i1 = 0 ∧ i2 = 2 ∧ i3 = 2 then shuffle_0_0_2_2 a
  else if i0 = 1 ∧ i1 = 1 ∧ i2 = 3 ∧ i3 = 3 then shuffle_1_1_3_3 a
  else if i0 = 0 ∧ i1 = 1 ∧ i2 = 0 ∧ i3 = 1 then shuffle_0_1_0_1 a
  else shuffle i0 i1 i2 i3 a

/-- The two-vector `shuffle<i0,i1,i2,i3>(a, b)`: `_mm_shuffle_ps(a, b, _MM_SHUFFLE(i3,i2,i1,i0))`,
whose two low result lanes are lanes `i0`, `i1` of the first operand and whose two high result
lanes are lanes `i2`, `i3` of the second operand. -/
def shuffle2 (i0 i1 i2 i3 : Fin 4) (a b : ssei) : ssei :=
  ⟨a[i0.val], a[i1.val], b[i2.val], b[i3.val]⟩

/-- The lane write `insert<dst>(a, b)`: `_mm_insert_epi32(a, b, dst)`, a copy of `a` with lane
`dst` replaced by `b`. -/
def insert (dst : Fin 4) (a : ssei) (b : Int) : ssei :=
  match dst with
  | 0 => { a with v0 := b }
  | 1 => { a with v1 := b }
  | 2 => { a with v2 := b }
  | 3 => { a with v3 := b }

/-- The 32-bit pattern of an `int32` read as an unsigned integer. -/
def toUInt32 (x : Int) : Int := x % 4294967296

/-! ## The descriptor translator: dispatch -/

/-- The record layouts that the overloads of `createGeometryDesc` write. -/
inductive DescLayout
  | triangles
  | quads
  | procedural
  | instanceWide
  | instanceDefault
deriving DecidableEq, Repr

/-- What a call of `createGeometryDesc` does to the output location, as far as the layout is
concerned: the record layout written, the number of bytes its `memset` zero-fills, and whether the
`dynamic_cast` of the geometry to the class of the overload yields an object (a triangle mesh for
the triangles overload, a quad mesh for the quads overload, an instance for the instance
overloads).  The field values are not part of this summary. -/
structure DescWrite where
  layout : DescLayout
  zeroFilled : Nat
  castOk : Bool
deriving DecidableEq, Repr

/-- The overload `createGeometryDesc(GEOMETRY_INSTANCE_DESC* out, scene, Instance* geom)`:
`assert(geom->gsubtype == AccelSet::GTY_SUBTYPE_INSTANCE_QUATERNION);
memset(out,0,sizeof(GEOMETRY_INSTANCE_DESC)); ...`. -/
def createGeometryDesc_instanceWide (L : TypeSizes) (geom : Geometry) : Checked DescWrite :=
  ⟨⟨.instanceWide, L.sizeof_GEOMETRY_INSTANCE_DESC, geom.gtype.isInstance⟩,
    decide (geom.gsubtype = GSubType.GTY_SUBTYPE_INSTANCE_QUATERNION)⟩

/-- The overload
`createGeometryDesc(ze_rtas_builder_instance_geometry_info_exp_t* out, scene, Instance* geom)`:
`assert(geom->gsubtype == AccelSet::GTY_SUBTYPE_DEFAULT);
memset(out,0,sizeof(ze_rtas_builder_instance_geometry_info_exp_t)); ...`. -/
def createGeometryDesc_instanceDefault (L : TypeSizes) (geom : Geometry) : Checked DescWrite :=
  ⟨⟨.instanceDefault, L.sizeof_instance, geom.gtype.isInstance⟩,
    decide (geom.gsubtype = GSubType.GTY_SUBTYPE_DEFAULT)⟩

/-- The dispatcher `createGeometryDesc(char* out, scene, geom, type)`: the `switch` over
`type.type` and, for instances, the test `if (type.extraBytes)`.  The triangles, quads and
procedural overloads have no assertion.  The `default: assert(false)` branch has no counterpart,
the tag type having exactly the four constructors. -/
def createGeometryDesc (L : TypeSizes) (geom : Geometry) (type : GEOMETRY_TYPE) :
    Checked DescWrite :=
  match type.type with
  | .TRIANGLES =>
    ⟨⟨.triangles, L.sizeof_triangles, decide (geom.gtype = GType.GTY_TRIANGLE_MESH)⟩, true⟩
  | .QUADS => ⟨⟨.quads, L.sizeof_quads, decide (geom.gtype = GType.GTY_QUAD_MESH)⟩, true⟩
  | .PROCEDURAL => ⟨⟨.procedural, L.sizeof_procedural, true⟩, true⟩
  | .INSTANCE =>
    if type.extraBytes ≠ 0 then createGeometryDesc_instanceWide L geom
    else createGeometryDesc_instanceDefault L geom

/-! ## Bounding boxes and the bounds a run accumulates -/

/-- Modelled from the spec: one coordinate of a bounding box (the type `BBox3f` and its `float`
coordinates belong to headers that are not part of the sources at hand): a finite value or one of
the two infinities.  Finite values are integers here; only their order matters. -/
inductive Coord
  | negInf
  | fin (x : Int)
  | posInf
deriving DecidableEq, Repr

/-- Modelled from the spec: the order of the coordinates, `-inf <= x <= +inf`. -/
def Coord.le : Coord → Coord → Bool
  | .negInf, _ => true
  | _, .posInf => true
  | .fin x, .fin y => decide (x ≤ y)
  | _, _ => false

/-- Modelled from the spec: the smaller of two coordinates. -/
def Coord.min (a b : Coord) : Coord := if a.le b then a else b

/-- Modelled from the spec: the larger of two coordinates. -/
def Coord.max (a b : Coord) : Coord := if a.le b then b else a

/-- Modelled from the spec: a point with three coordinates. -/
structure Vec3f where
  x : Coord
  y : Coord
  z : Coord
deriving DecidableEq, Repr

/-- Modelled from the spec: the box type `BBox3f`, "three-component min/max float triples". -/
structure BBox3f where
  lower : Vec3f
  upper : Vec3f
deriving DecidableEq, Repr

/-- Modelled from the spec: the empty box, "lower = +inf, upper = -inf on all 3 axes". -/
def BBox3f.empty : BBox3f :=
  ⟨⟨.posInf, .posInf, .posInf⟩, ⟨.negInf, .negInf, .negInf⟩⟩

/-- Modelled from the spec: `extend`, the "min/max extend" of a box by another box: the
component-wise minimum of the lower corners and maximum of the upper corners. -/
def BBox3f.extend (a b : BBox3f) : BBox3f :=
  ⟨⟨a.lower.x.min b.lower.x, a.lower.y.min b.lower.y, a.lower.z.min b.lower.z⟩,
   ⟨a.upper.x.max b.upper.x, a.upper.y.max b.upper.y, a.upper.z.max b.upper.z⟩⟩

/-- The operations of `BBox3f` that the build loop uses. -/
def boxOps : BoundsOps BBox3f := ⟨BBox3f.empty, BBox3f.extend⟩

/-- The contents of `bounds` after a segment build (the empty box for a build whose reply never
reaches the `extend`). -/
def SegmentReply.reported {β : Type} (ops : BoundsOps β) : SegmentReply β → β
  | .completed _ bounds => bounds
  | .propertiesFailed => ops.empty

/-- The box `init` extended, in call order, by the bounds reported by the `count` segment builds
number `first`, `first + 1`, ... of the run. -/
def extendReported {β : Type} (drv : Driver β) (ops : BoundsOps β) (init : β)
    (first count : Nat) : β :=
  (List.range' first count).foldl (fun fb k => ops.extend fb ((drv.build k).reported ops)) init

/-! ## Example data -/

/-- Record sizes and alignments in the style of a 64-bit target: 8-byte aligned records, with the
wide instance record 64 bytes longer than the default one. -/
def exampleSizes : TypeSizes where
  sizeof_triangles := 56
  sizeof_quads := 56
  sizeof_procedural := 36
  sizeof_instance := 44
  sizeof_GEOMETRY_INSTANCE_DESC := 108
  alignof_triangles := 8
  alignof_quads := 8
  alignof_procedural := 8
  alignof_instance := 8
  sizeof_EmbreeHWAccel := 72

/-- The single-level-instancing configuration with ray masks enabled. -/
def exampleConfig : BuildConfig := ⟨1, true⟩

/-- A scene with a static triangle mesh, a null slot, a motion-blurred quad mesh with three time
segments, a quaternion instance with a narrow mask, and a static curve. -/
def exampleScene : Scene where
  geometries :=
    [some { gtype := GType.GTY_TRIANGLE_MESH },
     none,
     some { gtype := GType.GTY_QUAD_MESH, numTimeSegments := 3 },
     some { gtype := GType.GTY_INSTANCE_CHEAP, mask := 0x7F,
            gsubtype := GSubType.GTY_SUBTYPE_INSTANCE_QUATERNION },
     some { gtype := GType.GTY_ROUND_BEZIER_CURVE }]

/-- Bounds that carry no information, for runs in which only sizes and calls matter. -/
def exampleOps : BoundsOps Unit := ⟨(), fun _ _ => ()⟩

/-- A driver whose estimate is 1000 bytes expected and 4096 bytes at most per segment, and whose
second segment build (call 1) reports out-of-host-memory while every other one succeeds. -/
def exampleDriver : Driver Unit where
  isGPUDevice := true
  builderCreate := .SUCCESS
  parallelOperationCreate := .SUCCESS
  getRTASProperties := .SUCCESS
  getBuildProperties := .SUCCESS
  rtasBufferSizeBytesExpected := 1000
  rtasBufferSizeBytesMax := 4096
  scratchBufferSizeBytes := 64
  build := fun n =>
    if n = 1 then .completed .ERROR_OUT_OF_HOST_MEMORY () else .completed .SUCCESS ()
  parallelOperationDestroy := .SUCCESS
  builderDestroy := .SUCCESS

/-- A driver with the same estimate whose segment builds all report out-of-host-memory. -/
def oomDriver : Driver Unit :=
  { exampleDriver with build := fun _ => .completed .ERROR_OUT_OF_HOST_MEMORY () }

/-- A driver whose estimate is 0 bytes expected and 128 bytes at most per segment, and whose
segment builds all report out-of-host-memory. -/
def zeroEstimateDriver : Driver Unit :=
  { oomDriver with rtasBufferSizeBytesExpected := 0, rtasBufferSizeBytesMax := 128 }

/-- The scene without geometry slots. -/
def emptyScene : Scene := ⟨[]⟩

/-- The loop variables on entry to the build loop for an estimate of 1000 bytes and an empty
output buffer. -/
def exampleState : BuildState Unit := ⟨1000, 0, (), .SUCCESS, []⟩

/-- The call the segment loop issues for segment `s` with header size `hb` and expected size
`expected`: the slice starts `hb + s*expected` bytes into the buffer and is `expected` bytes long. -/
def segmentCall (hb expected s : Nat) : BuildCall :=
  ⟨s, hb + (s * expected) % SIZE_MOD, expected⟩

/-- Flag constants in the style of the headers: the scene flag `COMPACT` is bit 1, the build flags
`COMPACT` and `NO_DUPLICATE_ANYHIT_INVOCATION` are bits 0 and 1. -/
def exampleFlagBits : BuildFlagBits := ⟨2, 0, 1, 2⟩

/-- Materialisation over integer coordinates for a geometry with four primitives: primitive
`primID` has the box `[primID, primID + 1]^3`, except primitive 2, which is invalid; the
motion-blur materialisation widens the box by the time range. -/
def examplePrimRefOps : PrimRefOps Int Int where
  pos_inf := 1000000
  neg_inf := -1000000
  createPrimRefArray := fun _ primID =>
    if primID = 2 then (0, ⟨⟨0, 0, 0⟩, ⟨0, 0, 0⟩⟩)
    else (1, ⟨⟨primID, primID, primID⟩, ⟨primID + 1, primID + 1, primID + 1⟩⟩)
  createPrimRefArrayMB := fun _ t primID =>
    if primID = 2 then (0, ⟨⟨0, 0, 0⟩, ⟨0, 0, 0⟩⟩)
    else (1, ⟨⟨primID, primID, primID⟩, ⟨primID + 1 + t, primID + 1 + t, primID + 1 + t⟩⟩)

/-- A driver with the example estimate whose second segment build (call 1) ends with an error
that is neither success nor out-of-host-memory. -/
def otherErrorDriver : Driver Unit :=
  { exampleDriver with
    build := fun n => if n = 1 then .completed .ERROR_OTHER () else .completed .SUCCESS () }

/-- The cube `[lo, hi]^3`. -/
def cube (lo hi : Int) : BBox3f := ⟨⟨.fin lo, .fin lo, .fin lo⟩, ⟨.fin hi, .fin hi, .fin hi⟩⟩

/-- A scene with one motion-blurred quad mesh with two time segments. -/
def twoSegmentScene : Scene where
  geometries := [some { gtype := GType.GTY_QUAD_MESH, numTimeSegments := 2 }]

/-- A driver with the example estimate whose first pass builds segment 0 with bounds `[0,10]^3`
and then reports out-of-host-memory on segment 1 (call 1) without writing bounds, and whose
second pass builds segment 0 with bounds `[0,1]^3` and segment 1 with bounds `[0,2]^3`. -/
def boundsDriver : Driver BBox3f where
  isGPUDevice := true
  builderCreate := .SUCCESS
  parallelOperationCreate := .SUCCESS
  getRTASProperties := .SUCCESS
  getBuildProperties := .SUCCESS
  rtasBufferSizeBytesExpected := 1000
  rtasBufferSizeBytesMax := 4096
  scratchBufferSizeBytes := 64
  build := fun n =>
    if n = 0 then .completed .SUCCESS (cube 0 10)
    else if n = 1 then .completed .ERROR_OUT_OF_HOST_MEMORY BBox3f.empty
    else if n = 2 then .completed .SUCCESS (cube 0 1)
    else .completed .SUCCESS (cube 0 2)
  parallelOperationDestroy := .SUCCESS
  builderDestroy := .SUCCESS

/-- A driver with the same estimate whose builds all succeed: segment 0 with bounds `[0,1]^3`,
segment 1 without writing bounds. -/
def steadyDriver : Driver BBox3f :=
  { boundsDriver with
    build := fun n =>
      if n = 0 then .completed .SUCCESS (cube 0 1) else .completed .SUCCESS BBox3f.empty }

/-- Lane `j` is a valid lane of the mask holding the minimum of `v` over the valid lanes. -/
def validMinLane (valid : sseb) (v : ssei) (j : Nat) : Prop :=
  ∃ h : j < 4, valid[j] = true ∧ ∀ k (hk : k < 4), valid[k] = true → v[j] ≤ v[k]

/-- Lane `j` is a valid lane of the mask holding the maximum of `v` over the valid lanes. -/
def validMaxLane (valid : sseb) (v : ssei) (j : Nat) : Prop :=
  ∃ h : j < 4, valid[j] = true ∧ ∀ k (hk : k < 4), valid[k] = true → v[k] ≤ v[j]

/-! ## Theorems: the SIMD integer vector -/

/-- Every lane of `vreduce_min v` holds the scalar reduction. -/
theorem vreduce_min_lanes (v : ssei) :
    vreduce_min v = ⟨reduce_min v, reduce_min v, reduce_min v, reduce_min v⟩ := by
  obtain ⟨a, b, c, d⟩ := v
  simp only [vreduce_min, reduce_min, extract, shuffle, ssei.min, getElem, ssei.mk.injEq]
  refine ⟨trivial, ?_, ?_, ?_⟩ <;> simp only [min_def] <;> split_ifs <;> omega

/-- Every lane of `vreduce_max v` holds the scalar reduction. -/
theorem vreduce_max_lanes (v : ssei) :
    vreduce_max v = ⟨reduce_max v, reduce_max v, reduce_max v, reduce_max v⟩ := by
  obtain ⟨a, b, c, d⟩ := v
  simp only [vreduce_max, reduce_max, extract, shuffle, ssei.max, getElem, ssei.mk.injEq]
  refine ⟨trivial, ?_, ?_, ?_⟩ <;> simp only [max_def] <;> split_ifs <;> omega

/-- The scalar minimum written with the order's `min`. -/
theorem reduce_min_eq (v : ssei) :
    reduce_min v = Min.min (Min.min v.v0 v.v1) (Min.min v.v2 v.v3) := by
  obtain ⟨a, b, c, d⟩ := v
  simp only [vreduce_min, reduce_min, extract, shuffle, ssei.min, getElem]
  simp only [min_def]; split_ifs <;> omega

/-- The scalar maximum written with the order's `max`. -/
theorem reduce_max_eq (v : ssei) :
    reduce_max v = Max.max (Max.max v.v0 v.v1) (Max.max v.v2 v.v3) := by
  obtain ⟨a, b, c, d⟩ := v
  simp only [vreduce_max, reduce_max, extract, shuffle, ssei.max, getElem]
  simp only [max_def]; split_ifs <;> omega

/-- The first set lane of a mask, as `__bsf(movemask(m))` computes it. -/
theorem bsf_movemask (m : sseb) :
    bsf (movemask m) =
      if m.b0 then some 0 else if m.b1 then some 1 else if m.b2 then some 2
      else if m.b3 then some 3 else none := by
  obtain ⟨b0, b1, b2, b3⟩ := m
  cases b0 <;> cases b1 <;> cases b2 <;> cases b3 <;> rfl

/-- Lane access unfolded to the fields. -/
theorem ssei_getElem_eq (a : ssei) (i : Nat) (h : i < 4) :
    a[i] = if i = 0 then a.v0 else if i = 1 then a.v1 else if i = 2 then a.v2 else a.v3 := by
  match i, h with
  | 0, _ => rfl
  | 1, _ => rfl
  | 2, _ => rfl
  | 3, _ => rfl

/-- Mask lane access unfolded to the fields. -/
theorem sseb_getElem_eq (m : sseb) (i : Nat) (h : i < 4) :
    m[i] = if i = 0 then m.b0 else if i = 1 then m.b1 else if i = 2 then m.b2 else m.b3 := by
  match i, h with
  | 0, _ => rfl
  | 1, _ => rfl
  | 2, _ => rfl
  | 3, _ => rfl

/-- C1. For every 4-lane vector `a`, `reduce_min a` is the smallest of `a[0], a[1], a[2], a[3]` and
`reduce_max a` is the largest of them (signed comparison): each equals the nested `min` / `max` of
the four lanes, bounds every lane, and is the value of some lane. -/
theorem C1_reduce_min_max (a : ssei) :
    (reduce_min a = Min.min (Min.min a[0] a[1]) (Min.min a[2] a[3]) ∧
      (∀ i (h : i < 4), reduce_min a ≤ a[i]) ∧ (∃ i, ∃ h : i < 4, a[i] = reduce_min a)) ∧
    (reduce_max a = Max.max (Max.max a[0] a[1]) (Max.max a[2] a[3]) ∧
      (∀ i (h : i < 4), a[i] ≤ reduce_max a) ∧ (∃ i, ∃ h : i < 4, a[i] = reduce_max a)) := by
  have hmin := reduce_min_eq a
  have hmax := reduce_max_eq a
  refine ⟨⟨hmin, ?_, ?_⟩, ⟨hmax, ?_, ?_⟩⟩
  · intro i h
    rw [ssei_getElem_eq, hmin]
    simp only [min_def]; split_ifs <;> omega
  · have h4 : reduce_min a = a.v0 ∨ reduce_min a = a.v1 ∨ reduce_min a = a.v2 ∨
        reduce_min a = a.v3 := by
      rw [hmin]; simp only [min_def]; split_ifs <;> simp
    rcases h4 with h | h | h | h
    · exact ⟨0, by decide, h.symm⟩
    · exact ⟨1, by decide, h.symm⟩
    · exact ⟨2, by decide, h.symm⟩
    · exact ⟨3, by decide, h.symm⟩
  · intro i h
    rw [ssei_getElem_eq, hmax]
    simp only [max_def]; split_ifs <;> omega
  · have h4 : reduce_max a = a.v0 ∨ reduce_max a = a.v1 ∨ reduce_max a = a.v2 ∨
        reduce_max a = a.v3 := by
      rw [hmax]; simp only [max_def]; split_ifs <;> simp
    rcases h4 with h | h | h | h
    · exact ⟨0, by decide, h.symm⟩
    · exact ⟨1, by decide, h.symm⟩
    · exact ⟨2, by decide, h.symm⟩
    · exact ⟨3, by decide, h.symm⟩

/-- Lane `i` of a select is the lane of the first operand under a set mask lane and the lane of
the second operand otherwise. -/
theorem select_getElem (m : sseb) (a b : ssei) (i : Nat) (h : i < 4) :
    (select m a b)[i] = if m[i] = true then a[i] else b[i] := by
  match i, h with
  | 0, _ => rfl
  | 1, _ => rfl
  | 2, _ => rfl
  | 3, _ => rfl

/-- C2. For every mask `m`, vectors `a`, `b` and lane `i` in `0..3`, lane `i` of `select m a b` is
`a[i]` when mask lane `m[i]` is true and `b[i]` when it is false. -/
theorem C2_select_lane (m : sseb) (a b : ssei) (i : Nat) (h : i < 4) :
    (select m a b)[i] = if m[i] = true then a[i] else b[i] :=
  select_getElem m a b i h

/-- Witness for C2 at a concrete mask and lane. -/
theorem C2_select_lane_witness :
    (select ⟨true, false, true, false⟩ ⟨1, 2, 3, 4⟩ ⟨5, 6, 7, 8⟩)[1] =
      if (⟨true, false, true, false⟩ : sseb)[1] = true then (⟨1, 2, 3, 4⟩ : ssei)[1]
      else (⟨5, 6, 7, 8⟩ : ssei)[1] :=
  C2_select_lane ⟨true, false, true, false⟩ ⟨1, 2, 3, 4⟩ ⟨5, 6, 7, 8⟩ 1 (by decide)

/-- The first lane of `v` equal to `m`, when there is one, is what the equality mask against the
broadcast of `m` yields under `__bsf(movemask(.))`. -/
theorem first_equal_lane (v : ssei) (m : Int)
    (hm : v.v0 = m ∨ v.v1 = m ∨ v.v2 = m ∨ v.v3 = m) :
    ∃ i, ∃ h : i < 4, bsf (movemask (v.eq ⟨m, m, m, m⟩)) = some i ∧ v[i] = m ∧
      ∀ j (hj : j < i), v[j] ≠ m := by
  rw [bsf_movemask]
  simp only [ssei.eq]
  by_cases h0 : v.v0 = m
  · refine ⟨0, by decide, by simp [h0], h0, ?_⟩
    intro j hj; omega
  by_cases h1 : v.v1 = m
  · refine ⟨1, by decide, by simp [h0, h1], h1, ?_⟩
    intro j hj
    have : j = 0 := by omega
    subst this; exact h0
  by_cases h2 : v.v2 = m
  · refine ⟨2, by decide, by simp [h0, h1, h2], h2, ?_⟩
    intro j hj
    have : j = 0 ∨ j = 1 := by omega
    rcases this with rfl | rfl
    · exact h0
    · exact h1
  have h3 : v.v3 = m := by tauto
  refine ⟨3, by decide, by simp [h0, h1, h2, h3], h3, ?_⟩
  intro j hj
  have : j = 0 ∨ j = 1 ∨ j = 2 := by omega
  rcases this with rfl | rfl | rfl
  · exact h0
  · exact h1
  · exact h2

/-- The minimum is the value of one of the lanes. -/
theorem reduce_min_mem (v : ssei) :
    v.v0 = reduce_min v ∨ v.v1 = reduce_min v ∨ v.v2 = reduce_min v ∨ v.v3 = reduce_min v := by
  rw [reduce_min_eq]; simp only [min_def]; split_ifs <;> simp

/-- The maximum is the value of one of the lanes. -/
theorem reduce_max_mem (v : ssei) :
    v.v0 = reduce_max v ∨ v.v1 = reduce_max v ∨ v.v2 = reduce_max v ∨ v.v3 = reduce_max v := by
  rw [reduce_max_eq]; simp only [max_def]; split_ifs <;> simp

/-- C3. For every vector `v`, `select_min v` returns the lowest lane index `i` in `0..3` with
`v[i] = reduce_min v`, and `select_max v` returns the lowest lane index `i` with
`v[i] = reduce_max v`: ties go to the lowest index. -/
theorem C3_select_min_max (v : ssei) :
    (∃ i, ∃ h : i < 4, select_min v = some i ∧ v[i] = reduce_min v ∧
      ∀ j (hj : j < i), v[j] ≠ reduce_min v) ∧
    (∃ i, ∃ h : i < 4, select_max v = some i ∧ v[i] = reduce_max v ∧
      ∀ j (hj : j < i), v[j] ≠ reduce_max v) := by
  constructor
  · unfold select_min
    rw [vreduce_min_lanes]
    exact first_equal_lane v (reduce_min v) (reduce_min_mem v)
  · unfold select_max
    rw [vreduce_max_lanes]
    exact first_equal_lane v (reduce_max v) (reduce_max_mem v)

/-- The first lane that is both valid and equal to `m`, when there is one, is what
`__bsf(movemask(valid & (a == m)))` yields. -/
theorem first_valid_equal_lane (valid : sseb) (a : ssei) (m : Int)
    (hm : (valid.b0 = true ∧ a.v0 = m) ∨ (valid.b1 = true ∧ a.v1 = m) ∨
      (valid.b2 = true ∧ a.v2 = m) ∨ (valid.b3 = true ∧ a.v3 = m)) :
    ∃ i, ∃ h : i < 4, bsf (movemask (valid.and (a.eq ⟨m, m, m, m⟩))) = some i ∧
      (valid[i] = true ∧ a[i] = m) ∧ ∀ j (hj : j < i), ¬ (valid[j] = true ∧ a[j] = m) := by
  rw [bsf_movemask]
  simp only [ssei.eq, sseb.and, Bool.and_eq_true, decide_eq_true_eq]
  by_cases h0 : valid.b0 = true ∧ a.v0 = m
  · refine ⟨0, by decide, by simp [h0], h0, ?_⟩
    intro j hj; omega
  by_cases h1 : valid.b1 = true ∧ a.v1 = m
  · refine ⟨1, by decide, by simp [h0, h1], h1, ?_⟩
    intro j hj
    have : j = 0 := by omega
    subst this; exact h0
  by_cases h2 : valid.b2 = true ∧ a.v2 = m
  · refine ⟨2, by decide, by simp [h0, h1, h2], h2, ?_⟩
    intro j hj
    have : j = 0 ∨ j = 1 := by omega
    rcases this with rfl | rfl
    · exact h0
    · exact h1
  have h3 : valid.b3 = true ∧ a.v3 = m := by tauto
  refine ⟨3, by decide, by simp [h0, h1, h2, h3], h3, ?_⟩
  intro j hj
  have : j = 0 ∨ j = 1 ∨ j = 2 := by omega
  rcases this with rfl | rfl | rfl
  · exact h0
  · exact h1
  · exact h2

/-- With invalid lanes replaced by `pos_inf`, the minimum is attained on a valid lane (there is
one) and bounds every valid lane of `v` from below. -/
theorem masked_min_facts (valid : sseb) (v : ssei) (hv : v.inRange)
    (hne : valid.b0 = true ∨ valid.b1 = true ∨ valid.b2 = true ∨ valid.b3 = true) :
    ((valid.b0 = true ∧ (select valid v ssei.ofPosInf).v0 = reduce_min (select valid v ssei.ofPosInf)) ∨
     (valid.b1 = true ∧ (select valid v ssei.ofPosInf).v1 = reduce_min (select valid v ssei.ofPosInf)) ∨
     (valid.b2 = true ∧ (select valid v ssei.ofPosInf).v2 = reduce_min (select valid v ssei.ofPosInf)) ∨
     (valid.b3 = true ∧ (select valid v ssei.ofPosInf).v3 = reduce_min (select valid v ssei.ofPosInf))) ∧
    (valid.b0 = true → reduce_min (select valid v ssei.ofPosInf) ≤ v.v0) ∧
    (valid.b1 = true → reduce_min (select valid v ssei.ofPosInf) ≤ v.v1) ∧
    (valid.b2 = true → reduce_min (select valid v ssei.ofPosInf) ≤ v.v2) ∧
    (valid.b3 = true → reduce_min (select valid v ssei.ofPosInf) ≤ v.v3) := by
  obtain ⟨b0, b1, b2, b3⟩ := valid
  obtain ⟨x0, x1, x2, x3⟩ := v
  simp only [ssei.inRange, isInt32] at hv
  rw [reduce_min_eq]
  simp only [select, ssei.ofPosInf, pos_inf]
  cases b0 <;> cases b1 <;> cases b2 <;> cases b3 <;>
    simp only [Bool.false_eq_true, if_false, if_true, false_and, true_and, false_or, or_false,
      or_self, false_implies, true_implies, and_true, true_and] at hne ⊢ <;>
    omega

/-- With invalid lanes replaced by `neg_inf`, the maximum is attained on a valid lane (there is
one) and bounds every valid lane of `v` from above. -/
theorem masked_max_facts (valid : sseb) (v : ssei) (hv : v.inRange)
    (hne : valid.b0 = true ∨ valid.b1 = true ∨ valid.b2 = true ∨ valid.b3 = true) :
    ((valid.b0 = true ∧ (select valid v ssei.ofNegInf).v0 = reduce_max (select valid v ssei.ofNegInf)) ∨
     (valid.b1 = true ∧ (select valid v ssei.ofNegInf).v1 = reduce_max (select valid v ssei.ofNegInf)) ∨
     (valid.b2 = true ∧ (select valid v ssei.ofNegInf).v2 = reduce_max (select valid v ssei.ofNegInf)) ∨
     (valid.b3 = true ∧ (select valid v ssei.ofNegInf).v3 = reduce_max (select valid v ssei.ofNegInf))) ∧
    (valid.b0 = true → v.v0 ≤ reduce_max (select valid v ssei.ofNegInf)) ∧
    (valid.b1 = true → v.v1 ≤ reduce_max (select valid v ssei.ofNegInf)) ∧
    (valid.b2 = true → v.v2 ≤ reduce_max (select valid v ssei.ofNegInf)) ∧
    (valid.b3 = true → v.v3 ≤ reduce_max (select valid v ssei.ofNegInf)) := by
  obtain ⟨b0, b1, b2, b3⟩ := valid
  obtain ⟨x0, x1, x2, x3⟩ := v
  simp only [ssei.inRange, isInt32] at hv
  rw [reduce_max_eq]
  simp only [select, ssei.ofNegInf, neg_inf]
  cases b0 <;> cases b1 <;> cases b2 <;> cases b3 <;>
    simp only [Bool.false_eq_true, if_false, if_true, false_and, true_and, false_or, or_false,
      or_self, false_implies, true_implies, and_true, true_and] at hne ⊢ <;>
    omega

/-- A mask with a set lane, in field form. -/
theorem sseb_exists_lane (valid : sseb) (hne : ∃ k, ∃ h : k < 4, valid[k] = true) :
    valid.b0 = true ∨ valid.b1 = true ∨ valid.b2 = true ∨ valid.b3 = true := by
  obtain ⟨k, hk, hv⟩ := hne
  rw [sseb_getElem_eq] at hv
  split_ifs at hv <;> simp [hv]

/-- A property of the four fields, in lane-indexed form. -/
theorem sseb_forall_lane (valid : sseb) (P : Nat → Prop)
    (h0 : valid.b0 = true → P 0) (h1 : valid.b1 = true → P 1)
    (h2 : valid.b2 = true → P 2) (h3 : valid.b3 = true → P 3)
    (k : Nat) (hk : k < 4) (hv : valid[k] = true) : P k := by
  match k, hk with
  | 0, _ => exact h0 hv
  | 1, _ => exact h1 hv
  | 2, _ => exact h2 hv
  | 3, _ => exact h3 hv

/-- C4. For every validity mask with at least one lane set and every vector `v` of `int32` lanes,
`select_min(valid,v)` returns a lane `i` that is valid, holds the minimum of `v` over the valid
lanes, and is the lowest such lane; symmetrically `select_max(valid,v)` returns the lowest valid
lane holding the maximum over the valid lanes.  The returned lane is always a valid one, whatever
the values in the invalid lanes (the sentinels are `INT_MAX` / `INT_MIN`). -/
theorem C4_select_min_max_valid (valid : sseb) (v : ssei) (hv : v.inRange)
    (hne : ∃ k, ∃ h : k < 4, valid[k] = true) :
    (∃ i, select_min_valid valid v = some i ∧ validMinLane valid v i ∧
      ∀ j, j < i → ¬ validMinLane valid v j) ∧
    (∃ i, select_max_valid valid v = some i ∧ validMaxLane valid v i ∧
      ∀ j, j < i → ¬ validMaxLane valid v j) := by
  have hne4 := sseb_exists_lane valid hne
  constructor
  · obtain ⟨hmem, l0, l1, l2, l3⟩ := masked_min_facts valid v hv hne4
    have hle : ∀ k (hk : k < 4), valid[k] = true →
        reduce_min (select valid v ssei.ofPosInf) ≤ v[k] := fun k hk hvk =>
      sseb_forall_lane valid (fun k => ∀ hk : k < 4,
        reduce_min (select valid v ssei.ofPosInf) ≤ v[k])
        (fun h _ => l0 h) (fun h _ => l1 h) (fun h _ => l2 h) (fun h _ => l3 h) k hk hvk hk
    obtain ⟨i, hi, hsel, ⟨hvi, hai⟩, hlow⟩ :=
      first_valid_equal_lane valid (select valid v ssei.ofPosInf) _ hmem
    rw [select_getElem, if_pos hvi] at hai
    refine ⟨i, ?_, ⟨hi, hvi, ?_⟩, ?_⟩
    · unfold select_min_valid
      simp only []
      rw [vreduce_min_lanes]; exact hsel
    · intro k hk hvk
      rw [hai]; exact hle k hk hvk
    · rintro j hj ⟨hj4, hvj, hmin⟩
      apply hlow j hj
      refine ⟨hvj, ?_⟩
      rw [select_getElem, if_pos hvj]
      have h1 := hmin i hi hvi
      have h2 := hle j hj4 hvj
      omega
  · obtain ⟨hmem, l0, l1, l2, l3⟩ := masked_max_facts valid v hv hne4
    have hle : ∀ k (hk : k < 4), valid[k] = true →
        v[k] ≤ reduce_max (select valid v ssei.ofNegInf) := fun k hk hvk =>
      sseb_forall_lane valid (fun k => ∀ hk : k < 4,
        v[k] ≤ reduce_max (select valid v ssei.ofNegInf))
        (fun h _ => l0 h) (fun h _ => l1 h) (fun h _ => l2 h) (fun h _ => l3 h) k hk hvk hk
    obtain ⟨i, hi, hsel, ⟨hvi, hai⟩, hlow⟩ :=
      first_valid_equal_lane valid (select valid v ssei.ofNegInf) _ hmem
    rw [select_getElem, if_pos hvi] at hai
    refine ⟨i, ?_, ⟨hi, hvi, ?_⟩, ?_⟩
    · unfold select_max_valid
      simp only []
      rw [vreduce_max_lanes]; exact hsel
    · intro k hk hvk
      rw [hai]; exact hle k hk hvk
    · rintro j hj ⟨hj4, hvj, hmax⟩
      apply hlow j hj
      refine ⟨hvj, ?_⟩
      rw [select_getElem, if_pos hvj]
      have h1 := hmax i hi hvi
      have h2 := hle j hj4 hvj
      omega

/-- Witness for C4: lanes 0 and 3 are invalid although they hold the extreme values. -/
theorem C4_select_min_max_valid_witness :
    (⟨-5, 7, 3, 100⟩ : ssei).inRange ∧
    (∃ k, ∃ h : k < 4, (⟨false, true, true, false⟩ : sseb)[k] = true) ∧
    ((∃ i, select_min_valid ⟨false, true, true, false⟩ ⟨-5, 7, 3, 100⟩ = some i ∧
        validMinLane ⟨false, true, true, false⟩ ⟨-5, 7, 3, 100⟩ i ∧
        ∀ j, j < i → ¬ validMinLane ⟨false, true, true, false⟩ ⟨-5, 7, 3, 100⟩ j) ∧
      (∃ i, select_max_valid ⟨false, true, true, false⟩ ⟨-5, 7, 3, 100⟩ = some i ∧
        validMaxLane ⟨false, true, true, false⟩ ⟨-5, 7, 3, 100⟩ i ∧
        ∀ j, j < i → ¬ validMaxLane ⟨false, true, true, false⟩ ⟨-5, 7, 3, 100⟩ j)) :=
  ⟨by decide, ⟨1, by decide, rfl⟩,
    C4_select_min_max_valid ⟨false, true, true, false⟩ ⟨-5, 7, 3, 100⟩ (by decide)
      ⟨1, by decide, rfl⟩⟩

/-- The masked searches evaluated on the vector of the C4 witness. -/
theorem select_valid_example :
    select_min_valid ⟨false, true, true, false⟩ ⟨-5, 7, 3, 100⟩ = some 2 ∧
    select_max_valid ⟨false, true, true, false⟩ ⟨-5, 7, 3, 100⟩ = some 1 ∧
    select_min ⟨4, 1, 9, 1⟩ = some 1 ∧ select_max ⟨4, 9, 9, 1⟩ = some 1 := by
  decide

/-! ## Theorems: time segments and classification -/

/-- The time-segment counts of the non-null slots of a scene. -/
theorem maxTimeSegments_foldl (l : List (Option Geometry)) (m : Nat) :
    l.foldl
      (fun m slot =>
        match slot with
        | none => m
        | some geom => Max.max m geom.numTimeSegments) m =
    Max.max m (((l.filterMap id).map Geometry.numTimeSegments).foldr Max.max 0) := by
  induction l generalizing m with
  | nil => simp
  | cons slot l ih =>
    cases slot with
    | none => simpa using ih m
    | some geom =>
      simp only [List.foldl_cons, List.filterMap_cons, id, List.map_cons, List.foldr_cons]
      rw [ih]
      omega

/-- The `foldr max 0` of a list bounds its members and, on a non-empty list, is one of them. -/
theorem foldr_max_spec (l : List Nat) :
    (∀ x ∈ l, x ≤ l.foldr Max.max 0) ∧ (l = [] ∨ l.foldr Max.max 0 ∈ l) := by
  induction l with
  | nil => simp
  | cons a l ih =>
    obtain ⟨ih1, ih2⟩ := ih
    constructor
    · intro x hx
      simp only [List.mem_cons] at hx
      simp only [List.foldr_cons]
      rcases hx with rfl | hx
      · omega
      · have := ih1 x hx; omega
    · right
      simp only [List.foldr_cons, List.mem_cons]
      rcases ih2 with rfl | h
      · left; simp
      · by_cases hc : l.foldr Max.max 0 ≤ a
        · left; omega
        · right
          have : Max.max a (l.foldr Max.max 0) = l.foldr Max.max 0 := by omega
          rw [this]; exact h

/-- C9. For every scene, `maxTimeSegments` is `max(1, maximum of numTimeSegments() over the
non-null slots)`: it is at least 1, bounds the count of every non-null geometry, and is either 1 or
the count of one of them; null slots are skipped, and a scene with no geometry or only static
geometry yields 1. -/
theorem C9_maxTimeSegments (scene : Scene) :
    maxTimeSegments scene =
      Max.max 1 (((scene.geometries.filterMap id).map Geometry.numTimeSegments).foldr Max.max 0) ∧
    1 ≤ maxTimeSegments scene ∧
    (∀ geom, some geom ∈ scene.geometries → geom.numTimeSegments ≤ maxTimeSegments scene) ∧
    (maxTimeSegments scene = 1 ∨
      ∃ geom, some geom ∈ scene.geometries ∧ geom.numTimeSegments = maxTimeSegments scene) ∧
    ((∀ geom, some geom ∈ scene.geometries → geom.numTimeSegments = 0) →
      maxTimeSegments scene = 1) ∧
    maxTimeSegments ⟨scene.geometries.filter Option.isSome⟩ = maxTimeSegments scene := by
  have heq : maxTimeSegments scene =
      Max.max 1 (((scene.geometries.filterMap id).map Geometry.numTimeSegments).foldr Max.max 0) :=
    maxTimeSegments_foldl scene.geometries 1
  obtain ⟨hb, hm⟩ :=
    foldr_max_spec ((scene.geometries.filterMap id).map Geometry.numTimeSegments)
  have hmem : ∀ geom, some geom ∈ scene.geometries →
      geom.numTimeSegments ∈ (scene.geometries.filterMap id).map Geometry.numTimeSegments := by
    intro geom hg
    exact List.mem_map.2 ⟨geom, List.mem_filterMap.2 ⟨some geom, hg, rfl⟩, rfl⟩
  refine ⟨heq, ?_, ?_, ?_, ?_, ?_⟩
  · omega
  · intro geom hg
    have := hb _ (hmem geom hg)
    omega
  · rcases hm with h | h
    · left; rw [heq, h]; rfl
    · obtain ⟨geom, hg, hn⟩ := List.mem_map.1 h
      obtain ⟨slot, hs, hid⟩ := List.mem_filterMap.1 hg
      simp only [id] at hid
      subst hid
      by_cases hc : ((scene.geometries.filterMap id).map Geometry.numTimeSegments).foldr
          Max.max 0 ≤ 1
      · left; omega
      · right; exact ⟨geom, hs, by omega⟩
  · intro hall
    rcases hm with h | h
    · rw [heq, h]; rfl
    · obtain ⟨geom, hg, hn⟩ := List.mem_map.1 h
      obtain ⟨slot, hs, hid⟩ := List.mem_filterMap.1 hg
      simp only [id] at hid
      subst hid
      have := hall geom hs
      omega
  · rw [heq]
    have : maxTimeSegments ⟨scene.geometries.filter Option.isSome⟩ = _ :=
      maxTimeSegments_foldl (scene.geometries.filter Option.isSome) 1
    rw [this]
    congr 3
    induction scene.geometries with
    | nil => rfl
    | cons slot l ih =>
      cases slot with
      | none => simpa using ih
      | some geom => simp [List.filter_cons, ih]

/-- C10. For every non-null scene geometry `g`, `getType` returns Procedural whenever
`g.numTimeSegments() > 0`, whatever its kind; when `numTimeSegments() == 0` it returns Triangles
exactly for triangle meshes and Quads exactly for quad meshes, so a Triangles / Quads tag is only
ever produced for a static mesh of the matching kind. -/
theorem C10_getType_motion_blur_and_meshes (L : TypeSizes) (cfg : BuildConfig) (g : Geometry) :
    (0 < g.numTimeSegments → getType L cfg g = ⟨⟨.PROCEDURAL, 0⟩, true⟩) ∧
    (g.numTimeSegments = 0 →
      ((getType L cfg g).val.type = .TRIANGLES ↔ g.gtype = .GTY_TRIANGLE_MESH) ∧
      ((getType L cfg g).val.type = .QUADS ↔ g.gtype = .GTY_QUAD_MESH)) ∧
    ((getType L cfg g).val.type = .TRIANGLES →
      g.numTimeSegments = 0 ∧ g.gtype = .GTY_TRIANGLE_MESH ∧ (getType L cfg g).ok = true) ∧
    ((getType L cfg g).val.type = .QUADS →
      g.numTimeSegments = 0 ∧ g.gtype = .GTY_QUAD_MESH ∧ (getType L cfg g).ok = true) := by
  obtain ⟨gtype, nts, mask, sub, inst, f1, f2⟩ := g
  by_cases h : 0 < nts
  · have hne : nts ≠ 0 := by omega
    simp [getType, h, hne, GEOMETRY_TYPE.procedural]
  · have h0 : nts = 0 := by omega
    subst h0
    cases gtype <;> simp [getType, GEOMETRY_TYPE.procedural] <;> split_ifs <;> simp

/-! ## Theorems: the descriptor layout -/

/-- Masking with `-2^k` in 64-bit arithmetic clears the low `k` bits. -/
theorem land_neg_two_pow (x k : Nat) (hx : x < 2 ^ 64) (hk : k ≤ 64) :
    x &&& (2 ^ 64 - 2 ^ k) = x / 2 ^ k * 2 ^ k := by
  apply Nat.eq_of_testBit_eq
  intro i
  have h1 : 2 ^ 64 - 2 ^ k = 2 ^ 64 - ((2 ^ k - 1) + 1) := by
    have := Nat.two_pow_pos k
    omega
  have h2 : 2 ^ k - 1 < 2 ^ 64 := by
    have : 2 ^ k ≤ 2 ^ 64 := Nat.pow_le_pow_right (by decide) hk
    have := Nat.two_pow_pos k
    omega
  rw [Nat.testBit_and, h1, Nat.testBit_two_pow_sub_succ h2, Nat.testBit_two_pow_sub_one,
    Nat.mul_comm, Nat.testBit_mul_pow_two, ← Nat.shiftRight_eq_div_pow, Nat.testBit_shiftRight]
  by_cases hik : k ≤ i
  · have e : k + (i - k) = i := by omega
    rw [e]
    by_cases hi : i < 64
    · have : ¬ i < k := by omega
      simp [hik, hi, this]
    · have hx' : x < 2 ^ i := lt_of_lt_of_le hx (Nat.pow_le_pow_right (by decide) (by omega))
      simp [Nat.testBit_lt_two_pow hx', hi]
  · have : i < k := by omega
    simp [hik, this]

/-- The function `padding` gives the least amount that brings `ofs` to a multiple of `a`. -/
theorem padding_spec (ofs a : Nat) (ha : 0 < a) :
    a ∣ ofs + padding ofs a ∧ padding ofs a < a ∧ ∀ p, a ∣ ofs + p → padding ofs a ≤ p := by
  unfold padding
  have hr : ofs % a < a := Nat.mod_lt _ ha
  by_cases h0 : ofs % a = 0
  · rw [h0, Nat.sub_zero, Nat.mod_self]
    exact ⟨by simpa using Nat.dvd_of_mod_eq_zero h0, ha, fun p _ => Nat.zero_le _⟩
  · have hlt : a - ofs % a < a := by omega
    rw [Nat.mod_eq_of_lt hlt]
    refine ⟨?_, hlt, ?_⟩
    · have h := Nat.div_add_mod ofs a
      refine ⟨ofs / a + 1, ?_⟩
      rw [Nat.mul_add, Nat.mul_one]
      omega
    · intro p hp
      by_contra hc
      have hp' : (ofs + p) % a = 0 := Nat.mod_eq_zero_of_dvd hp
      rw [Nat.add_mod] at hp'
      have hpa : p % a = p := Nat.mod_eq_of_lt (by omega)
      rw [hpa] at hp'
      have : ofs % a + p < a := by omega
      rw [Nat.mod_eq_of_lt this] at hp'
      omega

/-- Rounding up by division is adding the padding. -/
theorem roundUp_eq_add_padding (ofs a : Nat) (ha : 0 < a) :
    (ofs + a - 1) / a * a = ofs + padding ofs a := by
  unfold padding
  have hr : ofs % a < a := Nat.mod_lt _ ha
  have h := Nat.div_add_mod ofs a
  by_cases h0 : ofs % a = 0
  · rw [h0, Nat.sub_zero, Nat.mod_self, Nat.add_zero]
    have e : ofs + a - 1 = (a - 1) + a * (ofs / a) := by omega
    rw [e, Nat.add_mul_div_left _ _ ha, Nat.div_eq_of_lt (by omega), Nat.zero_add, Nat.mul_comm]
    omega
  · have hlt : a - ofs % a < a := by omega
    rw [Nat.mod_eq_of_lt hlt]
    have e : ofs + a - 1 = (ofs % a - 1) + a * (ofs / a + 1) := by
      rw [Nat.mul_add, Nat.mul_one]; omega
    rw [e, Nat.add_mul_div_left _ _ ha, Nat.div_eq_of_lt (by omega), Nat.zero_add, Nat.mul_comm,
      Nat.mul_add, Nat.mul_one]
    omega

/-- On a power-of-two alignment and without wrap-around, `align` adds exactly the padding. -/
theorem align_two_pow (ofs k : Nat) (hk : k ≤ 31) (hofs : ofs + 2 ^ 32 ≤ 2 ^ 64) :
    align ofs (2 ^ k) = ofs + padding ofs (2 ^ k) := by
  have hpos := Nat.two_pow_pos k
  have hle : 2 ^ k ≤ 2 ^ 31 := Nat.pow_le_pow_right (by decide) hk
  have e1 : (2 ^ k + SIZE_MOD - 1) % SIZE_MOD = 2 ^ k - 1 := by
    unfold SIZE_MOD
    have : 2 ^ k + 2 ^ 64 - 1 = (2 ^ k - 1) + 2 ^ 64 := by omega
    rw [this, Nat.add_mod_right, Nat.mod_eq_of_lt (by omega)]
  have e2 : (SIZE_MOD - 2 ^ k % SIZE_MOD) % SIZE_MOD = 2 ^ 64 - 2 ^ k := by
    unfold SIZE_MOD
    rw [Nat.mod_eq_of_lt (by omega : 2 ^ k < 2 ^ 64), Nat.mod_eq_of_lt (by omega)]
  have e3 : (ofs + (2 ^ k - 1)) % SIZE_MOD = ofs + 2 ^ k - 1 := by
    unfold SIZE_MOD
    rw [Nat.mod_eq_of_lt (by omega)]; omega
  unfold align
  rw [e1, e2, e3, land_neg_two_pow _ k (by omega) (by omega), roundUp_eq_add_padding _ _ hpos]

/-- The tags that `getType` can produce. -/
theorem getType_val_cases (L : TypeSizes) (cfg : BuildConfig) (g : Geometry) :
    (getType L cfg g).val = ⟨.PROCEDURAL, 0⟩ ∨ (getType L cfg g).val = ⟨.TRIANGLES, 0⟩ ∨
    (getType L cfg g).val = ⟨.QUADS, 0⟩ ∨ (getType L cfg g).val = ⟨.INSTANCE, 0⟩ ∨
    (getType L cfg g).val = ⟨.INSTANCE,
      (L.sizeof_GEOMETRY_INSTANCE_DESC + SIZE_MOD - L.sizeof_instance % SIZE_MOD) % SIZE_MOD⟩ := by
  obtain ⟨gtype, nts, mask, sub, inst, f1, f2⟩ := g
  by_cases h : 0 < nts
  · simp [getType, h, GEOMETRY_TYPE.procedural]
  · cases gtype <;> simp [getType, h, GEOMETRY_TYPE.procedural] <;> split_ifs <;> simp

/-- Under well-formed sizes every record produced by `getType` has a power-of-two alignment of at
most `2^31` and a size below `2^31`. -/
theorem record_bounds (L : TypeSizes) (cfg : BuildConfig) (hL : L.wellFormed) (g : Geometry) :
    (∃ k, k ≤ 31 ∧ alignof_RTHWIF_GEOMETRY L (getType L cfg g).val = 2 ^ k) ∧
    sizeof_RTHWIF_GEOMETRY L (getType L cfg g).val < 2 ^ 31 := by
  obtain ⟨a1, a2, a3, a4, s1, s2, s3, s4, s5⟩ := hL
  have hmod : ∀ x, x < 2 ^ 31 → x % SIZE_MOD = x := fun x hx =>
    Nat.mod_eq_of_lt (by unfold SIZE_MOD; omega)
  have hextra : (L.sizeof_instance + (L.sizeof_GEOMETRY_INSTANCE_DESC + SIZE_MOD -
      L.sizeof_instance % SIZE_MOD) % SIZE_MOD) % SIZE_MOD = L.sizeof_GEOMETRY_INSTANCE_DESC := by
    rw [hmod L.sizeof_instance (by omega)]
    have e : L.sizeof_GEOMETRY_INSTANCE_DESC + SIZE_MOD - L.sizeof_instance =
        (L.sizeof_GEOMETRY_INSTANCE_DESC - L.sizeof_instance) + SIZE_MOD := by omega
    rw [e, Nat.add_mod_right,
      hmod (L.sizeof_GEOMETRY_INSTANCE_DESC - L.sizeof_instance) (by omega)]
    have : L.sizeof_instance + (L.sizeof_GEOMETRY_INSTANCE_DESC - L.sizeof_instance) =
        L.sizeof_GEOMETRY_INSTANCE_DESC := by omega
    rw [this, hmod _ s5]
  rcases getType_val_cases L cfg g with h | h | h | h | h <;> rw [h] <;>
    simp only [alignof_RTHWIF_GEOMETRY, sizeof_RTHWIF_GEOMETRY, Nat.add_zero]
  · exact ⟨a3, by rw [hmod _ s3]; exact s3⟩
  · exact ⟨a1, by rw [hmod _ s1]; exact s1⟩
  · exact ⟨a2, by rw [hmod _ s2]; exact s2⟩
  · exact ⟨a4, by rw [hmod _ (by omega)]; omega⟩
  · exact ⟨a4, by rw [hextra]; exact s5⟩

/-- One measure step on a non-null slot, without wrap-around: the running total grows by the
padding and the record size, by less than `2^32` in all. -/
theorem measureStep_some (L : TypeSizes) (cfg : BuildConfig) (hL : L.wellFormed) (ofs : Nat)
    (hofs : ofs + 2 ^ 32 ≤ 2 ^ 64) (g : Geometry) :
    measureStep L cfg ofs (some g) =
      ofs + (padding ofs (alignof_RTHWIF_GEOMETRY L (getType L cfg g).val) +
        sizeof_RTHWIF_GEOMETRY L (getType L cfg g).val) ∧
    padding ofs (alignof_RTHWIF_GEOMETRY L (getType L cfg g).val) +
        sizeof_RTHWIF_GEOMETRY L (getType L cfg g).val < 2 ^ 32 ∧
    align ofs (alignof_RTHWIF_GEOMETRY L (getType L cfg g).val) =
      ofs + padding ofs (alignof_RTHWIF_GEOMETRY L (getType L cfg g).val) := by
  obtain ⟨⟨k, hk, hal⟩, hsz⟩ := record_bounds L cfg hL g
  have hpad := (padding_spec ofs (2 ^ k) (Nat.two_pow_pos k)).2.1
  have hle : 2 ^ k ≤ 2 ^ 31 := Nat.pow_le_pow_right (by decide) hk
  have hal2 := align_two_pow ofs k hk hofs
  simp only [measureStep]
  rw [hal, hal2]
  refine ⟨?_, by omega, rfl⟩
  unfold SIZE_MOD
  rw [Nat.mod_eq_of_lt (by omega)]
  omega

/-- The measure loop started at `ofs`, without wrap-around, adds the padded size of the tags. -/
theorem measure_foldl (L : TypeSizes) (cfg : BuildConfig) (hL : L.wellFormed)
    (l : List (Option Geometry)) (ofs : Nat) (hofs : ofs + l.length * 2 ^ 32 ≤ 2 ^ 64) :
    l.foldl (measureStep L cfg) ofs =
      ofs + paddedSize L (l.map (Option.map fun geom => (getType L cfg geom).val)) ofs ∧
    l.foldl (measureStep L cfg) ofs ≤ ofs + l.length * 2 ^ 32 := by
  induction l generalizing ofs with
  | nil => simp [paddedSize]
  | cons slot l ih =>
    simp only [List.length_cons] at hofs
    cases slot with
    | none =>
      obtain ⟨h1, h2⟩ := ih ofs (by omega)
      simp only [List.foldl_cons, List.map_cons, Option.map_none', paddedSize, List.length_cons]
      refine ⟨h1, ?_⟩
      simp only [measureStep]
      omega
    | some g =>
      obtain ⟨e, hlt, _⟩ := measureStep_some L cfg hL ofs (by omega) g
      obtain ⟨h1, h2⟩ := ih (measureStep L cfg ofs (some g)) (by rw [e]; omega)
      simp only [List.foldl_cons, List.map_cons, Option.map_some', paddedSize, List.length_cons]
      rw [h1]
      constructor
      · rw [e]; omega
      · rw [h1] at h2; rw [e] at h2 ⊢; omega

/-- The fill loop advances its offset exactly as the measure loop advances `totalBytes`. -/
theorem fill_foldl_offset (L : TypeSizes) (cfg : BuildConfig) (d : Nat)
    (l : List (Option Geometry)) (st : FillState) :
    (l.foldl (fillStep L cfg d) st).offset = l.foldl (measureStep L cfg) st.offset := by
  induction l generalizing st with
  | nil => rfl
  | cons slot l ih =>
    simp only [List.foldl_cons]
    rw [ih]
    cases slot <;> rfl

/-- The pointer table after the fill loop over `l`: one entry per slot, null for a null slot, and
for a non-null slot the aligned value of the running offset the measure loop has at that slot. -/
theorem fill_geomDescr (L : TypeSizes) (cfg : BuildConfig) (d : Nat)
    (l : List (Option Geometry)) :
    (l.foldl (fillStep L cfg d) ⟨0, [], true⟩).geomDescr.length = l.length ∧
    ∀ k, (l[k]? = some none →
        (l.foldl (fillStep L cfg d) ⟨0, [], true⟩).geomDescr[k]? = some none) ∧
      ∀ geom, l[k]? = some (some geom) →
        (l.foldl (fillStep L cfg d) ⟨0, [], true⟩).geomDescr[k]? =
          some (some (align ((l.take k).foldl (measureStep L cfg) 0)
            (alignof_RTHWIF_GEOMETRY L (getType L cfg geom).val))) := by
  induction l using List.reverseRecOn with
  | nil => simp
  | append_singleton l x ih =>
    obtain ⟨hlen, hk⟩ := ih
    have hoff := fill_foldl_offset L cfg d l ⟨0, [], true⟩
    simp only [List.foldl_append, List.foldl_cons, List.foldl_nil, List.length_append,
      List.length_singleton]
    have hdescr : (fillStep L cfg d (l.foldl (fillStep L cfg d) ⟨0, [], true⟩) x).geomDescr =
        (l.foldl (fillStep L cfg d) ⟨0, [], true⟩).geomDescr ++
          [x.map fun geom => align (l.foldl (measureStep L cfg) 0)
            (alignof_RTHWIF_GEOMETRY L (getType L cfg geom).val)] := by
      cases x with
      | none => rfl
      | some g => simp only [fillStep, Option.map_some', hoff]
    rw [hdescr]
    refine ⟨by simp [hlen], ?_⟩
    intro k
    rcases Nat.lt_trichotomy k l.length with hlt | heq | hgt
    · have e1 : (l ++ [x])[k]? = l[k]? := List.getElem?_append_left hlt
      have e2 : ((l.foldl (fillStep L cfg d) ⟨0, [], true⟩).geomDescr ++
          [x.map fun geom => align (l.foldl (measureStep L cfg) 0)
            (alignof_RTHWIF_GEOMETRY L (getType L cfg geom).val)])[k]? =
          (l.foldl (fillStep L cfg d) ⟨0, [], true⟩).geomDescr[k]? :=
        List.getElem?_append_left (by omega)
      have e3 : (l ++ [x]).take k = l.take k := List.take_append_of_le_length (by omega)
      rw [e1, e2, e3]
      exact hk k
    · subst heq
      have e1 : (l ++ [x])[l.length]? = some x := by simp
      have e2 : ((l.foldl (fillStep L cfg d) ⟨0, [], true⟩).geomDescr ++
          [x.map fun geom => align (l.foldl (measureStep L cfg) 0)
            (alignof_RTHWIF_GEOMETRY L (getType L cfg geom).val)])[l.length]? =
          some (x.map fun geom => align (l.foldl (measureStep L cfg) 0)
            (alignof_RTHWIF_GEOMETRY L (getType L cfg geom).val)) := by
        rw [← hlen]; simp
      have e3 : (l ++ [x]).take l.length = l := by simp
      rw [e1, e2, e3]
      constructor
      · intro h; cases h; rfl
      · intro geom h; cases h; rfl
    · have e1 : (l ++ [x])[k]? = none := by
        apply List.getElem?_eq_none
        simp; omega
      rw [e1]
      exact ⟨fun h => (by cases h), fun _ h => (by cases h)⟩

/-- The fill loop's assertion holds throughout when every running total of the measure loop stays
within the data size. -/
theorem fill_ok (L : TypeSizes) (cfg : BuildConfig) (d : Nat) (l : List (Option Geometry))
    (h : ∀ k, k ≤ l.length → (l.take k).foldl (measureStep L cfg) 0 ≤ d) :
    (l.foldl (fillStep L cfg d) ⟨0, [], true⟩).ok = true := by
  induction l using List.reverseRecOn with
  | nil => rfl
  | append_singleton l x ih =>
    have hprev : (l.foldl (fillStep L cfg d) ⟨0, [], true⟩).ok = true := by
      apply ih
      intro k hk
      have := h k (by simp; omega)
      rwa [List.take_append_of_le_length hk] at this
    have hoff := fill_foldl_offset L cfg d l ⟨0, [], true⟩
    have hlast := h (l ++ [x]).length (Nat.le_refl _)
    rw [List.take_length, List.foldl_append] at hlast
    simp only [List.foldl_cons, List.foldl_nil] at hlast
    simp only [List.foldl_append, List.foldl_cons, List.foldl_nil]
    cases x with
    | none => exact hprev
    | some g =>
      simp only [fillStep, hprev, Bool.true_and, decide_eq_true_eq, hoff]
      exact hlast

/-- Without wrap-around the running total of the measure loop never decreases. -/
theorem measure_prefix_le (L : TypeSizes) (cfg : BuildConfig) (hL : L.wellFormed)
    (l : List (Option Geometry)) (hlen : l.length ≤ 2 ^ 32) (k : Nat) (hk : k ≤ l.length) :
    (l.take k).foldl (measureStep L cfg) 0 ≤ l.foldl (measureStep L cfg) 0 := by
  have hsplit : l.foldl (measureStep L cfg) 0 =
      (l.drop k).foldl (measureStep L cfg) ((l.take k).foldl (measureStep L cfg) 0) := by
    rw [← List.foldl_append, List.take_append_drop]
  have htake : (l.take k).length = k := by simp [hk]
  have hdrop : (l.drop k).length = l.length - k := by simp
  obtain ⟨_, h1⟩ := measure_foldl L cfg hL (l.take k) 0 (by rw [htake]; omega)
  rw [htake] at h1
  obtain ⟨h2, _⟩ := measure_foldl L cfg hL (l.drop k)
    ((l.take k).foldl (measureStep L cfg) 0) (by rw [hdrop]; omega)
  rw [hsplit, h2]
  omega

/-- Both layout loops read a slot only through its tag. -/
theorem layout_of_tags (L : TypeSizes) (cfg : BuildConfig) (d : Nat)
    (l l' : List (Option Geometry))
    (h : l.map (Option.map fun geom => (getType L cfg geom).val) =
      l'.map (Option.map fun geom => (getType L cfg geom).val)) (ofs : Nat) (st : FillState) :
    l.foldl (measureStep L cfg) ofs = l'.foldl (measureStep L cfg) ofs ∧
    l.foldl (fillStep L cfg d) st = l'.foldl (fillStep L cfg d) st := by
  induction l generalizing l' ofs st with
  | nil =>
    cases l' with
    | nil => exact ⟨rfl, rfl⟩
    | cons _ _ => simp at h
  | cons slot l ih =>
    cases l' with
    | nil => simp at h
    | cons slot' l' =>
      simp only [List.map_cons, List.cons.injEq] at h
      obtain ⟨hs, ht⟩ := h
      have hstep : measureStep L cfg ofs slot = measureStep L cfg ofs slot' ∧
          fillStep L cfg d st slot = fillStep L cfg d st slot' := by
        cases slot with
        | none =>
          cases slot' with
          | none => exact ⟨rfl, rfl⟩
          | some _ => simp at hs
        | some g =>
          cases slot' with
          | none => simp at hs
          | some g' =>
            simp only [Option.map_some', Option.some.injEq] at hs
            simp only [measureStep, fillStep, hs, and_self]
      simp only [List.foldl_cons]
      rw [hstep.1, hstep.2]
      exact ih l' ht _ _

/-- C5. For every scene (with record sizes and alignments of C++ object types, and at most `2^32`
slots), `totalBytes` computed by the measure pass is the sum, over the non-null geometries in
geometry-index order, of the padding that rounds the running offset up to the tag's alignment plus
`sizeof_RTHWIF_GEOMETRY(tag)`; the fill pass gives every record the offset the measure pass has at
that slot and ends at `offset == totalBytes`; its assertion `offset <= geomDescrData.size()` never
fails; and the layout is a function of the tag sequence alone. -/
theorem C5_descriptor_layout (L : TypeSizes) (cfg : BuildConfig) (scene : Scene)
    (hL : L.wellFormed) (hsize : scene.size ≤ 2 ^ 32) :
    measurePass L cfg scene = paddedSize L (scene.tags L cfg) 0 ∧
    (fillPass L cfg (measurePass L cfg scene) scene).offset = measurePass L cfg scene ∧
    (fillPass L cfg (measurePass L cfg scene) scene).ok = true ∧
    (∀ k geom, scene.geometries[k]? = some (some geom) →
      (fillPass L cfg (measurePass L cfg scene) scene).geomDescr[k]? =
        some (some (align (measurePass L cfg ⟨scene.geometries.take k⟩)
          (alignof_RTHWIF_GEOMETRY L (getType L cfg geom).val)))) ∧
    (∀ scene' : Scene, scene'.tags L cfg = scene.tags L cfg →
      measurePass L cfg scene' = measurePass L cfg scene ∧
      fillPass L cfg (measurePass L cfg scene') scene' =
        fillPass L cfg (measurePass L cfg scene) scene) := by
  have hlen : scene.geometries.length ≤ 2 ^ 32 := hsize
  refine ⟨?_, ?_, ?_, ?_, ?_⟩
  · have h := (measure_foldl L cfg hL scene.geometries 0 (by omega)).1
    rw [Nat.zero_add] at h
    exact h
  · exact fill_foldl_offset L cfg _ scene.geometries ⟨0, [], true⟩
  · exact fill_ok L cfg _ scene.geometries
      (fun k hk => measure_prefix_le L cfg hL scene.geometries hlen k hk)
  · intro k geom hk
    exact ((fill_geomDescr L cfg _ scene.geometries).2 k).2 geom hk
  · intro scene' htags
    have h1 := (layout_of_tags L cfg (measurePass L cfg scene) scene'.geometries scene.geometries
      htags 0 ⟨0, [], true⟩)
    have hm : measurePass L cfg scene' = measurePass L cfg scene := h1.1
    refine ⟨hm, ?_⟩
    rw [hm]
    exact h1.2

/-- The example sizes are well formed. -/
theorem exampleSizes_wellFormed : exampleSizes.wellFormed :=
  ⟨⟨3, by decide, rfl⟩, ⟨3, by decide, rfl⟩, ⟨3, by decide, rfl⟩, ⟨3, by decide, rfl⟩,
    by decide, by decide, by decide, by decide, by decide⟩

/-- The layout of the example scene: records at offsets 0, 56, 96 and 208, 244 bytes in all (the
36-byte procedural record at 56 is followed by 4 bytes of padding). -/
theorem example_layout :
    measurePass exampleSizes exampleConfig exampleScene = 244 ∧
    fillPass exampleSizes exampleConfig 244 exampleScene =
      ⟨244, [some 0, none, some 56, some 96, some 208], true⟩ ∧
    maxTimeSegments exampleScene = 3 := by
  decide

/-- Witness for C5 on the example scene. -/
theorem C5_descriptor_layout_witness :
    exampleSizes.wellFormed ∧ exampleScene.size ≤ 2 ^ 32 ∧
    measurePass exampleSizes exampleConfig exampleScene =
      paddedSize exampleSizes (exampleScene.tags exampleSizes exampleConfig) 0 ∧
    (fillPass exampleSizes exampleConfig (measurePass exampleSizes exampleConfig exampleScene)
      exampleScene).offset = measurePass exampleSizes exampleConfig exampleScene ∧
    (fillPass exampleSizes exampleConfig (measurePass exampleSizes exampleConfig exampleScene)
      exampleScene).ok = true :=
  ⟨exampleSizes_wellFormed, by decide,
    (C5_descriptor_layout exampleSizes exampleConfig exampleScene exampleSizes_wellFormed
      (by decide)).1,
    (C5_descriptor_layout exampleSizes exampleConfig exampleScene exampleSizes_wellFormed
      (by decide)).2.1,
    (C5_descriptor_layout exampleSizes exampleConfig exampleScene exampleSizes_wellFormed
      (by decide)).2.2.1⟩

/-! ## Theorems: the build loop -/

/-- Zero has no digits. -/
theorem bitLength_zero (fuel : Nat) : bitLength fuel 0 = 0 := by
  cases fuel <;> simp [bitLength]

/-- The digit count brackets the number between two powers of two. -/
theorem bitLength_spec (fuel n : Nat) (h : n < 2 ^ fuel) :
    n < 2 ^ bitLength fuel n ∧ (n ≠ 0 → 2 ^ (bitLength fuel n - 1) ≤ n) := by
  induction fuel generalizing n with
  | zero =>
    have : n = 0 := by simpa using h
    subst this
    simp [bitLength]
  | succ fuel ih =>
    by_cases h0 : n = 0
    · subst h0; simp [bitLength]
    · have hhalf : n / 2 < 2 ^ fuel := by
        rw [Nat.pow_succ] at h; omega
      obtain ⟨ih1, ih2⟩ := ih (n / 2) hhalf
      have hb : bitLength (fuel + 1) n = bitLength fuel (n / 2) + 1 := by
        simp [bitLength, h0]
      rw [hb]
      constructor
      · rw [Nat.pow_succ]; omega
      · intro _
        rw [Nat.add_sub_cancel]
        by_cases h2 : n / 2 = 0
        · rw [h2, bitLength_zero]; simp; omega
        · have hge := ih2 h2
          have hpos : 1 ≤ bitLength fuel (n / 2) := by
            by_contra hc
            have : bitLength fuel (n / 2) = 0 := by omega
            rw [this] at ih1
            simp at ih1
            exact h2 ih1
          have e : 2 ^ bitLength fuel (n / 2) = 2 ^ (bitLength fuel (n / 2) - 1) * 2 := by
            rw [← Nat.pow_succ]; congr 1; omega
          rw [e]; omega

/-- Rounding to double precision moves a number by at most a `2^-52` fraction of itself. -/
theorem roundToDouble_bounds (p : Nat) (hp : p < 2 ^ 128) :
    p - p / 2 ^ 52 ≤ roundToDouble p ∧ roundToDouble p ≤ p + p / 2 ^ 52 := by
  unfold roundToDouble
  by_cases h : p < 2 ^ 53
  · rw [if_pos h]; omega
  · rw [if_neg h]
    obtain ⟨hb1, hb2⟩ := bitLength_spec 128 p hp
    have hp0 : p ≠ 0 := by omega
    have hb2 := hb2 hp0
    have hb54 : 54 ≤ bitLength 128 p := by
      by_contra hc
      have : 2 ^ bitLength 128 p ≤ 2 ^ 53 := Nat.pow_le_pow_right (by decide) (by omega)
      omega
    generalize bitLength 128 p = b at hb1 hb2 hb54
    have hsplit : 2 ^ (b - 1) = 2 ^ (b - 53) * 2 ^ 52 := by
      rw [← Nat.pow_add]; congr 1; omega
    rw [hsplit] at hb2
    have hE : 2 ^ (b - 53) ≤ p / 2 ^ 52 := (Nat.le_div_iff_mul_le (by positivity)).2 hb2
    have hEpos : 0 < 2 ^ (b - 53) := Nat.two_pow_pos _
    have hdm := Nat.div_add_mod p (2 ^ (b - 53))
    have hr := Nat.mod_lt p hEpos
    simp only []
    generalize 2 ^ (b - 53) = E at hE hEpos hdm hr ⊢
    generalize p / E = q at hdm ⊢
    generalize p % E = r at hdm hr ⊢
    rw [Nat.mul_comm] at hdm
    split_ifs
    · rw [Nat.add_mul, Nat.one_mul]; omega
    · omega

/-- The truncated product `size_t(1.2*x)` is at least `x`, exceeds `x` from 6 on, and is at most
`1.25 x`. -/
theorem mul1_2_bounds (x : Nat) (hx : x < 2 ^ 64) :
    x ≤ mul1_2 x ∧ (6 ≤ x → x + 1 ≤ mul1_2 x) ∧ mul1_2 x ≤ x + x / 4 := by
  unfold mul1_2
  obtain ⟨d1, d2⟩ := roundToDouble_bounds x (by omega)
  obtain ⟨p1, p2⟩ := roundToDouble_bounds (roundToDouble x * 5404319552844595) (by omega)
  generalize roundToDouble x = d at d1 d2 p1 p2 ⊢
  generalize roundToDouble (d * 5404319552844595) = R at p1 p2 ⊢
  refine ⟨?_, ?_, ?_⟩ <;> omega

/-- Without wrap-around `(y+127)&-128` is `y` rounded up to a multiple of 128. -/
theorem roundUp128_eq (y : Nat) (hy : y + 127 < 2 ^ 64) :
    roundUp128 y = (y + 127) / 128 * 128 := by
  unfold roundUp128 SIZE_MOD
  rw [Nat.mod_eq_of_lt hy, Nat.mod_eq_of_lt (by omega)]
  exact land_neg_two_pow (y + 127) 7 hy (by omega)

/-- The grown size: `min(max, round_up_128(size_t(1.2*e)))`, never above `max`, and strictly
above a positive `e` that is below `max`. -/
theorem growExpected_spec (e max : Nat) (he : e < 2 ^ 63) :
    growExpected e max = Min.min max ((mul1_2 e + 127) / 128 * 128) ∧
    growExpected e max ≤ max ∧ (1 ≤ e → e < max → e < growExpected e max) := by
  obtain ⟨m1, m2, m3⟩ := mul1_2_bounds e (by omega)
  have hr := roundUp128_eq (mul1_2 e) (by omega)
  unfold growExpected
  rw [hr]
  refine ⟨rfl, by omega, ?_⟩
  intro h1 h2
  omega

/-- The growth step on small sizes: 1000 bytes grow to 1280, 107 bytes to 128 (`1.2 * 107 = 128.4`
is truncated before it is rounded up), and the result is capped by the maximum. -/
theorem example_growth :
    mul1_2 1000 = 1200 ∧ growExpected 1000 4096 = 1280 ∧
    mul1_2 107 = 128 ∧ growExpected 107 4096 = 128 ∧
    growExpected 4000 4096 = 4096 ∧ growExpected 1000 1100 = 1100 := by
  decide

/-- One pass of the segment loop on an out-of-host-memory reply. -/
theorem segmentLoop_oom {β : Type} (drv : Driver β) (ops : BoundsOps β) (hb n i : Nat)
    (st : BuildState β) (b : β)
    (h : drv.build st.calls.length = .completed .ERROR_OUT_OF_HOST_MEMORY b) :
    segmentLoop drv ops hb (n + 1) i st =
      if st.expected = drv.rtasBufferSizeBytesMax then .error (.RTCError "build error")
      else .ok
        { expected := growExpected st.expected drv.rtasBufferSizeBytesMax
          accelSize := st.accelSize
          fullBounds := ops.extend st.fullBounds b
          err := .ERROR_OUT_OF_HOST_MEMORY
          calls := st.calls ++
            [⟨i, hb + (i * st.expected) % SIZE_MOD, st.expected⟩] } := by
  simp only [segmentLoop, h, if_true]

/-- One pass of the segment loop on a success reply. -/
theorem segmentLoop_success {β : Type} (drv : Driver β) (ops : BoundsOps β) (hb n i : Nat)
    (st : BuildState β) (b : β) (h : drv.build st.calls.length = .completed .SUCCESS b) :
    segmentLoop drv ops hb (n + 1) i st =
      segmentLoop drv ops hb n (i + 1)
        { expected := st.expected
          accelSize := st.accelSize
          fullBounds := ops.extend st.fullBounds b
          err := .SUCCESS
          calls := st.calls ++
            [⟨i, hb + (i * st.expected) % SIZE_MOD, st.expected⟩] } := by
  simp [segmentLoop, h]

/-- After `k` successful segment builds the loop stands at segment `i + k` with the same expected
size and buffer size, having issued one call per segment. -/
theorem segmentLoop_success_prefix {β : Type} (drv : Driver β) (ops : BoundsOps β) (hb : Nat)
    (k : Nat) : ∀ (n i : Nat) (st : BuildState β), k ≤ n →
    (∀ j, j < k → ∃ b, drv.build (st.calls.length + j) = .completed .SUCCESS b) →
    ∃ stk : BuildState β,
      segmentLoop drv ops hb n i st = segmentLoop drv ops hb (n - k) (i + k) stk ∧
      stk.expected = st.expected ∧ stk.accelSize = st.accelSize ∧
      stk.calls = st.calls ++ (List.range' i k).map
        (fun s => ⟨s, hb + (s * st.expected) % SIZE_MOD, st.expected⟩) := by
  induction k with
  | zero =>
    intro n i st _ _
    exact ⟨st, rfl, rfl, rfl, by simp⟩
  | succ k ih =>
    intro n i st hn hs
    obtain ⟨n', rfl⟩ : ∃ n', n = n' + 1 := ⟨n - 1, by omega⟩
    obtain ⟨b, hb0⟩ := hs 0 (by omega)
    rw [Nat.add_zero] at hb0
    rw [segmentLoop_success drv ops hb n' i st b hb0]
    obtain ⟨stk, h1, h2, h3, h4⟩ := ih n' (i + 1)
      { expected := st.expected, accelSize := st.accelSize,
        fullBounds := ops.extend st.fullBounds b, err := .SUCCESS,
        calls := st.calls ++
          [⟨i, hb + (i * st.expected) % SIZE_MOD, st.expected⟩] }
      (by omega)
      (by
        intro j hj
        obtain ⟨b', hb'⟩ := hs (j + 1) (by omega)
        refine ⟨b', ?_⟩
        simp only [List.length_append, List.length_singleton]
        rw [← hb']; congr 1; omega)
    refine ⟨stk, ?_, h2, h3, ?_⟩
    · rw [h1]
      have e1 : n' + 1 - (k + 1) = n' - k := by omega
      have e2 : i + (k + 1) = i + 1 + k := by omega
      rw [e1, e2]
    · rw [h4]
      simp [List.range'_succ]

/-- The segment loop only appends to the call log, keeps the buffer size, and changes the expected
size only when it ends on an out-of-host-memory reply. -/
theorem segmentLoop_ok_facts {β : Type} (drv : Driver β) (ops : BoundsOps β) (hb : Nat)
    (n : Nat) : ∀ (i : Nat) (st r : BuildState β), segmentLoop drv ops hb n i st = .ok r →
    r.accelSize = st.accelSize ∧
    (r.err ≠ .ERROR_OUT_OF_HOST_MEMORY → r.expected = st.expected) ∧
    (0 < n → ∃ rest, r.calls = st.calls ++
      ⟨i, hb + (i * st.expected) % SIZE_MOD, st.expected⟩ :: rest) ∧
    (0 < n → r.err = .ERROR_OUT_OF_HOST_MEMORY →
      st.expected ≠ drv.rtasBufferSizeBytesMax ∧
      r.expected = growExpected st.expected drv.rtasBufferSizeBytesMax) ∧
    (0 < n → r.err = .SUCCESS → r.calls.length = st.calls.length + n) := by
  induction n with
  | zero =>
    intro i st r h
    simp only [segmentLoop, Except.ok.injEq] at h
    subst h
    exact ⟨rfl, fun _ => rfl, fun h => absurd h (by decide), fun h => absurd h (by decide),
      fun h => absurd h (by decide)⟩
  | succ n ih =>
    intro i st r h
    rw [segmentLoop] at h
    cases hrep : drv.build st.calls.length with
    | propertiesFailed => rw [hrep] at h; simp at h
    | completed err b =>
      rw [hrep] at h
      simp only [] at h
      by_cases hoom : err = .ERROR_OUT_OF_HOST_MEMORY
      · rw [if_pos hoom] at h
        by_cases hmax : st.expected = drv.rtasBufferSizeBytesMax
        · rw [if_pos hmax] at h; simp at h
        · rw [if_neg hmax] at h
          simp only [Except.ok.injEq] at h
          subst h
          exact ⟨rfl, fun hne => absurd hoom hne, fun _ => ⟨[], rfl⟩,
            fun _ _ => ⟨hmax, rfl⟩, fun _ hs => by rw [hoom] at hs; cases hs⟩
      · rw [if_neg hoom] at h
        by_cases hsucc : err = .SUCCESS
        · rw [if_neg (by simpa using hsucc)] at h
          obtain ⟨a1, a2, a3, a4, a5⟩ := ih _ _ _ h
          refine ⟨a1, a2, ?_, ?_, ?_⟩
          · intro _
            by_cases hn : 0 < n
            · obtain ⟨rest, hr⟩ := a3 hn
              exact ⟨⟨i + 1, hb + ((i + 1) * st.expected) % SIZE_MOD, st.expected⟩ ::
                rest, by rw [hr, List.append_assoc]; rfl⟩
            · have hn0 : n = 0 := by omega
              subst hn0
              simp only [segmentLoop, Except.ok.injEq] at h
              subst h
              exact ⟨[], rfl⟩
          · intro _ hr
            by_cases hn : 0 < n
            · exact a4 hn hr
            · have hn0 : n = 0 := by omega
              subst hn0
              simp only [segmentLoop, Except.ok.injEq] at h
              subst h
              simp only [] at hr
              rw [hsucc] at hr
              cases hr
          · intro _ hr
            by_cases hn : 0 < n
            · have := a5 hn hr
              simp only [List.length_append, List.length_singleton] at this
              omega
            · have hn0 : n = 0 := by omega
              subst hn0
              simp only [segmentLoop, Except.ok.injEq] at h
              subst h
              simp
        · rw [if_pos (by simpa using hsucc)] at h
          simp only [Except.ok.injEq] at h
          subst h
          exact ⟨rfl, fun _ => rfl, fun _ => ⟨[], rfl⟩, fun _ hr => absurd hr hoom,
            fun _ hr => absurd hr hsucc⟩

/-- A loop that ends normally ends with a final pass over the segments that did not report
out-of-host-memory. -/
theorem buildLoop_final_attempt {β : Type} (drv : Driver β) (ops : BoundsOps β) (mts hb : Nat)
    (fuel : Nat) : ∀ (st r : BuildState β), buildLoop drv ops mts hb fuel st = some (.ok r) →
    ∃ st' : BuildState β,
      segmentLoop drv ops hb mts 0 (resizeAccel mts hb st') = .ok r ∧
      r.err ≠ .ERROR_OUT_OF_HOST_MEMORY := by
  induction fuel with
  | zero => intro st r h; simp [buildLoop] at h
  | succ fuel ih =>
    intro st r h
    rw [buildLoop] at h
    cases hseg : segmentLoop drv ops hb mts 0 (resizeAccel mts hb st) with
    | error e => rw [hseg] at h; simp at h
    | ok st1 =>
      rw [hseg] at h
      simp only [] at h
      by_cases herr : st1.err ≠ .ERROR_OUT_OF_HOST_MEMORY
      · rw [if_pos herr] at h
        simp only [Option.some.injEq, Except.ok.injEq] at h
        subst h
        exact ⟨st, hseg, herr⟩
      · rw [if_neg herr] at h
        exact ih st1 r h

/-- A pass that ends on out-of-host-memory leaves a strictly larger expected size, still at most
the maximum. -/
theorem retry_grows {β : Type} (drv : Driver β) (ops : BoundsOps β) (mts hb : Nat)
    (hmts : 0 < mts) (st r : BuildState β) (h1 : 1 ≤ st.expected)
    (h2 : st.expected ≤ drv.rtasBufferSizeBytesMax) (h3 : drv.rtasBufferSizeBytesMax ≤ 2 ^ 63)
    (hseg : segmentLoop drv ops hb mts 0 (resizeAccel mts hb st) = .ok r)
    (herr : r.err = .ERROR_OUT_OF_HOST_MEMORY) :
    st.expected < r.expected ∧ r.expected ≤ drv.rtasBufferSizeBytesMax := by
  obtain ⟨hne, hr⟩ := (segmentLoop_ok_facts drv ops hb mts 0 _ _ hseg).2.2.2.1 hmts herr
  have hne' : st.expected ≠ drv.rtasBufferSizeBytesMax := hne
  have hr' : r.expected = growExpected st.expected drv.rtasBufferSizeBytesMax := hr
  obtain ⟨_, g2, g3⟩ := growExpected_spec st.expected drv.rtasBufferSizeBytesMax (by omega)
  rw [hr']
  exact ⟨g3 h1 (by omega), g2⟩

/-- The loop ends within `max - expected + 1` passes when the expected size is positive. -/
theorem buildLoop_terminates {β : Type} (drv : Driver β) (ops : BoundsOps β) (mts hb : Nat)
    (hmts : 0 < mts) (h3 : drv.rtasBufferSizeBytesMax ≤ 2 ^ 63) (m : Nat) :
    ∀ st : BuildState β, 1 ≤ st.expected → st.expected ≤ drv.rtasBufferSizeBytesMax →
    drv.rtasBufferSizeBytesMax - st.expected < m →
    ∃ res, buildLoop drv ops mts hb m st = some res := by
  induction m with
  | zero => intro st _ _ h; omega
  | succ m ih =>
    intro st h1 h2 hm
    rw [buildLoop]
    cases hseg : segmentLoop drv ops hb mts 0 (resizeAccel mts hb st) with
    | error e => exact ⟨_, rfl⟩
    | ok st1 =>
      simp only []
      by_cases herr : st1.err ≠ .ERROR_OUT_OF_HOST_MEMORY
      · rw [if_pos herr]; exact ⟨_, rfl⟩
      · rw [if_neg herr]
        obtain ⟨g1, g2⟩ := retry_grows drv ops mts hb hmts st st1 h1 h2 h3 hseg
          (by simpa using herr)
        exact ih st1 (by omega) g2 (by omega)

/-- When every segment build reports out-of-host-memory, the loop ends in the fatal build error
within `max - expected + 1` passes. -/
theorem buildLoop_all_oom {β : Type} (drv : Driver β) (ops : BoundsOps β) (mts hb : Nat)
    (hmts : 0 < mts) (h3 : drv.rtasBufferSizeBytesMax ≤ 2 ^ 63)
    (hoom : ∀ n, ∃ b, drv.build n = .completed .ERROR_OUT_OF_HOST_MEMORY b) (m : Nat) :
    ∀ st : BuildState β, 1 ≤ st.expected → st.expected ≤ drv.rtasBufferSizeBytesMax →
    drv.rtasBufferSizeBytesMax - st.expected < m →
    buildLoop drv ops mts hb m st = some (.error (.RTCError "build error")) := by
  induction m with
  | zero => intro st _ _ h; omega
  | succ m ih =>
    intro st h1 h2 hm
    obtain ⟨n, rfl⟩ : ∃ n, mts = n + 1 := ⟨mts - 1, by omega⟩
    obtain ⟨b, hb0⟩ := hoom (resizeAccel (n + 1) hb st).calls.length
    have hseg := segmentLoop_oom drv ops hb n 0 (resizeAccel (n + 1) hb st) b hb0
    rw [buildLoop, hseg]
    by_cases hmax : st.expected = drv.rtasBufferSizeBytesMax
    · have : (resizeAccel (n + 1) hb st).expected = drv.rtasBufferSizeBytesMax := hmax
      rw [if_pos this]
    · have hne : ¬ (resizeAccel (n + 1) hb st).expected = drv.rtasBufferSizeBytesMax := hmax
      rw [if_neg hne]
      simp only [ne_eq, not_true_eq_false, if_false]
      obtain ⟨_, g2, g3⟩ := growExpected_spec st.expected drv.rtasBufferSizeBytesMax (by omega)
      have g := g3 h1 (by omega)
      apply ih
      · show 1 ≤ growExpected st.expected drv.rtasBufferSizeBytesMax
        omega
      · exact g2
      · show drv.rtasBufferSizeBytesMax -
          growExpected st.expected drv.rtasBufferSizeBytesMax < m
        omega

/-- A scene has at least one time segment. -/
theorem one_le_maxTimeSegments (scene : Scene) : 1 ≤ maxTimeSegments scene := by
  have h := maxTimeSegments_foldl scene.geometries 1
  unfold maxTimeSegments
  rw [h]
  omega

/-- The example run: the first pass builds segment 0, fails on segment 1 and grows the expected
size from 1000 to 1280 bytes; the second pass builds the three segments. -/
theorem example_build :
    ∃ r, rthwifBuild exampleSizes exampleConfig exampleDriver exampleOps exampleScene 4096 0 5 =
        some (.ok r) ∧
      r.numTimeSegments = 3 ∧ r.expected = 1280 ∧ r.accelSize = 3968 ∧
      r.AccelTable = [4096 + 128, 4096 + 128 + 1280, 4096 + 128 + 2560] ∧
      r.calls = [⟨0, 128, 1000⟩, ⟨1, 1128, 1000⟩, ⟨0, 128, 1280⟩, ⟨1, 1408, 1280⟩,
        ⟨2, 2688, 1280⟩] :=
  ⟨_, rfl, by decide, by decide, by decide, by decide, by decide⟩

/-- With an estimate of 0 bytes the retry leaves the expected size at 0, so a pass that ends on
out-of-host-memory is followed by an identical pass. -/
theorem zeroEstimate_buildLoop (hb : Nat) (fuel : Nat) :
    ∀ st : BuildState Unit, st.expected = 0 →
    buildLoop zeroEstimateDriver exampleOps 1 hb fuel st = none := by
  induction fuel with
  | zero => intro st _; rfl
  | succ fuel ih =>
    intro st h0
    have hseg := segmentLoop_oom zeroEstimateDriver exampleOps hb 0 0 (resizeAccel 1 hb st) ()
      rfl
    have hexp : (resizeAccel 1 hb st).expected = 0 := h0
    rw [buildLoop, hseg, hexp]
    have hne : ¬ (0 = zeroEstimateDriver.rtasBufferSizeBytesMax) := by decide
    rw [if_neg hne]
    simp only [ne_eq, not_true_eq_false, if_false]
    apply ih
    show growExpected 0 zeroEstimateDriver.rtasBufferSizeBytesMax = 0
    decide

/-- Counterexample to C7 as stated: the size estimate `(expected, max) = (0, 128)` satisfies
`expected <= max` and every segment build reports out-of-host-memory, yet the retry does not
increase the expected size (`min(128, round_up_128(size_t(1.2*0))) = 0`), the expected size never
reaches `max`, and `rthwifBuild` does not end within any number of passes. -/
theorem C7_counterexample :
    zeroEstimateDriver.rtasBufferSizeBytesExpected ≤ zeroEstimateDriver.rtasBufferSizeBytesMax ∧
    (∀ n, zeroEstimateDriver.build n = .completed .ERROR_OUT_OF_HOST_MEMORY ()) ∧
    growExpected zeroEstimateDriver.rtasBufferSizeBytesExpected
      zeroEstimateDriver.rtasBufferSizeBytesMax = zeroEstimateDriver.rtasBufferSizeBytesExpected ∧
    ¬ ∃ fuel, (rthwifBuild exampleSizes exampleConfig zeroEstimateDriver exampleOps emptyScene
      4096 0 fuel).isSome = true := by
  refine ⟨by decide, fun _ => rfl, by decide, ?_⟩
  rintro ⟨fuel, h⟩
  have hloop := zeroEstimate_buildLoop (headerBytes exampleSizes (maxTimeSegments emptyScene)) fuel
    ⟨0, 0, (), .SUCCESS, []⟩ rfl
  have hnone : rthwifBuild exampleSizes exampleConfig zeroEstimateDriver exampleOps emptyScene
      4096 0 fuel = none := by
    unfold rthwifBuild
    have hm : maxTimeSegments emptyScene = 1 := rfl
    rw [hm] at hloop ⊢
    simp only [zeroEstimateDriver, oomDriver, exampleDriver, exampleOps] at hloop ⊢
    simp [hloop]
  rw [hnone] at h
  simp at h

/-- C7 (amended). For every size estimate with `1 <= expected <= max <= 2^63`, the retry loop of
`rthwifBuild` is bounded: a pass that ends on out-of-host-memory leaves a strictly larger expected
size that is still at most `max`; `rthwifBuild` ends within `max - expected + 1` passes whatever
the builder answers; and when every segment build reports out-of-host-memory it ends in the fatal
build error. -/
theorem C7_retry_loop_bounded {β : Type} (L : TypeSizes) (cfg : BuildConfig) (drv : Driver β)
    (ops : BoundsOps β) (scene : Scene) (accelData accelSize : Nat)
    (h1 : 1 ≤ drv.rtasBufferSizeBytesExpected)
    (h2 : drv.rtasBufferSizeBytesExpected ≤ drv.rtasBufferSizeBytesMax)
    (h3 : drv.rtasBufferSizeBytesMax ≤ 2 ^ 63) :
    (∀ st r : BuildState β, 1 ≤ st.expected → st.expected ≤ drv.rtasBufferSizeBytesMax →
      segmentLoop drv ops (headerBytes L (maxTimeSegments scene)) (maxTimeSegments scene) 0
        (resizeAccel (maxTimeSegments scene) (headerBytes L (maxTimeSegments scene)) st) = .ok r →
      r.err = .ERROR_OUT_OF_HOST_MEMORY →
      st.expected < r.expected ∧ r.expected ≤ drv.rtasBufferSizeBytesMax) ∧
    (∃ res, rthwifBuild L cfg drv ops scene accelData accelSize
      (drv.rtasBufferSizeBytesMax - drv.rtasBufferSizeBytesExpected + 1) = some res) ∧
    (drv.isGPUDevice = true → drv.builderCreate = .SUCCESS →
      drv.parallelOperationCreate = .SUCCESS → drv.getRTASProperties = .SUCCESS →
      drv.getBuildProperties = .SUCCESS →
      (∀ n, ∃ b, drv.build n = .completed .ERROR_OUT_OF_HOST_MEMORY b) →
      rthwifBuild L cfg drv ops scene accelData accelSize
        (drv.rtasBufferSizeBytesMax - drv.rtasBufferSizeBytesExpected + 1) =
        some (.error (.RTCError "build error"))) := by
  have hmts := one_le_maxTimeSegments scene
  refine ⟨?_, ?_, ?_⟩
  · intro st r hs1 hs2 hseg herr
    exact retry_grows drv ops _ _ hmts st r hs1 hs2 h3 hseg herr
  · obtain ⟨res, hres⟩ := buildLoop_terminates drv ops (maxTimeSegments scene)
      (headerBytes L (maxTimeSegments scene)) hmts h3
      (drv.rtasBufferSizeBytesMax - drv.rtasBufferSizeBytesExpected + 1)
      ⟨drv.rtasBufferSizeBytesExpected, accelSize, ops.empty, .SUCCESS, []⟩ h1 h2
      (Nat.lt_succ_self _)
    unfold rthwifBuild
    simp only [hres]
    split_ifs <;> first
      | exact ⟨_, rfl⟩
      | (cases res with
          | error e => exact ⟨_, rfl⟩
          | ok st => simp only []; split_ifs <;> exact ⟨_, rfl⟩)
  · intro g1 g2 g3 g4 g5 hoom
    have hres := buildLoop_all_oom drv ops (maxTimeSegments scene)
      (headerBytes L (maxTimeSegments scene)) hmts h3 hoom
      (drv.rtasBufferSizeBytesMax - drv.rtasBufferSizeBytesExpected + 1)
      ⟨drv.rtasBufferSizeBytesExpected, accelSize, ops.empty, .SUCCESS, []⟩ h1 h2
      (Nat.lt_succ_self _)
    unfold rthwifBuild
    simp [hres, g1, g2, g3, g4, g5]

/-- Witness for C7 (amended): an estimate of 1000 bytes (at most 4096) with a builder that always
reports out-of-host-memory ends in the fatal build error. -/
theorem C7_retry_loop_bounded_witness :
    rthwifBuild exampleSizes exampleConfig oomDriver exampleOps exampleScene 4096 0
      (oomDriver.rtasBufferSizeBytesMax - oomDriver.rtasBufferSizeBytesExpected + 1) =
      some (.error (.RTCError "build error")) :=
  (C7_retry_loop_bounded exampleSizes exampleConfig oomDriver exampleOps exampleScene 4096 0
    (by decide) (by decide) (by decide)).2.2 rfl rfl rfl rfl rfl (fun _ => ⟨(), rfl⟩)

/-- A successful `rthwifBuild` comes from a build loop that ended with `err == SUCCESS`, and its
result is assembled from the final loop variables. -/
theorem rthwifBuild_ok_inv {β : Type} (L : TypeSizes) (cfg : BuildConfig) (drv : Driver β)
    (ops : BoundsOps β) (scene : Scene) (accelData accelSize fuel : Nat) (r : BuildResult β)
    (h : rthwifBuild L cfg drv ops scene accelData accelSize fuel = some (.ok r)) :
    ∃ st : BuildState β,
      buildLoop drv ops (maxTimeSegments scene) (headerBytes L (maxTimeSegments scene)) fuel
        ⟨drv.rtasBufferSizeBytesExpected, accelSize, ops.empty, .SUCCESS, []⟩ = some (.ok st) ∧
      st.err = .SUCCESS ∧
      r.numTimeSegments = maxTimeSegments scene ∧
      r.AccelTable = (List.range (maxTimeSegments scene)).map
        (fun i => accelData + headerBytes L (maxTimeSegments scene) +
          (i * st.expected) % SIZE_MOD) ∧
      r.accelSize = st.accelSize ∧ r.expected = st.expected ∧
      r.fullBounds = st.fullBounds ∧ r.calls = st.calls ∧
      r.geomDescr = (fillPass L cfg (measurePass L cfg scene) scene).geomDescr := by
  unfold rthwifBuild at h
  by_cases c1 : drv.isGPUDevice = false
  · rw [if_pos c1] at h; simp at h
  rw [if_neg c1] at h
  by_cases c2 : drv.builderCreate ≠ .SUCCESS
  · rw [if_pos c2] at h; simp at h
  rw [if_neg c2] at h
  dsimp only at h
  by_cases c3 : drv.parallelOperationCreate ≠ .SUCCESS
  · rw [if_pos c3] at h; simp at h
  rw [if_neg c3] at h
  by_cases c4 : drv.getRTASProperties ≠ .SUCCESS
  · rw [if_pos c4] at h; simp at h
  rw [if_neg c4] at h
  by_cases c5 : drv.getBuildProperties ≠ .SUCCESS
  · rw [if_pos c5] at h; simp at h
  rw [if_neg c5] at h
  cases hloop : buildLoop drv ops (maxTimeSegments scene) (headerBytes L (maxTimeSegments scene))
      fuel ⟨drv.rtasBufferSizeBytesExpected, accelSize, ops.empty, .SUCCESS, []⟩ with
  | none => rw [hloop] at h; simp at h
  | some res =>
    rw [hloop] at h
    cases res with
    | error e => simp at h
    | ok st =>
      dsimp only at h
      by_cases e1 : st.err ≠ .SUCCESS
      · rw [if_pos e1] at h; simp at h
      rw [if_neg e1] at h
      by_cases e2 : drv.parallelOperationDestroy ≠ .SUCCESS
      · rw [if_pos e2] at h; simp at h
      rw [if_neg e2] at h
      by_cases e3 : drv.builderDestroy ≠ .SUCCESS
      · rw [if_pos e3] at h; simp at h
      rw [if_neg e3] at h
      simp only [Option.some.injEq, Except.ok.injEq] at h
      subst h
      exact ⟨st, rfl, by simpa using e1, rfl, rfl, rfl, rfl, rfl, rfl, rfl⟩

/-- Counterexample to C11 as stated: a subdivision surface without motion blur reaches the
`assert(false)` of its `case` (the tag computed with assertions compiled out is Procedural). -/
theorem C11_counterexample :
    (getType exampleSizes exampleConfig
      { gtype := GType.GTY_SUBDIV_MESH, numTimeSegments := 0 }).ok = false ∧
    (getType exampleSizes exampleConfig
      { gtype := GType.GTY_SUBDIV_MESH, numTimeSegments := 0 }).val = ⟨.PROCEDURAL, 0⟩ := by
  decide

/-- C11 (amended). For every geometry whose kind is a curve (any linear, Bezier, B-spline, Hermite
or Catmull-Rom variant), a point (sphere, disc, oriented disc), a grid mesh or user geometry, and
for every time-segment count, `getType` completes without an assertion firing and yields the
Procedural tag.  For a subdivision surface the tag is Procedural as well, and no assertion fires
exactly when the geometry has time segments. -/
theorem C11_procedural_kinds (L : TypeSizes) (cfg : BuildConfig) (g : Geometry) :
    ((g.gtype.isCurve = true ∨ g.gtype.isPoint = true ∨ g.gtype = .GTY_GRID_MESH ∨
        g.gtype = .GTY_USER_GEOMETRY) →
      getType L cfg g = ⟨⟨.PROCEDURAL, 0⟩, true⟩) ∧
    (g.gtype = .GTY_SUBDIV_MESH →
      (getType L cfg g).val = ⟨.PROCEDURAL, 0⟩ ∧
      ((getType L cfg g).ok = true ↔ 0 < g.numTimeSegments)) := by
  obtain ⟨gtype, nts, mask, sub, inst, f1, f2⟩ := g
  by_cases h : 0 < nts
  · have hne : nts ≠ 0 := by omega
    simp [getType, h, hne, GEOMETRY_TYPE.procedural]
  · have h0 : nts = 0 := by omega
    subst h0
    cases gtype <;> simp [getType, GEOMETRY_TYPE.procedural, GType.isCurve, GType.isPoint]

/-- C12. For an instance geometry (with the wide instance record longer than the default one): in
the single-level configuration (`RTC_MAX_INSTANCE_LEVEL_COUNT < 2`) and without time segments,
`getType` returns Procedural if the instanced scene's built structure has more than one time
segment or the mask has a bit of `0xFFFFFF80` set; otherwise it returns Instance with
`extraBytes = sizeof(GEOMETRY_INSTANCE_DESC) - sizeof(ze_rtas_builder_instance_geometry_info_exp_t)`,
which is positive, for the quaternion subtype, and Instance with `extraBytes = 0` for any other
subtype.  In the multi-level configuration every instance is Procedural. -/
theorem C12_instance_classification (L : TypeSizes) (cfg : BuildConfig) (g : Geometry)
    (hkind : g.gtype.isInstance = true)
    (hsz : L.sizeof_instance < L.sizeof_GEOMETRY_INSTANCE_DESC)
    (hmax : L.sizeof_GEOMETRY_INSTANCE_DESC < 2 ^ 64) :
    (cfg.RTC_MAX_INSTANCE_LEVEL_COUNT < 2 → g.numTimeSegments = 0 →
      ((1 < g.instancedNumTimeSegments ∨ g.mask &&& 0xFFFFFF80 ≠ 0) →
        getType L cfg g = ⟨⟨.PROCEDURAL, 0⟩, true⟩) ∧
      (¬ 1 < g.instancedNumTimeSegments → g.mask &&& 0xFFFFFF80 = 0 →
        (g.gsubtype = .GTY_SUBTYPE_INSTANCE_QUATERNION →
          getType L cfg g =
            ⟨⟨.INSTANCE, L.sizeof_GEOMETRY_INSTANCE_DESC - L.sizeof_instance⟩, true⟩ ∧
          0 < L.sizeof_GEOMETRY_INSTANCE_DESC - L.sizeof_instance) ∧
        (g.gsubtype ≠ .GTY_SUBTYPE_INSTANCE_QUATERNION →
          getType L cfg g = ⟨⟨.INSTANCE, 0⟩, true⟩))) ∧
    (2 ≤ cfg.RTC_MAX_INSTANCE_LEVEL_COUNT → getType L cfg g = ⟨⟨.PROCEDURAL, 0⟩, true⟩) := by
  have hextra : (L.sizeof_GEOMETRY_INSTANCE_DESC + SIZE_MOD - L.sizeof_instance % SIZE_MOD) %
      SIZE_MOD = L.sizeof_GEOMETRY_INSTANCE_DESC - L.sizeof_instance := by
    unfold SIZE_MOD
    rw [Nat.mod_eq_of_lt (by omega : L.sizeof_instance < 2 ^ 64)]
    have e : L.sizeof_GEOMETRY_INSTANCE_DESC + 2 ^ 64 - L.sizeof_instance =
        (L.sizeof_GEOMETRY_INSTANCE_DESC - L.sizeof_instance) + 2 ^ 64 := by omega
    rw [e, Nat.add_mod_right, Nat.mod_eq_of_lt (by omega)]
  obtain ⟨gtype, nts, mask, sub, inst, f1, f2⟩ := g
  simp only at hkind ⊢
  constructor
  · intro hcfg hnts
    subst hnts
    cases gtype <;> simp [GType.isInstance] at hkind <;>
      simp [getType, GEOMETRY_TYPE.procedural, hcfg, hextra] <;>
      (refine ⟨?_, ?_⟩
       · rintro (h | h)
         · simp [h]
         · intro _; simp [h]
       · intro h1 h2
         have h1' : ¬ 1 < inst := by omega
         simp [h1', h2]
         constructor
         · intro hq; simp [hq]; omega
         · intro hq; simp [hq])
  · intro hcfg
    have hcfg' : ¬ cfg.RTC_MAX_INSTANCE_LEVEL_COUNT < 2 := by omega
    by_cases h : 0 < nts
    · have hne : nts ≠ 0 := by omega
      simp [getType, h, hne, GEOMETRY_TYPE.procedural]
    · have h0 : nts = 0 := by omega
      subst h0
      cases gtype <;> simp [GType.isInstance] at hkind <;>
        simp [getType, GEOMETRY_TYPE.procedural, hcfg']

/-- Witness for C12: the quaternion instance of the example scene gets the wide instance record,
64 bytes longer than the default one. -/
theorem C12_instance_classification_witness :
    getType exampleSizes exampleConfig
        { gtype := GType.GTY_INSTANCE_CHEAP, mask := 0x7F,
          gsubtype := GSubType.GTY_SUBTYPE_INSTANCE_QUATERNION } =
      ⟨⟨.INSTANCE,
        exampleSizes.sizeof_GEOMETRY_INSTANCE_DESC - exampleSizes.sizeof_instance⟩, true⟩ ∧
    0 < exampleSizes.sizeof_GEOMETRY_INSTANCE_DESC - exampleSizes.sizeof_instance :=
  (((C12_instance_classification exampleSizes exampleConfig
      { gtype := GType.GTY_INSTANCE_CHEAP, mask := 0x7F,
        gsubtype := GSubType.GTY_SUBTYPE_INSTANCE_QUATERNION }
      rfl (by decide) (by decide)).1 (by decide) rfl).2 (by decide) (by decide)).1 rfl

/-- C13. For every geometry, `getGeometryFlags` returns OPAQUE if and only if the geometry has
neither argument nor geometry filter functions and, when the ray-mask option is enabled, its mask
has no bit of `0xFFFFFF80` set; in every other case it returns NONE.  Without the ray-mask option
the mask does not influence the result. -/
theorem C13_getGeometryFlags (cfg : BuildConfig) (scene : Scene) (geom : Geometry) :
    (getGeometryFlags cfg scene geom = .OPAQUE ↔
      (geom.hasArgumentFilterFunctions = false ∧ geom.hasGeometryFilterFunctions = false ∧
        (cfg.EMBREE_RAY_MASK = true → geom.mask &&& 0xFFFFFF80 = 0))) ∧
    (getGeometryFlags cfg scene geom ≠ .OPAQUE → getGeometryFlags cfg scene geom = .NONE) ∧
    (cfg.EMBREE_RAY_MASK = false →
      ∀ m, getGeometryFlags cfg scene { geom with mask := m } =
        getGeometryFlags cfg scene geom) := by
  obtain ⟨gtype, nts, mask, sub, inst, f1, f2⟩ := geom
  obtain ⟨lvl, rm⟩ := cfg
  refine ⟨?_, ?_, ?_⟩
  · cases f1 <;> cases f2 <;> cases rm <;> simp [getGeometryFlags]
  · cases f1 <;> cases f2 <;> cases rm <;> simp [getGeometryFlags]
  · intro h m
    simp only at h
    subst h
    simp [getGeometryFlags]

/-! ## Theorems: procedural bounds and build options -/

/-- The loop of `getProceduralAABB` writes the entries `i .. i+n-1` and leaves the others. -/
theorem getProceduralAABBLoop_spec {F T : Type} (ops : PrimRefOps F T) (primIDStart : Nat)
    (geom : Geometry) (time_range : T) (n : Nat) :
    ∀ (i : Nat) (boundsOut : Nat → ze_rtas_aabb_exp_t F) (j : Nat),
    getProceduralAABBLoop ops primIDStart geom time_range n i boundsOut j =
      if i ≤ j ∧ j < i + n then proceduralAABBEntry ops primIDStart geom time_range j
      else boundsOut j := by
  induction n with
  | zero =>
    intro i boundsOut j
    have : ¬ (i ≤ j ∧ j < i + 0) := by omega
    rw [if_neg this]; rfl
  | succ n ih =>
    intro i boundsOut j
    rw [getProceduralAABBLoop, ih]
    by_cases hj : j = i
    · subst hj
      have h1 : ¬ (j + 1 ≤ j ∧ j < j + 1 + n) := by omega
      have h2 : j ≤ j ∧ j < j + (n + 1) := by omega
      rw [if_neg h1, if_pos h2, Function.update_same]
    · rw [Function.update_noteq hj]
      by_cases hr : i + 1 ≤ j ∧ j < i + 1 + n
      · rw [if_pos hr, if_pos (by omega)]
      · rw [if_neg hr, if_neg (by omega)]

/-- C14. For every `primIDStart`, `primIDCount` and geometry, `getProceduralAABB` writes exactly
the entries `boundsOut[0 .. primIDCount-1]`.  Entry `i` is the degenerate box
lower = (+inf,+inf,+inf), upper = (-inf,-inf,-inf) when materialising primitive `primIDStart+i`
(a `uint32_t` sum) yields a `PrimInfo` of size 0, and otherwise the bounds of the materialised
primitive reference; the motion-blur materialisation with the build's time range is used exactly
when the geometry has `numTimeSegments() > 0`. -/
theorem C14_getProceduralAABB {F T : Type} (ops : PrimRefOps F T) (primIDStart primIDCount : Nat)
    (geom : Geometry) (time_range : T) (boundsOut : Nat → ze_rtas_aabb_exp_t F) :
    (∀ i, i < primIDCount →
      (0 < geom.numTimeSegments →
        ((ops.createPrimRefArrayMB geom time_range ((primIDStart + i) % 2 ^ 32)).1 = 0 →
          getProceduralAABB ops primIDStart primIDCount geom time_range boundsOut i =
            ⟨⟨ops.pos_inf, ops.pos_inf, ops.pos_inf⟩, ⟨ops.neg_inf, ops.neg_inf, ops.neg_inf⟩⟩) ∧
        ((ops.createPrimRefArrayMB geom time_range ((primIDStart + i) % 2 ^ 32)).1 ≠ 0 →
          getProceduralAABB ops primIDStart primIDCount geom time_range boundsOut i =
            (ops.createPrimRefArrayMB geom time_range ((primIDStart + i) % 2 ^ 32)).2)) ∧
      (geom.numTimeSegments = 0 →
        ((ops.createPrimRefArray geom ((primIDStart + i) % 2 ^ 32)).1 = 0 →
          getProceduralAABB ops primIDStart primIDCount geom time_range boundsOut i =
            ⟨⟨ops.pos_inf, ops.pos_inf, ops.pos_inf⟩, ⟨ops.neg_inf, ops.neg_inf, ops.neg_inf⟩⟩) ∧
        ((ops.createPrimRefArray geom ((primIDStart + i) % 2 ^ 32)).1 ≠ 0 →
          getProceduralAABB ops primIDStart primIDCount geom time_range boundsOut i =
            (ops.createPrimRefArray geom ((primIDStart + i) % 2 ^ 32)).2))) ∧
    (∀ i, primIDCount ≤ i →
      getProceduralAABB ops primIDStart primIDCount geom time_range boundsOut i = boundsOut i) ∧
    (primIDStart + primIDCount ≤ 2 ^ 32 →
      ∀ i, i < primIDCount → (primIDStart + i) % 2 ^ 32 = primIDStart + i) := by
  have hloop := getProceduralAABBLoop_spec ops primIDStart geom time_range primIDCount 0 boundsOut
  refine ⟨?_, ?_, ?_⟩
  · intro i hi
    have hin : 0 ≤ i ∧ i < 0 + primIDCount := by omega
    have he : getProceduralAABB ops primIDStart primIDCount geom time_range boundsOut i =
        proceduralAABBEntry ops primIDStart geom time_range i := by
      unfold getProceduralAABB
      rw [hloop, if_pos hin]
    rw [he]
    constructor
    · intro hmb
      have hmb' : geom.numTimeSegments > 0 := hmb
      constructor
      · intro h0
        simp only [proceduralAABBEntry, if_pos hmb', h0, if_true]
      · intro h0
        simp only [proceduralAABBEntry, if_pos hmb', h0, if_false]
    · intro hst
      have hst' : ¬ geom.numTimeSegments > 0 := by omega
      constructor
      · intro h0
        simp only [proceduralAABBEntry, if_neg hst', h0, if_true]
      · intro h0
        simp only [proceduralAABBEntry, if_neg hst', h0, if_false]
  · intro i hi
    have hout : ¬ (0 ≤ i ∧ i < 0 + primIDCount) := by omega
    unfold getProceduralAABB
    rw [hloop, if_neg hout]
  · intro h i hi
    exact Nat.mod_eq_of_lt (by omega)

/-- The callback on the example geometry: three boxes requested from primitive 1 on; the second
one (primitive 2) is invalid and becomes the degenerate box, and entry 3 keeps its old value. -/
theorem example_getProceduralAABB :
    (List.range 4).map
      (getProceduralAABB examplePrimRefOps 1 3 { gtype := GType.GTY_USER_GEOMETRY } 0
        (fun _ => ⟨⟨7, 7, 7⟩, ⟨7, 7, 7⟩⟩)) =
      [⟨⟨1, 1, 1⟩, ⟨2, 2, 2⟩⟩, ⟨⟨1000000, 1000000, 1000000⟩, ⟨-1000000, -1000000, -1000000⟩⟩,
       ⟨⟨3, 3, 3⟩, ⟨4, 4, 4⟩⟩, ⟨⟨7, 7, 7⟩, ⟨7, 7, 7⟩⟩] := by
  decide

/-- A word has a bit in common with `2^a` exactly when its bit `a` is set. -/
theorem and_two_pow_ne_zero (x a : Nat) : x &&& 2 ^ a ≠ 0 ↔ x.testBit a = true := by
  constructor
  · intro h
    obtain ⟨i, hi⟩ := Nat.ne_zero_implies_bit_true h
    rw [Nat.testBit_and, Nat.testBit_two_pow] at hi
    simp only [Bool.and_eq_true, decide_eq_true_eq] at hi
    obtain ⟨h1, h2⟩ := hi
    subst h2; exact h1
  · intro h hz
    have : (x &&& 2 ^ a).testBit a = true := by
      rw [Nat.testBit_and, h, Nat.testBit_two_pow_self]; rfl
    rw [hz, Nat.zero_testBit] at this
    cases this

/-- C15. For every `scene_flags` and quality value (the flag constants being those of a bit-flag
enumeration), `convertBuildFlags` returns a bit set that contains
`NO_DUPLICATE_ANYHIT_INVOCATION` if and only if the quality is not `RTC_BUILD_QUALITY_HIGH`,
contains `COMPACT` if and only if `scene_flags` has `RTC_SCENE_FLAG_COMPACT` set, and contains no
other bit. -/
theorem C15_convertBuildFlags (K : BuildFlagBits) (hK : K.wellFormed) (scene_flags : Nat)
    (quality_flags : RTCBuildQuality) :
    (convertBuildFlags K scene_flags quality_flags &&&
        K.FLAG_NO_DUPLICATE_ANYHIT_INVOCATION ≠ 0 ↔
      quality_flags ≠ .RTC_BUILD_QUALITY_HIGH) ∧
    (convertBuildFlags K scene_flags quality_flags &&& K.FLAG_COMPACT ≠ 0 ↔
      scene_flags &&& K.RTC_SCENE_FLAG_COMPACT ≠ 0) ∧
    (∀ i, (convertBuildFlags K scene_flags quality_flags).testBit i = true →
      2 ^ i = K.FLAG_COMPACT ∨ 2 ^ i = K.FLAG_NO_DUPLICATE_ANYHIT_INVOCATION) := by
  obtain ⟨hnone, a, b, _, _, hab, hc, hn⟩ := hK
  have hbit : ∀ i, (convertBuildFlags K scene_flags quality_flags).testBit i =
      ((decide (scene_flags &&& K.RTC_SCENE_FLAG_COMPACT ≠ 0) && decide (a = i)) ||
        (decide (quality_flags ≠ .RTC_BUILD_QUALITY_HIGH) && decide (b = i))) := by
    intro i
    simp only [convertBuildFlags, hnone, hc, hn]
    by_cases h1 : scene_flags &&& K.RTC_SCENE_FLAG_COMPACT ≠ 0 <;>
      by_cases h2 : quality_flags ≠ .RTC_BUILD_QUALITY_HIGH <;>
      simp [h1, h2, Nat.testBit_two_pow]
  refine ⟨?_, ?_, ?_⟩
  · rw [hn, and_two_pow_ne_zero, hbit]
    have : ¬ a = b := hab
    simp [this]
  · rw [hc, and_two_pow_ne_zero, hbit]
    have : ¬ b = a := fun h => hab h.symm
    simp [this]
  · intro i hi
    rw [hbit] at hi
    simp only [Bool.or_eq_true, Bool.and_eq_true, decide_eq_true_eq] at hi
    rcases hi with ⟨_, h⟩ | ⟨_, h⟩
    · left; rw [hc, h]
    · right; rw [hn, h]

/-- Witness for C15: a compact scene built in medium quality gets both flags. -/
theorem C15_convertBuildFlags_witness :
    exampleFlagBits.wellFormed ∧
    (convertBuildFlags exampleFlagBits 2 .RTC_BUILD_QUALITY_MEDIUM &&&
        exampleFlagBits.FLAG_NO_DUPLICATE_ANYHIT_INVOCATION ≠ 0 ↔
      RTCBuildQuality.RTC_BUILD_QUALITY_MEDIUM ≠ .RTC_BUILD_QUALITY_HIGH) ∧
    (convertBuildFlags exampleFlagBits 2 .RTC_BUILD_QUALITY_MEDIUM &&&
        exampleFlagBits.FLAG_COMPACT ≠ 0 ↔
      2 &&& exampleFlagBits.RTC_SCENE_FLAG_COMPACT ≠ 0) :=
  ⟨⟨rfl, 0, 1, by decide, by decide, by decide, rfl, rfl⟩,
    (C15_convertBuildFlags exampleFlagBits ⟨rfl, 0, 1, by decide, by decide, by decide, rfl, rfl⟩
      2 .RTC_BUILD_QUALITY_MEDIUM).1,
    (C15_convertBuildFlags exampleFlagBits ⟨rfl, 0, 1, by decide, by decide, by decide, rfl, rfl⟩
      2 .RTC_BUILD_QUALITY_MEDIUM).2.1⟩

/-- The flag conversion on the four combinations of a compact / plain scene and high / low
quality. -/
theorem example_convertBuildFlags :
    convertBuildFlags exampleFlagBits 2 .RTC_BUILD_QUALITY_HIGH = 1 ∧
    convertBuildFlags exampleFlagBits 2 .RTC_BUILD_QUALITY_LOW = 3 ∧
    convertBuildFlags exampleFlagBits 5 .RTC_BUILD_QUALITY_HIGH = 0 ∧
    convertBuildFlags exampleFlagBits 5 (.other 9) = 2 := by
  decide

/-- C16. The function `convertBuildQuality` maps every quality value to a hint: LOW and REFIT to
the low hint, HIGH to the high hint, and MEDIUM as well as every other value to the medium
hint. -/
theorem C16_convertBuildQuality (q : RTCBuildQuality) :
    ((q = .RTC_BUILD_QUALITY_LOW ∨ q = .RTC_BUILD_QUALITY_REFIT) →
      convertBuildQuality q = .LOW) ∧
    (q = .RTC_BUILD_QUALITY_HIGH → convertBuildQuality q = .HIGH) ∧
    ((q ≠ .RTC_BUILD_QUALITY_LOW ∧ q ≠ .RTC_BUILD_QUALITY_REFIT ∧ q ≠ .RTC_BUILD_QUALITY_HIGH) →
      convertBuildQuality q = .MEDIUM) ∧
    (convertBuildQuality q = .LOW ∨ convertBuildQuality q = .MEDIUM ∨
      convertBuildQuality q = .HIGH) := by
  cases q <;> simp [convertBuildQuality]

/-! ## Theorems: the sum reduction and totality of the lane searches -/

/-- The 32-bit reading of an integer is an `int32`, is congruent to it modulo `2^32`, and leaves
an `int32` unchanged. -/
theorem int32_wrap_spec (x : Int) :
    isInt32 (int32_wrap x) ∧ (int32_wrap x - x) % 4294967296 = 0 ∧
    (isInt32 x → int32_wrap x = x) := by
  unfold int32_wrap isInt32
  refine ⟨by omega, by omega, fun h => by omega⟩

/-- Wrapping the summands before a wrapped sum does not change it. -/
theorem int32_wrap_add (x y : Int) :
    int32_wrap (int32_wrap x + int32_wrap y) = int32_wrap (x + y) := by
  unfold int32_wrap
  omega

/-- Every lane of `vreduce_add v` holds the 32-bit sum of the four lanes. -/
theorem vreduce_add_lanes (v : ssei) :
    vreduce_add v =
      ⟨int32_wrap (v.v0 + v.v1 + v.v2 + v.v3), int32_wrap (v.v0 + v.v1 + v.v2 + v.v3),
       int32_wrap (v.v0 + v.v1 + v.v2 + v.v3), int32_wrap (v.v0 + v.v1 + v.v2 + v.v3)⟩ := by
  obtain ⟨a, b, c, d⟩ := v
  simp only [vreduce_add, shuffle, ssei.add, getElem, ssei.mk.injEq, int32_wrap_add]
  refine ⟨?_, ?_, ?_, ?_⟩ <;> congr 1 <;> omega

/-- C19. For every 4-lane vector `a`, `reduce_add a` is `a[0]+a[1]+a[2]+a[3]` in 32-bit
two's-complement arithmetic: the signed 32-bit value congruent to the mathematical sum modulo
`2^32`.  Every lane of the vector reduction holds it, and every way of pairing the four lanes in
wrapping additions gives the same value. -/
theorem C19_reduce_add (a : ssei) :
    reduce_add a = int32_wrap (a[0] + a[1] + a[2] + a[3]) ∧
    isInt32 (reduce_add a) ∧
    (reduce_add a - (a[0] + a[1] + a[2] + a[3])) % 4294967296 = 0 ∧
    vreduce_add a = ⟨reduce_add a, reduce_add a, reduce_add a, reduce_add a⟩ ∧
    reduce_add a = int32_wrap (int32_wrap (a[0] + a[1]) + int32_wrap (a[2] + a[3])) ∧
    reduce_add a = int32_wrap (int32_wrap (a[0] + a[2]) + int32_wrap (a[1] + a[3])) ∧
    reduce_add a = int32_wrap (int32_wrap (a[0] + a[3]) + int32_wrap (a[1] + a[2])) ∧
    reduce_add a = int32_wrap (int32_wrap (int32_wrap (a[0] + a[1]) + a[2]) + a[3]) := by
  have hl := vreduce_add_lanes a
  have hr : reduce_add a = int32_wrap (a.v0 + a.v1 + a.v2 + a.v3) := by
    unfold reduce_add extract
    rw [hl]; rfl
  have h0 : a[0] = a.v0 := rfl
  have h1 : a[1] = a.v1 := rfl
  have h2 : a[2] = a.v2 := rfl
  have h3 : a[3] = a.v3 := rfl
  rw [h0, h1, h2, h3]
  obtain ⟨s1, s2, _⟩ := int32_wrap_spec (a.v0 + a.v1 + a.v2 + a.v3)
  refine ⟨hr, by rw [hr]; exact s1, by rw [hr]; exact s2, by rw [hl, hr], ?_, ?_, ?_, ?_⟩
  · rw [hr, int32_wrap_add]; congr 1; omega
  · rw [hr, int32_wrap_add]; congr 1; omega
  · rw [hr, int32_wrap_add]; congr 1; omega
  · rw [hr]; unfold int32_wrap; omega

/-- The sum reduction with and without overflow: `INT_MAX + 1 + 0 + 0` wraps to `INT_MIN`. -/
theorem example_reduce_add :
    reduce_add ⟨1, 2, 3, 4⟩ = 10 ∧ reduce_add ⟨2147483647, 1, 0, 0⟩ = -2147483648 ∧
    reduce_add ⟨2147483647, 2147483647, -2147483648, -2147483648⟩ = -2 := by
  decide

/-- Counterexample to C20 as stated: for the validity mask with no lane set the argument of
`__bsf` is 0 in both masked searches, so the bit scan finds no set bit and no lane index in
`0..3` is returned. -/
theorem C20_counterexample :
    movemask (sseb.and ⟨false, false, false, false⟩
      (ssei.eq (select ⟨false, false, false, false⟩ ⟨1, 2, 3, 4⟩ ssei.ofPosInf)
        (vreduce_min (select ⟨false, false, false, false⟩ ⟨1, 2, 3, 4⟩ ssei.ofPosInf)))) = 0 ∧
    select_min_valid ⟨false, false, false, false⟩ ⟨1, 2, 3, 4⟩ = none ∧
    select_max_valid ⟨false, false, false, false⟩ ⟨1, 2, 3, 4⟩ = none ∧
    ¬ ∃ i, i < 4 ∧ select_min_valid ⟨false, false, false, false⟩ ⟨1, 2, 3, 4⟩ = some i := by
  decide

/-- C20 (amended). On a vector of `int32` lanes, `select_min(v)` and `select_max(v)` are defined
and return a lane index in `0..3`; `select_min(valid,v)` and `select_max(valid,v)` are defined and
return a lane index in `0..3` for every validity mask with at least one lane set; and
`operator[]` yields an `int32` for every index below 4. -/
theorem C20_select_defined (valid : sseb) (v : ssei) (hv : v.inRange)
    (hne : ∃ k, ∃ h : k < 4, valid[k] = true) :
    (∃ i, i < 4 ∧ select_min v = some i) ∧ (∃ i, i < 4 ∧ select_max v = some i) ∧
    (∃ i, i < 4 ∧ select_min_valid valid v = some i) ∧
    (∃ i, i < 4 ∧ select_max_valid valid v = some i) ∧
    (∀ i (h : i < 4), isInt32 v[i]) := by
  have hne4 := sseb_exists_lane valid hne
  refine ⟨?_, ?_, ?_, ?_, ?_⟩
  · obtain ⟨i, hi, hs, _⟩ := first_equal_lane v (reduce_min v) (reduce_min_mem v)
    refine ⟨i, hi, ?_⟩
    unfold select_min
    rw [vreduce_min_lanes]; exact hs
  · obtain ⟨i, hi, hs, _⟩ := first_equal_lane v (reduce_max v) (reduce_max_mem v)
    refine ⟨i, hi, ?_⟩
    unfold select_max
    rw [vreduce_max_lanes]; exact hs
  · obtain ⟨hmem, _⟩ := masked_min_facts valid v hv hne4
    obtain ⟨i, hi, hs, _⟩ :=
      first_valid_equal_lane valid (select valid v ssei.ofPosInf) _ hmem
    refine ⟨i, hi, ?_⟩
    unfold select_min_valid
    simp only []
    rw [vreduce_min_lanes]; exact hs
  · obtain ⟨hmem, _⟩ := masked_max_facts valid v hv hne4
    obtain ⟨i, hi, hs, _⟩ :=
      first_valid_equal_lane valid (select valid v ssei.ofNegInf) _ hmem
    refine ⟨i, hi, ?_⟩
    unfold select_max_valid
    simp only []
    rw [vreduce_max_lanes]; exact hs
  · intro i h
    obtain ⟨h0, h1, h2, h3⟩ := hv
    rw [ssei_getElem_eq]
    split_ifs <;> assumption

/-- Witness for C20 (amended) on a mask with the two middle lanes set. -/
theorem C20_select_defined_witness :
    (∃ i, i < 4 ∧ select_min ⟨-5, 7, 3, 100⟩ = some i) ∧
    (∃ i, i < 4 ∧ select_max ⟨-5, 7, 3, 100⟩ = some i) ∧
    (∃ i, i < 4 ∧ select_min_valid ⟨false, true, true, false⟩ ⟨-5, 7, 3, 100⟩ = some i) ∧
    (∃ i, i < 4 ∧ select_max_valid ⟨false, true, true, false⟩ ⟨-5, 7, 3, 100⟩ = some i) ∧
    (∀ i (h : i < 4), isInt32 (⟨-5, 7, 3, 100⟩ : ssei)[i]) :=
  C20_select_defined ⟨false, true, true, false⟩ ⟨-5, 7, 3, 100⟩ (by decide)
    ⟨1, by decide, rfl⟩

/-! ## Theorems: fatal build results -/

/-- One pass of the segment loop on a reply that is neither success nor out-of-host-memory: the
loop is left with that result. -/
theorem segmentLoop_other {β : Type} (drv : Driver β) (ops : BoundsOps β) (hb n i : Nat)
    (st : BuildState β) (err : ze_result_t) (b : β) (h1 : err ≠ .SUCCESS)
    (h2 : err ≠ .ERROR_OUT_OF_HOST_MEMORY) (h : drv.build st.calls.length = .completed err b) :
    segmentLoop drv ops hb (n + 1) i st =
      .ok
        { expected := st.expected
          accelSize := st.accelSize
          fullBounds := ops.extend st.fullBounds b
          err := err
          calls := st.calls ++ [⟨i, hb + (i * st.expected) % SIZE_MOD, st.expected⟩] } := by
  simp [segmentLoop, h, h1, h2]

/-- A pass of the segment loop that ends with `err == SUCCESS` has built every one of its
segments, each with a success reply, with the expected size unchanged. -/
theorem segmentLoop_success_all {β : Type} (drv : Driver β) (ops : BoundsOps β) (hb : Nat)
    (n : Nat) : ∀ (i : Nat) (st r : BuildState β), 0 < n →
    segmentLoop drv ops hb n i st = .ok r → r.err = .SUCCESS →
    (∀ j, j < n → ∃ b, drv.build (st.calls.length + j) = .completed .SUCCESS b) ∧
    r.expected = st.expected ∧
    r.calls = st.calls ++ (List.range' i n).map (segmentCall hb st.expected) := by
  induction n with
  | zero => intro i st r h; omega
  | succ n ih =>
    intro i st r _ h herr
    rw [segmentLoop] at h
    cases hrep : drv.build st.calls.length with
    | propertiesFailed => rw [hrep] at h; simp at h
    | completed err b =>
      rw [hrep] at h
      simp only [] at h
      by_cases hoom : err = .ERROR_OUT_OF_HOST_MEMORY
      · rw [if_pos hoom] at h
        by_cases hmax : st.expected = drv.rtasBufferSizeBytesMax
        · rw [if_pos hmax] at h; simp at h
        · rw [if_neg hmax] at h
          simp only [Except.ok.injEq] at h
          subst h
          simp only [] at herr
          rw [hoom] at herr
          cases herr
      · rw [if_neg hoom] at h
        by_cases hsucc : err = .SUCCESS
        · rw [if_neg (by simpa using hsucc)] at h
          subst hsucc
          by_cases hn : 0 < n
          · obtain ⟨a1, a2, a3⟩ := ih _ _ _ hn h herr
            refine ⟨?_, a2, ?_⟩
            · intro j hj
              cases j with
              | zero => exact ⟨b, hrep⟩
              | succ j =>
                obtain ⟨b', hb'⟩ := a1 j (by omega)
                refine ⟨b', ?_⟩
                simp only [List.length_append, List.length_singleton] at hb'
                rw [← hb']; congr 1; omega
            · rw [a3, List.range'_succ, List.map_cons, List.append_assoc]
              rfl
          · have hn0 : n = 0 := by omega
            subst hn0
            simp only [segmentLoop, Except.ok.injEq] at h
            subst h
            refine ⟨?_, rfl, ?_⟩
            · intro j hj
              have : j = 0 := by omega
              subst this
              exact ⟨b, hrep⟩
            · simp [segmentCall, List.range'_succ]
        · rw [if_pos (by simpa using hsucc)] at h
          simp only [Except.ok.injEq] at h
          subst h
          exact absurd herr hsucc

/-- C17. In `rthwifBuild`: (a) when segments `0 .. k-1` of a pass succeed and segment `k` finishes
with a result other than success or out-of-host-memory, the pass ends there (its calls are exactly
those for segments `0 .. k`) and the loop ends with that result whatever number of passes remains,
so no retry is made; (b) a loop that ends with a result other than success makes the build raise
the fatal build error; (c) `rthwifBuild` returns normally only if the last `maxTimeSegments`
builder calls were the calls for segments `0 .. maxTimeSegments-1` of one pass and every one of
them reported success. -/
theorem C17_other_result_is_fatal {β : Type} (L : TypeSizes) (cfg : BuildConfig) (drv : Driver β)
    (ops : BoundsOps β) (scene : Scene) (accelData accelSize : Nat) :
    (∀ (st0 : BuildState β) (k : Nat) (err : ze_result_t) (b : β),
      k < maxTimeSegments scene →
      (∀ j, j < k → ∃ b', drv.build (st0.calls.length + j) = .completed .SUCCESS b') →
      err ≠ .SUCCESS → err ≠ .ERROR_OUT_OF_HOST_MEMORY →
      drv.build (st0.calls.length + k) = .completed err b →
      ∃ st' : BuildState β,
        st'.err = err ∧
        st'.calls = st0.calls ++
          (List.range (k + 1)).map
            (segmentCall (headerBytes L (maxTimeSegments scene)) st0.expected) ∧
        ∀ fuel, buildLoop drv ops (maxTimeSegments scene)
          (headerBytes L (maxTimeSegments scene)) (fuel + 1) st0 = some (.ok st')) ∧
    (∀ (fuel : Nat) (st' : BuildState β),
      buildLoop drv ops (maxTimeSegments scene) (headerBytes L (maxTimeSegments scene)) fuel
        ⟨drv.rtasBufferSizeBytesExpected, accelSize, ops.empty, .SUCCESS, []⟩ = some (.ok st') →
      st'.err ≠ .SUCCESS →
      drv.isGPUDevice = true → drv.builderCreate = .SUCCESS →
      drv.parallelOperationCreate = .SUCCESS → drv.getRTASProperties = .SUCCESS →
      drv.getBuildProperties = .SUCCESS →
      rthwifBuild L cfg drv ops scene accelData accelSize fuel =
        some (.error (.RTCError "build error"))) ∧
    (∀ (fuel : Nat) (r : BuildResult β),
      rthwifBuild L cfg drv ops scene accelData accelSize fuel = some (.ok r) →
      ∃ n, r.calls.length = n + maxTimeSegments scene ∧
        ∀ j, j < maxTimeSegments scene →
          (∃ b, drv.build (n + j) = .completed .SUCCESS b) ∧
          r.calls[n + j]? =
            some (segmentCall (headerBytes L (maxTimeSegments scene)) r.expected j)) := by
  have hmts := one_le_maxTimeSegments scene
  refine ⟨?_, ?_, ?_⟩
  · intro st0 k err b hk hsucc he1 he2 hrep
    obtain ⟨stk, hloop, hexp, _, hcalls⟩ :=
      segmentLoop_success_prefix drv ops (headerBytes L (maxTimeSegments scene)) k
        (maxTimeSegments scene) 0
        (resizeAccel (maxTimeSegments scene) (headerBytes L (maxTimeSegments scene)) st0)
        (by omega) hsucc
    have hexp' : stk.expected = st0.expected := hexp
    have hcalls' : stk.calls = st0.calls ++ (List.range' 0 k).map
        (segmentCall (headerBytes L (maxTimeSegments scene)) st0.expected) := hcalls
    obtain ⟨n, hn⟩ : ∃ n, maxTimeSegments scene - k = n + 1 :=
      ⟨maxTimeSegments scene - k - 1, by omega⟩
    have hlen : stk.calls.length = st0.calls.length + k := by
      rw [hcalls']; simp
    have hrep' : drv.build stk.calls.length = .completed err b := by
      rw [hlen]; exact hrep
    have hstep := segmentLoop_other drv ops (headerBytes L (maxTimeSegments scene)) n (0 + k) stk
      err b he1 he2 hrep'
    rw [hn, hstep, hexp'] at hloop
    refine ⟨{ expected := st0.expected, accelSize := stk.accelSize,
              fullBounds := ops.extend stk.fullBounds b, err := err,
              calls := stk.calls ++ [⟨0 + k, headerBytes L (maxTimeSegments scene) +
                ((0 + k) * st0.expected) % SIZE_MOD, st0.expected⟩] }, rfl, ?_, ?_⟩
    · show stk.calls ++ [⟨0 + k, headerBytes L (maxTimeSegments scene) +
        ((0 + k) * st0.expected) % SIZE_MOD, st0.expected⟩] = _
      rw [hcalls', List.range_eq_range', List.range'_concat, List.map_append, List.append_assoc]
      simp [segmentCall]
    · intro fuel
      rw [buildLoop, hloop]
      simp [he2]
  · intro fuel st' hloop herr g1 g2 g3 g4 g5
    unfold rthwifBuild
    simp [hloop, herr, g1, g2, g3, g4, g5]
  · intro fuel r hok
    obtain ⟨st, hloop, herr, _, _, _, hexp, _, hcalls, _⟩ :=
      rthwifBuild_ok_inv L cfg drv ops scene accelData accelSize fuel r hok
    obtain ⟨st', hseg, _⟩ := buildLoop_final_attempt drv ops _ _ fuel _ _ hloop
    obtain ⟨a1, a2, a3⟩ := segmentLoop_success_all drv ops _ _ 0 _ _ hmts hseg herr
    have a2' : st.expected = st'.expected := a2
    have a3' : st.calls = st'.calls ++ (List.range' 0 (maxTimeSegments scene)).map
        (segmentCall (headerBytes L (maxTimeSegments scene)) st'.expected) := a3
    refine ⟨st'.calls.length, ?_, ?_⟩
    · rw [hcalls, a3']; simp
    · intro j hj
      refine ⟨a1 j hj, ?_⟩
      rw [hcalls, a3', hexp, a2', List.getElem?_append_right (by omega)]
      simp [List.getElem?_range', hj]

/-- The example run with a builder whose second call ends with another error: the build raises
the fatal build error; with the example driver, whose second call reports out-of-host-memory, the
build retries and returns normally. -/
theorem example_other_error :
    rthwifBuild exampleSizes exampleConfig otherErrorDriver exampleOps exampleScene 4096 0 5 =
      some (.error (.RTCError "build error")) ∧
    (∃ r, rthwifBuild exampleSizes exampleConfig exampleDriver exampleOps exampleScene 4096 0 5 =
      some (.ok r)) :=
  ⟨rfl, ⟨_, rfl⟩⟩

/-! ## Theorems: shuffles, insert / extract and constructors -/

/-- C25. For all indices `i0,i1,i2,i3` in `0..3` and every vector `a`, `shuffle<i0,i1,i2,i3>(a)`
has lanes `(a[i0], a[i1], a[i2], a[i3])`; the specialisations `shuffle<0,0,2,2>`,
`shuffle<1,1,3,3>` and `shuffle<0,1,0,1>` return the result of the generic template, so that a
call resolves to the same vector either way; and the two-vector form `shuffle<i0,i1,i2,i3>(a,b)`
has lanes `(a[i0], a[i1], b[i2], b[i3])`. -/
theorem C25_shuffle (i0 i1 i2 i3 : Fin 4) (a b : ssei) :
    ((shuffle i0 i1 i2 i3 a)[0] = a[i0.val] ∧ (shuffle i0 i1 i2 i3 a)[1] = a[i1.val] ∧
      (shuffle i0 i1 i2 i3 a)[2] = a[i2.val] ∧ (shuffle i0 i1 i2 i3 a)[3] = a[i3.val]) ∧
    (shuffle_0_0_2_2 a = shuffle 0 0 2 2 a ∧ shuffle_1_1_3_3 a = shuffle 1 1 3 3 a ∧
      shuffle_0_1_0_1 a = shuffle 0 1 0 1 a) ∧
    shuffleCall i0 i1 i2 i3 a = shuffle i0 i1 i2 i3 a ∧
    ((shuffle2 i0 i1 i2 i3 a b)[0] = a[i0.val] ∧ (shuffle2 i0 i1 i2 i3 a b)[1] = a[i1.val] ∧
      (shuffle2 i0 i1 i2 i3 a b)[2] = b[i2.val] ∧ (shuffle2 i0 i1 i2 i3 a b)[3] = b[i3.val]) := by
  refine ⟨⟨rfl, rfl, rfl, rfl⟩, ⟨rfl, rfl, rfl⟩, ?_, ⟨rfl, rfl, rfl, rfl⟩⟩
  unfold shuffleCall
  split_ifs with h1 h2 h3
  · obtain ⟨e0, e1, e2, e3⟩ := h1
    subst e0 e1 e2 e3; rfl
  · obtain ⟨e0, e1, e2, e3⟩ := h2
    subst e0 e1 e2 e3; rfl
  · obtain ⟨e0, e1, e2, e3⟩ := h3
    subst e0 e1 e2 e3; rfl
  · rfl

/-- The shuffles on a vector with four different lanes. -/
theorem example_shuffle :
    shuffle 3 2 1 0 ⟨10, 11, 12, 13⟩ = ⟨13, 12, 11, 10⟩ ∧
    shuffleCall 0 0 2 2 ⟨10, 11, 12, 13⟩ = ⟨10, 10, 12, 12⟩ ∧
    shuffleCall 1 1 3 3 ⟨10, 11, 12, 13⟩ = ⟨11, 11, 13, 13⟩ ∧
    shuffleCall 0 1 0 1 ⟨10, 11, 12, 13⟩ = ⟨10, 11, 10, 11⟩ ∧
    shuffle2 1 0 3 2 ⟨10, 11, 12, 13⟩ ⟨20, 21, 22, 23⟩ = ⟨11, 10, 23, 22⟩ := by
  decide

/-- C29. For every vector `a`, scalar `b` and lane indices `dst`, `src` in `0..3`:
`extract<dst>(insert<dst>(a,b)) == b`, for `src != dst`
`extract<src>(insert<dst>(a,b)) == extract<src>(a)` (insert changes only the addressed lane), and
`extract<src>(a)` is `a[src]`. -/
theorem C29_insert_extract (a : ssei) (b : Int) (dst src : Fin 4) :
    extract dst (insert dst a b) = b ∧
    (src ≠ dst → extract src (insert dst a b) = extract src a) ∧
    extract src a = a[src.val] := by
  refine ⟨?_, ?_, rfl⟩
  · fin_cases dst <;> rfl
  · intro h
    fin_cases dst <;> fin_cases src <;> first | rfl | exact absurd rfl h

/-- C30. The constructors place their arguments in lane order: `ssei(a,b,c,d)` has lanes
`[0]=a, [1]=b, [2]=c, [3]=d`; `ssei(a,b)` has lanes `(a,b,a,b)`; the broadcast constructor
`ssei(a)` has all four lanes equal to `a`; the zero and one constants have all lanes 0 and 1; and
the step constant has lane `i` equal to `i` for `i` in `0..3`. -/
theorem C30_constructors (a b c d : Int) :
    ((ssei.ofInt4 a b c d)[0] = a ∧ (ssei.ofInt4 a b c d)[1] = b ∧
      (ssei.ofInt4 a b c d)[2] = c ∧ (ssei.ofInt4 a b c d)[3] = d) ∧
    ((ssei.ofInt2 a b)[0] = a ∧ (ssei.ofInt2 a b)[1] = b ∧
      (ssei.ofInt2 a b)[2] = a ∧ (ssei.ofInt2 a b)[3] = b) ∧
    (∀ i (h : i < 4), (ssei.broadcast a)[i] = a) ∧
    (∀ i (h : i < 4), ssei.ofZero[i] = 0) ∧
    (∀ i (h : i < 4), ssei.ofOne[i] = 1) ∧
    (∀ (i : Nat) (h : i < 4), ssei.ofStep[i] = (i : Int)) := by
  refine ⟨⟨rfl, rfl, rfl, rfl⟩, ⟨rfl, rfl, rfl, rfl⟩, ?_, ?_, ?_, ?_⟩ <;>
    (intro i h
     match i, h with
     | 0, _ => rfl
     | 1, _ => rfl
     | 2, _ => rfl
     | 3, _ => rfl)

/-! ## Theorems: comparisons, shifts, negation and absolute value -/

/-- Every lane of the broadcast constructor is its argument. -/
theorem broadcast_eq (s : Int) : ssei.broadcast s = ⟨s, s, s, s⟩ := rfl

/-- The strict order on the integers decides to the complement of the reversed weak order. -/
theorem decide_lt_eq_not_le (x y : Int) : decide (y < x) = !decide (x ≤ y) := by
  rcases Int.lt_or_le y x with h | h
  · simp [h, Int.not_le.mpr h]
  · simp [h, Int.not_lt.mpr h]

/-- C26. For all vectors `a`, `b` and every lane `i`, each comparison operator yields a mask whose
lane `i` is true exactly when the signed relation holds between `a[i]` and `b[i]`; the derived
operators `!=`, `>=` and `<=` are the lane-wise complements of `==`, `<` and `>`; and the scalar
overloads are the comparison against the broadcast scalar, on either side. -/
theorem C26_comparisons (a b : ssei) (s : Int) :
    (∀ i (h : i < 4),
      (a.eq b)[i] = decide (a[i] = b[i]) ∧ (a.ne b)[i] = decide (a[i] ≠ b[i]) ∧
      (a.lt b)[i] = decide (a[i] < b[i]) ∧ (a.le b)[i] = decide (a[i] ≤ b[i]) ∧
      (a.gt b)[i] = decide (a[i] > b[i]) ∧ (a.ge b)[i] = decide (a[i] ≥ b[i])) ∧
    (∀ i (h : i < 4),
      (a.ne b)[i] = !(a.eq b)[i] ∧ (a.ge b)[i] = !(a.lt b)[i] ∧ (a.le b)[i] = !(a.gt b)[i]) ∧
    (∀ i (h : i < 4),
      (a.eqScalar s)[i] = decide (a[i] = s) ∧ (ssei.scalarEq s b)[i] = decide (s = b[i]) ∧
      (a.neScalar s)[i] = decide (a[i] ≠ s) ∧ (ssei.scalarNe s b)[i] = decide (s ≠ b[i]) ∧
      (a.ltScalar s)[i] = decide (a[i] < s) ∧ (ssei.scalarLt s b)[i] = decide (s < b[i]) ∧
      (a.leScalar s)[i] = decide (a[i] ≤ s) ∧ (ssei.scalarLe s b)[i] = decide (s ≤ b[i]) ∧
      (a.gtScalar s)[i] = decide (a[i] > s) ∧ (ssei.scalarGt s b)[i] = decide (s > b[i]) ∧
      (a.geScalar s)[i] = decide (a[i] ≥ s) ∧ (ssei.scalarGe s b)[i] = decide (s ≥ b[i])) ∧
    (a.eqScalar s = a.eq (ssei.broadcast s) ∧ ssei.scalarEq s b = (ssei.broadcast s).eq b ∧
      a.ltScalar s = a.lt (ssei.broadcast s) ∧ ssei.scalarLt s b = (ssei.broadcast s).lt b ∧
      a.gtScalar s = a.gt (ssei.broadcast s) ∧ ssei.scalarGt s b = (ssei.broadcast s).gt b) := by
  obtain ⟨a0, a1, a2, a3⟩ := a
  obtain ⟨b0, b1, b2, b3⟩ := b
  refine ⟨?_, ?_, ?_, ⟨rfl, rfl, rfl, rfl, rfl, rfl⟩⟩
  · intro i h
    match i, h with
    | 0, _ =>
      simp [ssei.eq, ssei.ne, ssei.lt, ssei.le, ssei.gt, ssei.ge, sseb.not, getElem]
      exact ⟨decide_lt_eq_not_le _ _, decide_lt_eq_not_le _ _⟩
    | 1, _ =>
      simp [ssei.eq, ssei.ne, ssei.lt, ssei.le, ssei.gt, ssei.ge, sseb.not, getElem]
      exact ⟨decide_lt_eq_not_le _ _, decide_lt_eq_not_le _ _⟩
    | 2, _ =>
      simp [ssei.eq, ssei.ne, ssei.lt, ssei.le, ssei.gt, ssei.ge, sseb.not, getElem]
      exact ⟨decide_lt_eq_not_le _ _, decide_lt_eq_not_le _ _⟩
    | 3, _ =>
      simp [ssei.eq, ssei.ne, ssei.lt, ssei.le, ssei.gt, ssei.ge, sseb.not, getElem]
      exact ⟨decide_lt_eq_not_le _ _, decide_lt_eq_not_le _ _⟩
  · intro i h
    match i, h with
    | 0, _ => exact ⟨rfl, rfl, rfl⟩
    | 1, _ => exact ⟨rfl, rfl, rfl⟩
    | 2, _ => exact ⟨rfl, rfl, rfl⟩
    | 3, _ => exact ⟨rfl, rfl, rfl⟩
  · intro i h
    match i, h with
    | 0, _ =>
      simp [ssei.eqScalar, ssei.scalarEq, ssei.neScalar, ssei.scalarNe, ssei.ltScalar,
        ssei.scalarLt, ssei.leScalar, ssei.scalarLe, ssei.gtScalar, ssei.scalarGt,
        ssei.geScalar, ssei.scalarGe, broadcast_eq, ssei.eq, ssei.ne, ssei.lt, ssei.le, ssei.gt,
        ssei.ge, sseb.not, getElem]
      exact ⟨decide_lt_eq_not_le _ _, decide_lt_eq_not_le _ _, decide_lt_eq_not_le _ _,
        decide_lt_eq_not_le _ _⟩
    | 1, _ =>
      simp [ssei.eqScalar, ssei.scalarEq, ssei.neScalar, ssei.scalarNe, ssei.ltScalar,
        ssei.scalarLt, ssei.leScalar, ssei.scalarLe, ssei.gtScalar, ssei.scalarGt,
        ssei.geScalar, ssei.scalarGe, broadcast_eq, ssei.eq, ssei.ne, ssei.lt, ssei.le, ssei.gt,
        ssei.ge, sseb.not, getElem]
      exact ⟨decide_lt_eq_not_le _ _, decide_lt_eq_not_le _ _, decide_lt_eq_not_le _ _,
        decide_lt_eq_not_le _ _⟩
    | 2, _ =>
      simp [ssei.eqScalar, ssei.scalarEq, ssei.neScalar, ssei.scalarNe, ssei.ltScalar,
        ssei.scalarLt, ssei.leScalar, ssei.scalarLe, ssei.gtScalar, ssei.scalarGt,
        ssei.geScalar, ssei.scalarGe, broadcast_eq, ssei.eq, ssei.ne, ssei.lt, ssei.le, ssei.gt,
        ssei.ge, sseb.not, getElem]
      exact ⟨decide_lt_eq_not_le _ _, decide_lt_eq_not_le _ _, decide_lt_eq_not_le _ _,
        decide_lt_eq_not_le _ _⟩
    | 3, _ =>
      simp [ssei.eqScalar, ssei.scalarEq, ssei.neScalar, ssei.scalarNe, ssei.ltScalar,
        ssei.scalarLt, ssei.leScalar, ssei.scalarLe, ssei.gtScalar, ssei.scalarGt,
        ssei.geScalar, ssei.scalarGe, broadcast_eq, ssei.eq, ssei.ne, ssei.lt, ssei.le, ssei.gt,
        ssei.ge, sseb.not, getElem]
      exact ⟨decide_lt_eq_not_le _ _, decide_lt_eq_not_le _ _, decide_lt_eq_not_le _ _,
        decide_lt_eq_not_le _ _⟩

/-- The comparisons on two vectors that agree in lane 1 only. -/
theorem example_comparisons :
    ssei.eq ⟨1, 5, -3, 7⟩ ⟨2, 5, -4, 9⟩ = ⟨false, true, false, false⟩ ∧
    ssei.ne ⟨1, 5, -3, 7⟩ ⟨2, 5, -4, 9⟩ = ⟨true, false, true, true⟩ ∧
    ssei.lt ⟨1, 5, -3, 7⟩ ⟨2, 5, -4, 9⟩ = ⟨true, false, false, true⟩ ∧
    ssei.ge ⟨1, 5, -3, 7⟩ ⟨2, 5, -4, 9⟩ = ⟨false, true, true, false⟩ ∧
    ssei.gt ⟨1, 5, -3, 7⟩ ⟨2, 5, -4, 9⟩ = ⟨false, false, true, false⟩ ∧
    ssei.le ⟨1, 5, -3, 7⟩ ⟨2, 5, -4, 9⟩ = ⟨true, true, false, true⟩ ∧
    ssei.ltScalar ⟨1, 5, -3, 7⟩ 5 = ⟨true, false, true, false⟩ := by
  decide

/-- The arithmetic right shift of one lane is the floor of the quotient by `2^n`, and an `int32`
when the lane is one. -/
theorem srai_epi32_spec (x : Int) (n : Nat) (hn : n ≤ 31) :
    srai_epi32 x n = x / 2 ^ n ∧
    2 ^ n * srai_epi32 x n ≤ x ∧ x < 2 ^ n * (srai_epi32 x n + 1) ∧
    (isInt32 x → isInt32 (srai_epi32 x n)) := by
  have hmin : Min.min n 31 = n := by omega
  have hpos : (0 : Int) < 2 ^ n := by positivity
  have h1 : (1 : Int) ≤ 2 ^ n := by omega
  unfold srai_epi32
  rw [hmin]
  have hle : 2 ^ n * (x / 2 ^ n) ≤ x := Int.mul_ediv_self_le (by omega)
  have hlt : x < 2 ^ n * (x / 2 ^ n + 1) := by
    have := Int.lt_ediv_add_one_mul_self x hpos
    rw [Int.mul_comm] at this
    exact this
  refine ⟨rfl, hle, hlt, ?_⟩
  intro hx
  unfold isInt32 at hx ⊢
  constructor
  · by_contra hc
    have hq : x / 2 ^ n + 1 ≤ -2147483648 := by omega
    have : 2 ^ n * (x / 2 ^ n + 1) ≤ 2 ^ n * (-2147483648) :=
      Int.mul_le_mul_of_nonneg_left hq (by omega)
    have h2 : (2 : Int) ^ n * (-2147483648) ≤ 1 * (-2147483648) :=
      Int.mul_le_mul_of_nonpos_right h1 (by omega)
    omega
  · by_contra hc
    have hq : (2147483648 : Int) ≤ x / 2 ^ n := by omega
    have : 2 ^ n * (2147483648 : Int) ≤ 2 ^ n * (x / 2 ^ n) :=
      Int.mul_le_mul_of_nonneg_left hq (by omega)
    have h2 : 1 * (2147483648 : Int) ≤ 2 ^ n * 2147483648 :=
      Int.mul_le_mul_of_nonneg_right h1 (by omega)
    omega

/-- The logical right shift of one lane: its unsigned reading is the floor of the quotient of the
unsigned reading of the lane by `2^n`. -/
theorem srli_epi32_spec (x : Int) (n : Nat) (hn : n ≤ 31) :
    isInt32 (srli_epi32 x n) ∧
    toUInt32 (srli_epi32 x n) = toUInt32 x / 2 ^ n ∧
    (1 ≤ n → srli_epi32 x n = toUInt32 x / 2 ^ n ∧ 0 ≤ srli_epi32 x n) := by
  have hpos : (0 : Int) < 2 ^ n := by positivity
  have hu0 : 0 ≤ x % 4294967296 := Int.emod_nonneg _ (by omega)
  have hu1 : x % 4294967296 < 4294967296 := Int.emod_lt_of_pos _ (by omega)
  have hq0 : 0 ≤ x % 4294967296 / 2 ^ n := Int.ediv_nonneg hu0 (by omega)
  have hq1 : x % 4294967296 / 2 ^ n ≤ x % 4294967296 := Int.ediv_le_self _ hu0
  unfold srli_epi32 toUInt32
  rw [if_pos hn]
  generalize hy : x % 4294967296 / 2 ^ n = y at hq0 hq1
  refine ⟨?_, ?_, ?_⟩
  · unfold isInt32 int32_wrap; omega
  · unfold int32_wrap; omega
  · intro h1
    have h2 : (2 : Int) ≤ 2 ^ n := by
      have : (2 : Int) ^ 1 ≤ 2 ^ n := pow_le_pow_right₀ (by omega) h1
      simpa using this
    have hy2 : y * 2 ≤ x % 4294967296 := by
      have hle : 2 ^ n * (x % 4294967296 / 2 ^ n) ≤ x % 4294967296 :=
        Int.mul_ediv_self_le (by omega)
      rw [hy] at hle
      have : 2 * y ≤ 2 ^ n * y := Int.mul_le_mul_of_nonneg_right h2 hq0
      omega
    unfold int32_wrap
    constructor <;> omega

/-- The left shift of one lane is an `int32` congruent to `x * 2^n` modulo `2^32`. -/
theorem slli_epi32_spec (x : Int) (n : Nat) (hn : n ≤ 31) :
    slli_epi32 x n = int32_wrap (x * 2 ^ n) ∧ isInt32 (slli_epi32 x n) ∧
    toUInt32 (slli_epi32 x n) = (x * 2 ^ n) % 4294967296 := by
  unfold slli_epi32 toUInt32
  rw [if_pos hn]
  generalize x * 2 ^ n = y
  refine ⟨rfl, ?_, ?_⟩
  · unfold isInt32 int32_wrap; omega
  · unfold int32_wrap; omega

/-- C27. For every vector `a`, every shift count `n` with `0 <= n <= 31` and every lane `i`:
`(a >> n)[i]` and `sra(a,n)[i]` both equal `floor(a[i] / 2^n)` (the quotient `r` with
`2^n * r <= a[i] < 2^n * (r+1)`), so `operator>>` and `sra` agree; the unsigned 32-bit reading of
`srl(a,n)[i]` is the unsigned 32-bit reading of `a[i]` divided by `2^n` rounded down (for `n >= 1`
the lane itself is that non-negative quotient); and `(a << n)[i]` is the `int32` whose unsigned
reading is `a[i] * 2^n` reduced modulo `2^32`. -/
theorem C27_shifts (a : ssei) (n : Nat) (hn : n ≤ 31) :
    ∀ (i : Nat) (h : i < 4),
      (a.shr n)[i] = a[i] / 2 ^ n ∧ (sra a n)[i] = a[i] / 2 ^ n ∧ (a.shr n)[i] = (sra a n)[i] ∧
      2 ^ n * (a.shr n)[i] ≤ a[i] ∧ a[i] < 2 ^ n * ((a.shr n)[i] + 1) ∧
      (isInt32 a[i] → isInt32 (a.shr n)[i]) ∧
      isInt32 (srl a n)[i] ∧ toUInt32 (srl a n)[i] = toUInt32 a[i] / 2 ^ n ∧
      (1 ≤ n → (srl a n)[i] = toUInt32 a[i] / 2 ^ n ∧ 0 ≤ (srl a n)[i]) ∧
      (a.shl n)[i] = int32_wrap (a[i] * 2 ^ n) ∧ isInt32 (a.shl n)[i] ∧
      toUInt32 (a.shl n)[i] = (a[i] * 2 ^ n) % 4294967296 := by
  have lane : ∀ x : Int,
      srai_epi32 x n = x / 2 ^ n ∧ srai_epi32 x n = x / 2 ^ n ∧ srai_epi32 x n = srai_epi32 x n ∧
      2 ^ n * srai_epi32 x n ≤ x ∧ x < 2 ^ n * (srai_epi32 x n + 1) ∧
      (isInt32 x → isInt32 (srai_epi32 x n)) ∧
      isInt32 (srli_epi32 x n) ∧ toUInt32 (srli_epi32 x n) = toUInt32 x / 2 ^ n ∧
      (1 ≤ n → srli_epi32 x n = toUInt32 x / 2 ^ n ∧ 0 ≤ srli_epi32 x n) ∧
      slli_epi32 x n = int32_wrap (x * 2 ^ n) ∧ isInt32 (slli_epi32 x n) ∧
      toUInt32 (slli_epi32 x n) = (x * 2 ^ n) % 4294967296 := by
    intro x
    obtain ⟨h1, h2, h3, h4⟩ := srai_epi32_spec x n hn
    obtain ⟨h5, h6, h7⟩ := srli_epi32_spec x n hn
    obtain ⟨h8, h9, h10⟩ := slli_epi32_spec x n hn
    exact ⟨h1, h1, rfl, h2, h3, h4, h5, h6, h7, h8, h9, h10⟩
  intro i h
  match i, h with
  | 0, _ => exact lane a.v0
  | 1, _ => exact lane a.v1
  | 2, _ => exact lane a.v2
  | 3, _ => exact lane a.v3

/-- Witness for C27: the shifts by three bits of a vector with negative lanes. -/
theorem C27_shifts_witness :
    3 ≤ 31 ∧
    ∀ (i : Nat) (h : i < 4),
      ((⟨-5, 7, -2147483648, 100⟩ : ssei).shr 3)[i] = (⟨-5, 7, -2147483648, 100⟩ : ssei)[i] / 2 ^ 3 ∧
      (sra ⟨-5, 7, -2147483648, 100⟩ 3)[i] = (⟨-5, 7, -2147483648, 100⟩ : ssei)[i] / 2 ^ 3 ∧
      ((⟨-5, 7, -2147483648, 100⟩ : ssei).shr 3)[i] = (sra ⟨-5, 7, -2147483648, 100⟩ 3)[i] ∧
      2 ^ 3 * ((⟨-5, 7, -2147483648, 100⟩ : ssei).shr 3)[i] ≤
        (⟨-5, 7, -2147483648, 100⟩ : ssei)[i] ∧
      (⟨-5, 7, -2147483648, 100⟩ : ssei)[i] <
        2 ^ 3 * (((⟨-5, 7, -2147483648, 100⟩ : ssei).shr 3)[i] + 1) ∧
      (isInt32 (⟨-5, 7, -2147483648, 100⟩ : ssei)[i] →
        isInt32 ((⟨-5, 7, -2147483648, 100⟩ : ssei).shr 3)[i]) ∧
      isInt32 (srl ⟨-5, 7, -2147483648, 100⟩ 3)[i] ∧
      toUInt32 (srl ⟨-5, 7, -2147483648, 100⟩ 3)[i] =
        toUInt32 (⟨-5, 7, -2147483648, 100⟩ : ssei)[i] / 2 ^ 3 ∧
      (1 ≤ 3 → (srl ⟨-5, 7, -2147483648, 100⟩ 3)[i] =
        toUInt32 (⟨-5, 7, -2147483648, 100⟩ : ssei)[i] / 2 ^ 3 ∧
        0 ≤ (srl ⟨-5, 7, -2147483648, 100⟩ 3)[i]) ∧
      ((⟨-5, 7, -2147483648, 100⟩ : ssei).shl 3)[i] =
        int32_wrap ((⟨-5, 7, -2147483648, 100⟩ : ssei)[i] * 2 ^ 3) ∧
      isInt32 ((⟨-5, 7, -2147483648, 100⟩ : ssei).shl 3)[i] ∧
      toUInt32 ((⟨-5, 7, -2147483648, 100⟩ : ssei).shl 3)[i] =
        ((⟨-5, 7, -2147483648, 100⟩ : ssei)[i] * 2 ^ 3) % 4294967296 :=
  ⟨by decide, C27_shifts ⟨-5, 7, -2147483648, 100⟩ 3 (by decide)⟩

/-- The shifts by three bits and by zero bits of a vector with negative lanes, evaluated. -/
theorem example_shifts :
    (⟨-5, 7, -2147483648, 100⟩ : ssei).shr 3 = ⟨-1, 0, -268435456, 12⟩ ∧
    sra ⟨-5, 7, -2147483648, 100⟩ 3 = ⟨-1, 0, -268435456, 12⟩ ∧
    srl ⟨-5, 7, -2147483648, 100⟩ 3 = ⟨536870911, 0, 268435456, 12⟩ ∧
    (⟨-5, 7, -2147483648, 100⟩ : ssei).shl 3 = ⟨-40, 56, 0, 800⟩ ∧
    (⟨1073741824, -1, 3, 0⟩ : ssei).shl 1 = ⟨-2147483648, -2, 6, 0⟩ ∧
    srl ⟨-5, 7, -2147483648, 100⟩ 0 = ⟨-5, 7, -2147483648, 100⟩ := by
  decide

/-- C28 fails as stated: on the lane `INT_MIN` the result of `abs` is `INT_MIN` again, which is
negative and not the absolute value of the lane. -/
theorem C28_counterexample :
    (⟨-2147483648, 1, -2, 3⟩ : ssei).inRange ∧
    (ssei.abs ⟨-2147483648, 1, -2, 3⟩)[0] = -2147483648 ∧
    ¬ (0 ≤ (ssei.abs ⟨-2147483648, 1, -2, 3⟩)[0] ∧
      (ssei.abs ⟨-2147483648, 1, -2, 3⟩)[0] = |(⟨-2147483648, 1, -2, 3⟩ : ssei)[0]|) := by
  decide

/-- One lane of `abs` on an `int32`. -/
theorem abs_epi32_spec (x : Int) (hx : isInt32 x) :
    (x ≠ -2147483648 → 0 ≤ abs_epi32 x ∧ abs_epi32 x = |x|) ∧
    (x = -2147483648 → abs_epi32 x = -2147483648) ∧
    isInt32 (abs_epi32 x) ∧ toUInt32 (abs_epi32 x) = |x| := by
  unfold isInt32 at hx
  unfold abs_epi32 toUInt32 isInt32 int32_wrap
  rcases Int.lt_or_le x 0 with h | h
  · rw [if_pos h, abs_of_neg h]
    refine ⟨fun hne => ⟨by omega, by omega⟩, fun he => by omega, by omega, by omega⟩
  · rw [if_neg (by omega), abs_of_nonneg h]
    refine ⟨fun _ => ⟨h, rfl⟩, fun he => by omega, by omega, by omega⟩

/-- C28 (amended). For every vector `a` of `int32` lanes and every lane `i`: when `a[i]` is not
`INT_MIN`, `abs(a)[i]` is non-negative and equals the mathematical absolute value of `a[i]`; when
`a[i]` is `INT_MIN`, `abs(a)[i]` is `INT_MIN`; in both cases the unsigned 32-bit reading of
`abs(a)[i]` is the absolute value of `a[i]`.  Unary negation satisfies `(-a)[i] == 0 - a[i]` in
32-bit two's-complement arithmetic, which is the mathematical negation unless `a[i]` is
`INT_MIN`. -/
theorem C28_abs_neg (a : ssei) (ha : a.inRange) :
    ∀ (i : Nat) (h : i < 4),
      (a[i] ≠ -2147483648 → 0 ≤ (ssei.abs a)[i] ∧ (ssei.abs a)[i] = |a[i]|) ∧
      (a[i] = -2147483648 → (ssei.abs a)[i] = -2147483648) ∧
      isInt32 (ssei.abs a)[i] ∧ toUInt32 (ssei.abs a)[i] = |a[i]| ∧
      (ssei.neg a)[i] = int32_wrap (0 - a[i]) ∧ isInt32 (ssei.neg a)[i] ∧
      (a[i] ≠ -2147483648 → (ssei.neg a)[i] = -a[i]) ∧
      (a[i] = -2147483648 → (ssei.neg a)[i] = -2147483648) := by
  have lane : ∀ x : Int, isInt32 x →
      (x ≠ -2147483648 → 0 ≤ abs_epi32 x ∧ abs_epi32 x = |x|) ∧
      (x = -2147483648 → abs_epi32 x = -2147483648) ∧
      isInt32 (abs_epi32 x) ∧ toUInt32 (abs_epi32 x) = |x| ∧
      int32_wrap (0 - x) = int32_wrap (0 - x) ∧ isInt32 (int32_wrap (0 - x)) ∧
      (x ≠ -2147483648 → int32_wrap (0 - x) = -x) ∧
      (x = -2147483648 → int32_wrap (0 - x) = -2147483648) := by
    intro x hx
    obtain ⟨h1, h2, h3, h4⟩ := abs_epi32_spec x hx
    refine ⟨h1, h2, h3, h4, rfl, ?_, ?_, ?_⟩
    · unfold isInt32 int32_wrap; omega
    · unfold isInt32 at hx; unfold int32_wrap; intro hne; omega
    · unfold int32_wrap; intro he; omega
  obtain ⟨h0, h1, h2, h3⟩ := ha
  intro i h
  match i, h with
  | 0, _ => exact lane a.v0 h0
  | 1, _ => exact lane a.v1 h1
  | 2, _ => exact lane a.v2 h2
  | 3, _ => exact lane a.v3 h3

/-- Witness for C28 (amended) on a vector that holds `INT_MIN`. -/
theorem C28_abs_neg_witness :
    (⟨-2147483648, 1, -2, 3⟩ : ssei).inRange ∧
    ∀ (i : Nat) (h : i < 4),
      ((⟨-2147483648, 1, -2, 3⟩ : ssei)[i] ≠ -2147483648 →
        0 ≤ (ssei.abs ⟨-2147483648, 1, -2, 3⟩)[i] ∧
        (ssei.abs ⟨-2147483648, 1, -2, 3⟩)[i] = |(⟨-2147483648, 1, -2, 3⟩ : ssei)[i]|) ∧
      ((⟨-2147483648, 1, -2, 3⟩ : ssei)[i] = -2147483648 →
        (ssei.abs ⟨-2147483648, 1, -2, 3⟩)[i] = -2147483648) ∧
      isInt32 (ssei.abs ⟨-2147483648, 1, -2, 3⟩)[i] ∧
      toUInt32 (ssei.abs ⟨-2147483648, 1, -2, 3⟩)[i] = |(⟨-2147483648, 1, -2, 3⟩ : ssei)[i]| ∧
      (ssei.neg ⟨-2147483648, 1, -2, 3⟩)[i] =
        int32_wrap (0 - (⟨-2147483648, 1, -2, 3⟩ : ssei)[i]) ∧
      isInt32 (ssei.neg ⟨-2147483648, 1, -2, 3⟩)[i] ∧
      ((⟨-2147483648, 1, -2, 3⟩ : ssei)[i] ≠ -2147483648 →
        (ssei.neg ⟨-2147483648, 1, -2, 3⟩)[i] = -(⟨-2147483648, 1, -2, 3⟩ : ssei)[i]) ∧
      ((⟨-2147483648, 1, -2, 3⟩ : ssei)[i] = -2147483648 →
        (ssei.neg ⟨-2147483648, 1, -2, 3⟩)[i] = -2147483648) :=
  ⟨by decide, C28_abs_neg ⟨-2147483648, 1, -2, 3⟩ (by decide)⟩

/-- The functions `abs` and unary minus evaluated on a vector that holds `INT_MIN`. -/
theorem example_abs_neg :
    ssei.abs ⟨-2147483648, 1, -2, 3⟩ = ⟨-2147483648, 1, 2, 3⟩ ∧
    ssei.neg ⟨-2147483648, 1, -2, 3⟩ = ⟨-2147483648, -1, 2, -3⟩ := by
  decide

/-! ## Theorems: the pointer table and the record ranges -/

/-- C21. After the fill pass of `rthwifBuild`, the pointer table `geomDescr` has exactly one entry
per scene slot; entry `geomID` is null if and only if scene slot `geomID` is null, and every
non-null entry is the start of that geometry's record: the running offset of the layout after the
slots before `geomID`, rounded up to the alignment of the geometry's tag (entries are offsets from
the base of the descriptor buffer). -/
theorem C21_pointer_table (L : TypeSizes) (cfg : BuildConfig) (scene : Scene) (dataSize : Nat) :
    (fillPass L cfg dataSize scene).geomDescr.length = scene.size ∧
    ∀ k, k < scene.size →
      ((fillPass L cfg dataSize scene).geomDescr[k]? = some none ↔
        scene.geometries[k]? = some none) ∧
      ∀ geom, scene.geometries[k]? = some (some geom) →
        (fillPass L cfg dataSize scene).geomDescr[k]? =
          some (some (align (measurePass L cfg ⟨scene.geometries.take k⟩)
            (alignof_RTHWIF_GEOMETRY L (getType L cfg geom).val))) := by
  obtain ⟨hlen, hent⟩ := fill_geomDescr L cfg dataSize scene.geometries
  refine ⟨hlen, ?_⟩
  intro k hk
  obtain ⟨hnull, hsome⟩ := hent k
  refine ⟨⟨?_, hnull⟩, hsome⟩
  intro hk0
  have hget : scene.geometries[k]? = some scene.geometries[k] := List.getElem?_eq_getElem hk
  cases hslot : scene.geometries[k] with
  | none => rw [hget, hslot]
  | some geom =>
    rw [hslot] at hget
    have := hsome geom hget
    unfold fillPass at hk0
    rw [this] at hk0
    cases hk0

/-- The fill pass of the example scene: five entries, null exactly at the null slot. -/
theorem example_pointer_table :
    (fillPass exampleSizes exampleConfig 244 exampleScene).geomDescr =
      [some 0, none, some 56, some 96, some 208] ∧
    exampleScene.size = 5 ∧ exampleScene.geometries[1]? = some none := by
  decide

/-- The record of a geometry starts at a multiple of its alignment, not before the running total
of the slots before it, and ends at the running total after its slot. -/
theorem record_range (L : TypeSizes) (cfg : BuildConfig) (hL : L.wellFormed)
    (l : List (Option Geometry)) (hlen : l.length ≤ 2 ^ 32) (k : Nat) (g : Geometry)
    (hk : l[k]? = some (some g)) :
    alignof_RTHWIF_GEOMETRY L (getType L cfg g).val ∣
      align ((l.take k).foldl (measureStep L cfg) 0)
        (alignof_RTHWIF_GEOMETRY L (getType L cfg g).val) ∧
    (l.take k).foldl (measureStep L cfg) 0 ≤
      align ((l.take k).foldl (measureStep L cfg) 0)
        (alignof_RTHWIF_GEOMETRY L (getType L cfg g).val) ∧
    align ((l.take k).foldl (measureStep L cfg) 0)
        (alignof_RTHWIF_GEOMETRY L (getType L cfg g).val) +
      sizeof_RTHWIF_GEOMETRY L (getType L cfg g).val =
      (l.take (k + 1)).foldl (measureStep L cfg) 0 := by
  obtain ⟨hkl, _⟩ := List.getElem?_eq_some.1 hk
  have htake : (l.take k).length = k := by simp; omega
  obtain ⟨_, hle⟩ := measure_foldl L cfg hL (l.take k) 0 (by rw [htake]; omega)
  rw [htake] at hle
  have hofs : (l.take k).foldl (measureStep L cfg) 0 + 2 ^ 32 ≤ 2 ^ 64 := by omega
  obtain ⟨hstep, _, halign⟩ := measureStep_some L cfg hL _ hofs g
  obtain ⟨⟨e, _, he⟩, _⟩ := record_bounds L cfg hL g
  have hpos : 0 < alignof_RTHWIF_GEOMETRY L (getType L cfg g).val := by
    rw [he]; positivity
  obtain ⟨hdvd, _, _⟩ := padding_spec ((l.take k).foldl (measureStep L cfg) 0) _ hpos
  have hsucc : l.take (k + 1) = l.take k ++ [some g] := by
    rw [List.take_succ, hk]; rfl
  rw [hsucc, List.foldl_append, List.foldl_cons, List.foldl_nil, hstep, halign]
  exact ⟨hdvd, by omega, by omega⟩

/-- C22. For every scene whose tags all have a power-of-two alignment (record sizes and
alignments those of C++ object types, at most `2^32` slots), each descriptor record starts at a
buffer offset that is a multiple of `alignof_RTHWIF_GEOMETRY(tag)`, the byte ranges
`[offset, offset + sizeof_RTHWIF_GEOMETRY(tag))` of distinct geometries are pairwise disjoint and
ordered by geometry index, and every range lies within `[0, totalBytes)`. -/
theorem C22_record_ranges (L : TypeSizes) (cfg : BuildConfig) (scene : Scene)
    (hL : L.wellFormed) (hsize : scene.size ≤ 2 ^ 32) :
    ∀ (k : Nat) (g : Geometry), scene.geometries[k]? = some (some g) →
      ∃ off, (fillPass L cfg (measurePass L cfg scene) scene).geomDescr[k]? = some (some off) ∧
        alignof_RTHWIF_GEOMETRY L (getType L cfg g).val ∣ off ∧
        off + sizeof_RTHWIF_GEOMETRY L (getType L cfg g).val ≤ measurePass L cfg scene ∧
        ∀ (j : Nat) (gj : Geometry), j < k → scene.geometries[j]? = some (some gj) →
          ∃ offj,
            (fillPass L cfg (measurePass L cfg scene) scene).geomDescr[j]? = some (some offj) ∧
            offj + sizeof_RTHWIF_GEOMETRY L (getType L cfg gj).val ≤ off ∧
            ∀ x, ¬ (offj ≤ x ∧ x < offj + sizeof_RTHWIF_GEOMETRY L (getType L cfg gj).val ∧
              off ≤ x ∧ x < off + sizeof_RTHWIF_GEOMETRY L (getType L cfg g).val) := by
  intro k g hk
  obtain ⟨_, hent⟩ := fill_geomDescr L cfg (measurePass L cfg scene) scene.geometries
  obtain ⟨hkl, _⟩ := List.getElem?_eq_some.1 hk
  have hsz : scene.geometries.length ≤ 2 ^ 32 := hsize
  obtain ⟨hdvd, hge, hend⟩ := record_range L cfg hL scene.geometries hsize k g hk
  have htot := measure_prefix_le L cfg hL scene.geometries hsize (k + 1) (by omega)
  refine ⟨_, (hent k).2 g hk, hdvd, ?_, ?_⟩
  · rw [hend]; exact htot
  · intro j gj hjk hj
    obtain ⟨_, _, hendj⟩ := record_range L cfg hL scene.geometries hsize j gj hj
    have hpre := measure_prefix_le L cfg hL (scene.geometries.take k)
      (by rw [List.length_take]; omega) (j + 1) (by rw [List.length_take]; omega)
    rw [List.take_take, Nat.min_eq_left (by omega)] at hpre
    refine ⟨_, (hent j).2 gj hj, by omega, ?_⟩
    intro x hx
    omega

/-- Witness for C22 on the example scene. -/
theorem C22_record_ranges_witness :
    exampleSizes.wellFormed ∧ exampleScene.size ≤ 2 ^ 32 ∧
    ∀ (k : Nat) (g : Geometry), exampleScene.geometries[k]? = some (some g) →
      ∃ off, (fillPass exampleSizes exampleConfig
          (measurePass exampleSizes exampleConfig exampleScene) exampleScene).geomDescr[k]? =
            some (some off) ∧
        alignof_RTHWIF_GEOMETRY exampleSizes (getType exampleSizes exampleConfig g).val ∣ off ∧
        off + sizeof_RTHWIF_GEOMETRY exampleSizes (getType exampleSizes exampleConfig g).val ≤
          measurePass exampleSizes exampleConfig exampleScene ∧
        ∀ (j : Nat) (gj : Geometry), j < k → exampleScene.geometries[j]? = some (some gj) →
          ∃ offj,
            (fillPass exampleSizes exampleConfig
              (measurePass exampleSizes exampleConfig exampleScene) exampleScene).geomDescr[j]? =
                some (some offj) ∧
            offj + sizeof_RTHWIF_GEOMETRY exampleSizes
              (getType exampleSizes exampleConfig gj).val ≤ off ∧
            ∀ x, ¬ (offj ≤ x ∧
              x < offj + sizeof_RTHWIF_GEOMETRY exampleSizes
                (getType exampleSizes exampleConfig gj).val ∧
              off ≤ x ∧
              x < off + sizeof_RTHWIF_GEOMETRY exampleSizes
                (getType exampleSizes exampleConfig g).val) :=
  ⟨exampleSizes_wellFormed, by decide,
    C22_record_ranges exampleSizes exampleConfig exampleScene exampleSizes_wellFormed
      (by decide)⟩

/-! ## Theorems: classification and translation agree -/

/-- What the tag of `getType` says about the geometry: a Triangles tag is given to triangle meshes
only, a Quads tag to quad meshes only, an Instance tag to instances only, and the extra bytes of an
Instance tag are non-zero exactly for the quaternion subtype. -/
theorem getType_tag_kind (L : TypeSizes) (cfg : BuildConfig) (g : Geometry)
    (hsz : L.sizeof_instance < L.sizeof_GEOMETRY_INSTANCE_DESC)
    (hmax : L.sizeof_GEOMETRY_INSTANCE_DESC < 2 ^ 64) :
    ((getType L cfg g).val.type = .TRIANGLES → g.gtype = .GTY_TRIANGLE_MESH) ∧
    ((getType L cfg g).val.type = .QUADS → g.gtype = .GTY_QUAD_MESH) ∧
    ((getType L cfg g).val.type = .INSTANCE →
      g.gtype.isInstance = true ∧
      ((getType L cfg g).val.extraBytes ≠ 0 ↔
        g.gsubtype = .GTY_SUBTYPE_INSTANCE_QUATERNION) ∧
      ((getType L cfg g).val.extraBytes = 0 ↔ g.gsubtype = .GTY_SUBTYPE_DEFAULT)) := by
  have hextra : (L.sizeof_GEOMETRY_INSTANCE_DESC + SIZE_MOD - L.sizeof_instance % SIZE_MOD) %
      SIZE_MOD = L.sizeof_GEOMETRY_INSTANCE_DESC - L.sizeof_instance := by
    unfold SIZE_MOD
    rw [Nat.mod_eq_of_lt (by omega : L.sizeof_instance < 2 ^ 64)]
    have e : L.sizeof_GEOMETRY_INSTANCE_DESC + 2 ^ 64 - L.sizeof_instance =
        (L.sizeof_GEOMETRY_INSTANCE_DESC - L.sizeof_instance) + 2 ^ 64 := by omega
    rw [e, Nat.add_mod_right, Nat.mod_eq_of_lt (by omega)]
  have hpos : L.sizeof_GEOMETRY_INSTANCE_DESC - L.sizeof_instance ≠ 0 := by omega
  obtain ⟨gtype, nts, mask, sub, inst, f1, f2⟩ := g
  by_cases h : 0 < nts
  · have hne : nts ≠ 0 := by omega
    simp [getType, h, hne, GEOMETRY_TYPE.procedural]
  · have h0 : nts = 0 := by omega
    subst h0
    cases gtype <;> cases sub <;>
      simp [getType, GEOMETRY_TYPE.procedural, GType.isInstance, hextra, hpos] <;>
      split_ifs <;> simp [hextra, hpos]

/-- C24. Classification and translation agree (the wide instance record being longer than the
default one): for every geometry `g`, `createGeometryDesc` called with the tag that `getType`
returns for `g` reaches no assertion failure and every cast to the class of the chosen overload
succeeds; the wide record layout is chosen exactly for Instance tags with `extraBytes > 0` and
only for instances whose subtype is quaternion, and the default instance layout is chosen exactly
for Instance tags with `extraBytes == 0` and only for instances whose subtype is default. -/
theorem C24_translation_agrees (L : TypeSizes) (cfg : BuildConfig) (g : Geometry)
    (hsz : L.sizeof_instance < L.sizeof_GEOMETRY_INSTANCE_DESC)
    (hmax : L.sizeof_GEOMETRY_INSTANCE_DESC < 2 ^ 64) :
    (createGeometryDesc L g (getType L cfg g).val).ok = true ∧
    (createGeometryDesc L g (getType L cfg g).val).val.castOk = true ∧
    ((createGeometryDesc L g (getType L cfg g).val).val.layout = .instanceWide ↔
      (getType L cfg g).val.type = .INSTANCE ∧ 0 < (getType L cfg g).val.extraBytes) ∧
    ((createGeometryDesc L g (getType L cfg g).val).val.layout = .instanceWide →
      g.gtype.isInstance = true ∧ g.gsubtype = .GTY_SUBTYPE_INSTANCE_QUATERNION) ∧
    ((createGeometryDesc L g (getType L cfg g).val).val.layout = .instanceDefault ↔
      (getType L cfg g).val.type = .INSTANCE ∧ (getType L cfg g).val.extraBytes = 0) ∧
    ((createGeometryDesc L g (getType L cfg g).val).val.layout = .instanceDefault →
      g.gtype.isInstance = true ∧ g.gsubtype = .GTY_SUBTYPE_DEFAULT) := by
  obtain ⟨htri, hquad, hinst⟩ := getType_tag_kind L cfg g hsz hmax
  generalize getType L cfg g = t at htri hquad hinst
  obtain ⟨⟨tag, extra⟩, tok⟩ := t
  simp only at htri hquad hinst
  cases tag
  · simp [createGeometryDesc, htri rfl]
  · simp [createGeometryDesc, hquad rfl]
  · simp [createGeometryDesc]
  · obtain ⟨hi, hq, hd⟩ := hinst rfl
    by_cases hx : extra = 0
    · have hdef := hd.1 hx
      simp [createGeometryDesc, createGeometryDesc_instanceDefault, hx, hi, hdef]
    · have hqu := hq.1 hx
      have hxpos : 0 < extra := by omega
      simp [createGeometryDesc, createGeometryDesc_instanceWide, hx, hi, hqu, hxpos]

/-- Witness for C24: the quaternion instance of the example scene is written with the wide
layout. -/
theorem C24_translation_agrees_witness :
    exampleSizes.sizeof_instance < exampleSizes.sizeof_GEOMETRY_INSTANCE_DESC ∧
    exampleSizes.sizeof_GEOMETRY_INSTANCE_DESC < 2 ^ 64 ∧
    (createGeometryDesc exampleSizes
      { gtype := GType.GTY_INSTANCE_CHEAP, mask := 0x7F,
        gsubtype := GSubType.GTY_SUBTYPE_INSTANCE_QUATERNION }
      (getType exampleSizes exampleConfig
        { gtype := GType.GTY_INSTANCE_CHEAP, mask := 0x7F,
          gsubtype := GSubType.GTY_SUBTYPE_INSTANCE_QUATERNION }).val).ok = true :=
  ⟨by decide, by decide,
    (C24_translation_agrees exampleSizes exampleConfig
      { gtype := GType.GTY_INSTANCE_CHEAP, mask := 0x7F,
        gsubtype := GSubType.GTY_SUBTYPE_INSTANCE_QUATERNION } (by decide) (by decide)).1⟩

/-- The translation of the geometries of the example scene and of a default-subtype instance:
no assertion fires, and the instance layouts follow the subtype. -/
theorem example_translation :
    (exampleScene.geometries.filterMap id).map
        (fun g => createGeometryDesc exampleSizes g (getType exampleSizes exampleConfig g).val) =
      [⟨⟨.triangles, 56, true⟩, true⟩, ⟨⟨.procedural, 36, true⟩, true⟩,
       ⟨⟨.instanceWide, 108, true⟩, true⟩, ⟨⟨.procedural, 36, true⟩, true⟩] ∧
    createGeometryDesc exampleSizes { gtype := GType.GTY_INSTANCE_EXPENSIVE, mask := 1 }
        (getType exampleSizes exampleConfig
          { gtype := GType.GTY_INSTANCE_EXPENSIVE, mask := 1 }).val =
      ⟨⟨.instanceDefault, 44, true⟩, true⟩ ∧
    (createGeometryDesc exampleSizes
        { gtype := GType.GTY_INSTANCE_CHEAP, mask := 1,
          gsubtype := GSubType.GTY_SUBTYPE_INSTANCE_QUATERNION } ⟨.INSTANCE, 0⟩).ok = false := by
  decide

/-! ## Theorems: the header size and the size of the output buffer -/

/-- The calls that one run of the segment loop adds to the log are the calls for the segments
`i, i+1, ...` in order, all with the expected size the run started with. -/
theorem segmentLoop_calls {β : Type} (drv : Driver β) (ops : BoundsOps β) (hb : Nat)
    (n : Nat) : ∀ (i : Nat) (st r : BuildState β), segmentLoop drv ops hb n i st = .ok r →
    ∃ k, k ≤ n ∧ r.calls = st.calls ++ (List.range' i k).map (segmentCall hb st.expected) := by
  induction n with
  | zero =>
    intro i st r h
    simp only [segmentLoop, Except.ok.injEq] at h
    subst h
    exact ⟨0, Nat.le_refl 0, by simp⟩
  | succ n ih =>
    intro i st r h
    rw [segmentLoop] at h
    cases hrep : drv.build st.calls.length with
    | propertiesFailed => rw [hrep] at h; simp at h
    | completed err b =>
      rw [hrep] at h
      simp only [] at h
      by_cases hoom : err = .ERROR_OUT_OF_HOST_MEMORY
      · rw [if_pos hoom] at h
        by_cases hmax : st.expected = drv.rtasBufferSizeBytesMax
        · rw [if_pos hmax] at h; simp at h
        · rw [if_neg hmax] at h
          simp only [Except.ok.injEq] at h
          subst h
          exact ⟨1, by omega, rfl⟩
      · rw [if_neg hoom] at h
        by_cases hsucc : err = .SUCCESS
        · rw [if_neg (by simpa using hsucc)] at h
          obtain ⟨k, hk, hcalls⟩ := ih _ _ _ h
          refine ⟨k + 1, by omega, ?_⟩
          rw [hcalls, List.append_assoc, List.range'_succ, List.map_cons]
          rfl
        · rw [if_pos (by simpa using hsucc)] at h
          simp only [Except.ok.injEq] at h
          subst h
          exact ⟨1, by omega, rfl⟩

/-- Without wrap-around of the 32-bit product, the header size is the sum of the header record and
the table, padded up to the next multiple of 128. -/
theorem headerBytes_eq (L : TypeSizes) (mts : Nat) (hacc : L.sizeof_EmbreeHWAccel < 2 ^ 63)
    (hm : mts < 2 ^ 29) :
    headerBytes L mts = L.sizeof_EmbreeHWAccel + 8 * Max.max 1 mts +
      padding (L.sizeof_EmbreeHWAccel + 8 * Max.max 1 mts) 128 := by
  have hprod : (Max.max 1 mts * 8) % 2 ^ 32 = 8 * Max.max 1 mts := by
    rw [Nat.mod_eq_of_lt (by omega)]; omega
  have hsum : (L.sizeof_EmbreeHWAccel + 8 * Max.max 1 mts) % SIZE_MOD =
      L.sizeof_EmbreeHWAccel + 8 * Max.max 1 mts := by
    unfold SIZE_MOD
    exact Nat.mod_eq_of_lt (by omega)
  unfold headerBytes
  rw [hprod, hsum]
  exact align_two_pow _ 7 (by omega) (by omega)

/-- Counterexample to C23 as stated: for `2^29` time segments the product `max(1u,n)*8` is
computed in `unsigned int` and wraps to zero, so the header size is 128 bytes, less than the
header record plus eight bytes per segment. -/
theorem C23_counterexample :
    maxTimeSegments ⟨[some { gtype := GType.GTY_TRIANGLE_MESH, numTimeSegments := 536870912 }]⟩ =
      536870912 ∧
    headerBytes exampleSizes 536870912 = 128 ∧
    ¬ (exampleSizes.sizeof_EmbreeHWAccel + 8 * Max.max 1 536870912 ≤
      headerBytes exampleSizes 536870912) := by
  decide

/-- C23 (amended). For fewer than `2^29` time segments (so that the `unsigned int` product
`max(1u,maxTimeSegments)*8` does not wrap), `headerBytes` is the least multiple of 128 that is
`>= sizeof(EmbreeHWAccel) + 8*max(1,maxTimeSegments)`.  When
`headerBytes + maxTimeSegments*expected` is representable in `size_t`, the start of a build
attempt resizes the output buffer only if it is smaller than that byte count (and then to exactly
that count), the buffer never shrinks, and afterwards its size is at least that count, so the slice
`[headerBytes + i*expected, headerBytes + (i+1)*expected)` of every segment `i` lies inside the
buffer, and so does the slice of every call that the attempt hands to the external builder. -/
theorem C23_header_and_buffer {β : Type} (L : TypeSizes) (drv : Driver β) (ops : BoundsOps β)
    (mts : Nat) (st : BuildState β) (hacc : L.sizeof_EmbreeHWAccel < 2 ^ 63)
    (hm : mts < 2 ^ 29) (hfit : headerBytes L mts + mts * st.expected < 2 ^ 64) :
    (128 ∣ headerBytes L mts ∧
      L.sizeof_EmbreeHWAccel + 8 * Max.max 1 mts ≤ headerBytes L mts ∧
      ∀ m, 128 ∣ m → L.sizeof_EmbreeHWAccel + 8 * Max.max 1 mts ≤ m → headerBytes L mts ≤ m) ∧
    ((resizeAccel mts (headerBytes L mts) st).accelSize ≠ st.accelSize →
      st.accelSize < headerBytes L mts + mts * st.expected ∧
      (resizeAccel mts (headerBytes L mts) st).accelSize =
        headerBytes L mts + mts * st.expected) ∧
    st.accelSize ≤ (resizeAccel mts (headerBytes L mts) st).accelSize ∧
    headerBytes L mts + mts * st.expected ≤ (resizeAccel mts (headerBytes L mts) st).accelSize ∧
    (∀ i, i < mts →
      (segmentCall (headerBytes L mts) st.expected i).accelBufferOffset =
        headerBytes L mts + i * st.expected ∧
      (segmentCall (headerBytes L mts) st.expected i).accelBufferOffset +
        (segmentCall (headerBytes L mts) st.expected i).accelBufferBytes ≤
          (resizeAccel mts (headerBytes L mts) st).accelSize) ∧
    (∀ r, segmentLoop drv ops (headerBytes L mts) mts 0
        (resizeAccel mts (headerBytes L mts) st) = .ok r →
      r.accelSize = (resizeAccel mts (headerBytes L mts) st).accelSize ∧
      ∀ c, c ∈ r.calls.drop st.calls.length →
        headerBytes L mts ≤ c.accelBufferOffset ∧
        c.accelBufferOffset + c.accelBufferBytes ≤ r.accelSize) := by
  have hhb := headerBytes_eq L mts hacc hm
  obtain ⟨hdvd, _, hmin⟩ :=
    padding_spec (L.sizeof_EmbreeHWAccel + 8 * Max.max 1 mts) 128 (by omega)
  have hbytes : (headerBytes L mts + (mts * st.expected) % SIZE_MOD) % SIZE_MOD =
      headerBytes L mts + mts * st.expected := by
    unfold SIZE_MOD
    rw [Nat.mod_eq_of_lt (a := mts * st.expected) (by omega), Nat.mod_eq_of_lt hfit]
  have hres : (resizeAccel mts (headerBytes L mts) st).accelSize =
      if st.accelSize < headerBytes L mts + mts * st.expected
        then headerBytes L mts + mts * st.expected else st.accelSize := by
    show (if st.accelSize < (headerBytes L mts + (mts * st.expected) % SIZE_MOD) % SIZE_MOD
      then (headerBytes L mts + (mts * st.expected) % SIZE_MOD) % SIZE_MOD
      else st.accelSize) = _
    rw [hbytes]
  have hslice : ∀ i, i < mts →
      (segmentCall (headerBytes L mts) st.expected i).accelBufferOffset =
        headerBytes L mts + i * st.expected ∧
      (segmentCall (headerBytes L mts) st.expected i).accelBufferOffset +
        (segmentCall (headerBytes L mts) st.expected i).accelBufferBytes ≤
          (resizeAccel mts (headerBytes L mts) st).accelSize := by
    intro i hi
    have hle : (i + 1) * st.expected ≤ mts * st.expected := Nat.mul_le_mul_right _ hi
    have hexp : (i + 1) * st.expected = i * st.expected + st.expected := by
      rw [Nat.add_mul, Nat.one_mul]
    have hmod : (i * st.expected) % SIZE_MOD = i * st.expected := by
      unfold SIZE_MOD
      exact Nat.mod_eq_of_lt (by omega)
    show headerBytes L mts + (i * st.expected) % SIZE_MOD = _ ∧
      headerBytes L mts + (i * st.expected) % SIZE_MOD + st.expected ≤ _
    rw [hmod, hres]
    refine ⟨rfl, ?_⟩
    split_ifs <;> omega
  refine ⟨⟨?_, ?_, ?_⟩, ?_, ?_, ?_, hslice, ?_⟩
  · rw [hhb]; exact hdvd
  · rw [hhb]; omega
  · intro m hm1 hm2
    obtain ⟨p, hp⟩ : ∃ p, m = L.sizeof_EmbreeHWAccel + 8 * Max.max 1 mts + p :=
      ⟨m - (L.sizeof_EmbreeHWAccel + 8 * Max.max 1 mts), by omega⟩
    have := hmin p (by rw [← hp]; exact hm1)
    rw [hhb]; omega
  · rw [hres]; split_ifs <;> omega
  · rw [hres]; split_ifs <;> omega
  · rw [hres]; split_ifs <;> omega
  · intro r hr
    obtain ⟨hacc', _, _, _, _⟩ := segmentLoop_ok_facts drv ops _ _ 0 _ _ hr
    obtain ⟨k, hk, hcalls⟩ := segmentLoop_calls drv ops _ _ 0 _ _ hr
    refine ⟨hacc', ?_⟩
    intro c hc
    have hcalls' : r.calls = st.calls ++
        (List.range' 0 k).map (segmentCall (headerBytes L mts) st.expected) := hcalls
    rw [hcalls', List.drop_left] at hc
    obtain ⟨s, hs, rfl⟩ := List.mem_map.1 hc
    have hsk : s < k := by
      have := List.mem_range'.1 hs
      omega
    obtain ⟨h1, h2⟩ := hslice s (by omega)
    rw [hacc']
    exact ⟨by rw [h1]; omega, h2⟩

/-- Witness for C23 (amended): three time segments of 1000 bytes each behind a 128-byte header,
starting from an empty buffer. -/
theorem C23_header_and_buffer_witness :
    exampleSizes.sizeof_EmbreeHWAccel < 2 ^ 63 ∧ 3 < 2 ^ 29 ∧
    headerBytes exampleSizes 3 + 3 * exampleState.expected < 2 ^ 64 ∧
    (128 ∣ headerBytes exampleSizes 3 ∧
      exampleSizes.sizeof_EmbreeHWAccel + 8 * Max.max 1 3 ≤ headerBytes exampleSizes 3 ∧
      ∀ m, 128 ∣ m → exampleSizes.sizeof_EmbreeHWAccel + 8 * Max.max 1 3 ≤ m →
        headerBytes exampleSizes 3 ≤ m) ∧
    headerBytes exampleSizes 3 + 3 * exampleState.expected ≤
      (resizeAccel 3 (headerBytes exampleSizes 3) exampleState).accelSize :=
  ⟨by decide, by decide, by decide,
    (C23_header_and_buffer exampleSizes exampleDriver exampleOps 3 exampleState (by decide)
      (by decide) (by decide)).1,
    (C23_header_and_buffer exampleSizes exampleDriver exampleOps 3 exampleState (by decide)
      (by decide) (by decide)).2.2.2.1⟩

/-- The header of the example build is 128 bytes and the first attempt grows the empty buffer to
3128 bytes; a buffer that is already larger is left alone. -/
theorem example_header_and_buffer :
    headerBytes exampleSizes 3 = 128 ∧ headerBytes exampleSizes 1 = 128 ∧
    headerBytes exampleSizes 8 = 256 ∧
    (resizeAccel 3 128 exampleState).accelSize = 3128 ∧
    (resizeAccel 3 128 { exampleState with accelSize := 5000 }).accelSize = 5000 := by
  decide

/-! ## Theorems: the translator writes inside its slot -/

/-- The translator zero-fills exactly the record size the layout uses for the tag of `getType`. -/
theorem zeroFilled_eq_sizeof (L : TypeSizes) (cfg : BuildConfig) (hL : L.wellFormed)
    (g : Geometry) :
    (createGeometryDesc L g (getType L cfg g).val).val.zeroFilled =
      sizeof_RTHWIF_GEOMETRY L (getType L cfg g).val := by
  obtain ⟨_, _, _, _, h1, h2, h3, h4, h5⟩ := hL
  have hextra : (L.sizeof_GEOMETRY_INSTANCE_DESC + SIZE_MOD - L.sizeof_instance % SIZE_MOD) %
      SIZE_MOD = L.sizeof_GEOMETRY_INSTANCE_DESC - L.sizeof_instance := by
    unfold SIZE_MOD
    rw [Nat.mod_eq_of_lt (by omega : L.sizeof_instance < 2 ^ 64)]
    have e : L.sizeof_GEOMETRY_INSTANCE_DESC + 2 ^ 64 - L.sizeof_instance =
        (L.sizeof_GEOMETRY_INSTANCE_DESC - L.sizeof_instance) + 2 ^ 64 := by omega
    rw [e, Nat.add_mod_right, Nat.mod_eq_of_lt (by omega)]
  have hne : L.sizeof_GEOMETRY_INSTANCE_DESC - L.sizeof_instance ≠ 0 := by omega
  rcases getType_val_cases L cfg g with h | h | h | h | h <;> rw [h]
  · show L.sizeof_procedural = (L.sizeof_procedural + 0) % SIZE_MOD
    unfold SIZE_MOD; omega
  · show L.sizeof_triangles = (L.sizeof_triangles + 0) % SIZE_MOD
    unfold SIZE_MOD; omega
  · show L.sizeof_quads = (L.sizeof_quads + 0) % SIZE_MOD
    unfold SIZE_MOD; omega
  · show L.sizeof_instance = (L.sizeof_instance + 0) % SIZE_MOD
    unfold SIZE_MOD; omega
  · rw [hextra]
    simp only [createGeometryDesc, sizeof_RTHWIF_GEOMETRY, createGeometryDesc_instanceWide,
      ne_eq, hne, not_false_eq_true, if_true]
    unfold SIZE_MOD; omega

/-- C33. For every tag produced by `getType` (record sizes and alignments those of C++ object
types, at most `2^32` slots), the number of bytes the translator zero-fills and writes for that
tag equals `sizeof_RTHWIF_GEOMETRY(tag)`: the size of the triangles, quads, procedural or
default-instance record for a tag without extra bytes, and `sizeof(GEOMETRY_INSTANCE_DESC)` for the
wide instance.  So the bytes `[offset, offset + written)` of every translation lie inside the
descriptor buffer, after the bytes written for every earlier geometry and before the record of
every later one. -/
theorem C33_translation_inside_slot (L : TypeSizes) (cfg : BuildConfig) (scene : Scene)
    (hL : L.wellFormed) (hsize : scene.size ≤ 2 ^ 32) :
    (∀ g : Geometry,
      (createGeometryDesc L g (getType L cfg g).val).val.zeroFilled =
        sizeof_RTHWIF_GEOMETRY L (getType L cfg g).val ∧
      ((getType L cfg g).val.extraBytes = 0 →
        (createGeometryDesc L g (getType L cfg g).val).val.zeroFilled =
          match (getType L cfg g).val.type with
          | .TRIANGLES => L.sizeof_triangles
          | .QUADS => L.sizeof_quads
          | .PROCEDURAL => L.sizeof_procedural
          | .INSTANCE => L.sizeof_instance) ∧
      ((getType L cfg g).val.extraBytes ≠ 0 →
        (getType L cfg g).val.type = .INSTANCE ∧
        (createGeometryDesc L g (getType L cfg g).val).val.zeroFilled =
          L.sizeof_GEOMETRY_INSTANCE_DESC)) ∧
    ∀ (k : Nat) (g : Geometry), scene.geometries[k]? = some (some g) →
      ∃ off, (fillPass L cfg (measurePass L cfg scene) scene).geomDescr[k]? = some (some off) ∧
        off + (createGeometryDesc L g (getType L cfg g).val).val.zeroFilled ≤
          measurePass L cfg scene ∧
        ∀ (j : Nat) (gj : Geometry), j < k → scene.geometries[j]? = some (some gj) →
          ∃ offj,
            (fillPass L cfg (measurePass L cfg scene) scene).geomDescr[j]? = some (some offj) ∧
            offj + (createGeometryDesc L gj (getType L cfg gj).val).val.zeroFilled ≤ off := by
  have hsz : scene.geometries.length ≤ 2 ^ 32 := hsize
  constructor
  · intro g
    have hz := zeroFilled_eq_sizeof L cfg hL g
    obtain ⟨_, _, _, _, h1, h2, h3, h4, h5⟩ := hL
    have hextra : (L.sizeof_GEOMETRY_INSTANCE_DESC + SIZE_MOD - L.sizeof_instance % SIZE_MOD) %
        SIZE_MOD = L.sizeof_GEOMETRY_INSTANCE_DESC - L.sizeof_instance := by
      unfold SIZE_MOD
      rw [Nat.mod_eq_of_lt (by omega : L.sizeof_instance < 2 ^ 64)]
      have e : L.sizeof_GEOMETRY_INSTANCE_DESC + 2 ^ 64 - L.sizeof_instance =
          (L.sizeof_GEOMETRY_INSTANCE_DESC - L.sizeof_instance) + 2 ^ 64 := by omega
      rw [e, Nat.add_mod_right, Nat.mod_eq_of_lt (by omega)]
    have hne : L.sizeof_GEOMETRY_INSTANCE_DESC - L.sizeof_instance ≠ 0 := by omega
    refine ⟨hz, ?_, ?_⟩
    · rcases getType_val_cases L cfg g with h | h | h | h | h <;> rw [h]
      · intro _; rfl
      · intro _; rfl
      · intro _; rfl
      · intro _; rfl
      · intro h0
        rw [hextra] at h0
        exact absurd h0 hne
    · rcases getType_val_cases L cfg g with h | h | h | h | h <;> rw [h]
      · intro h0; exact absurd rfl h0
      · intro h0; exact absurd rfl h0
      · intro h0; exact absurd rfl h0
      · intro h0; exact absurd rfl h0
      · intro _
        rw [hextra]
        refine ⟨rfl, ?_⟩
        simp only [createGeometryDesc, createGeometryDesc_instanceWide, ne_eq, hne,
          not_false_eq_true, if_true]
  · intro k g hk
    obtain ⟨_, hent⟩ := fill_geomDescr L cfg (measurePass L cfg scene) scene.geometries
    obtain ⟨hkl, _⟩ := List.getElem?_eq_some.1 hk
    obtain ⟨_, _, hend⟩ := record_range L cfg hL scene.geometries hsize k g hk
    have htot := measure_prefix_le L cfg hL scene.geometries hsize (k + 1) (by omega)
    rw [zeroFilled_eq_sizeof L cfg hL g]
    refine ⟨_, (hent k).2 g hk, ?_, ?_⟩
    · rw [hend]; exact htot
    · intro j gj hjk hj
      obtain ⟨_, _, hendj⟩ := record_range L cfg hL scene.geometries hsize j gj hj
      obtain ⟨_, hgek, _⟩ := record_range L cfg hL scene.geometries hsize k g hk
      have hpre := measure_prefix_le L cfg hL (scene.geometries.take k)
        (by rw [List.length_take]; omega) (j + 1) (by rw [List.length_take]; omega)
      rw [List.take_take, Nat.min_eq_left (by omega)] at hpre
      rw [zeroFilled_eq_sizeof L cfg hL gj]
      exact ⟨_, (hent j).2 gj hj, by omega⟩

/-- Witness for C33 on the example scene. -/
theorem C33_translation_inside_slot_witness :
    exampleSizes.wellFormed ∧ exampleScene.size ≤ 2 ^ 32 ∧
    ∀ g : Geometry,
      (createGeometryDesc exampleSizes g (getType exampleSizes exampleConfig g).val).val.zeroFilled =
        sizeof_RTHWIF_GEOMETRY exampleSizes (getType exampleSizes exampleConfig g).val :=
  ⟨exampleSizes_wellFormed, by decide,
    fun g => ((C33_translation_inside_slot exampleSizes exampleConfig exampleScene
      exampleSizes_wellFormed (by decide)).1 g).1⟩

/-- The bytes written for the geometries of the example scene, next to the sizes the layout
reserved for them: 56, 36, 108 and 36 bytes at offsets 0, 56, 96 and 208 of 244. -/
theorem example_written_bytes :
    (exampleScene.geometries.filterMap id).map
        (fun g => ((createGeometryDesc exampleSizes g
            (getType exampleSizes exampleConfig g).val).val.zeroFilled,
          sizeof_RTHWIF_GEOMETRY exampleSizes (getType exampleSizes exampleConfig g).val)) =
      [(56, 56), (36, 36), (108, 108), (36, 36)] := by
  decide

/-! ## Theorems: the offset table and the final attempt -/

/-- C31. On successful return of `rthwifBuild` (after any number of out-of-memory retries), the
last `maxTimeSegments` builder calls of the run are the final attempt: they are the calls for the
segments `0, 1, ...` in order, all successful and all with the final expected size `E` as their
slice length; and for every segment `i` the offset-table entry `AccelTable[i]` is the buffer base
plus the offset `headerBytes + i*E` that was passed as the output buffer to the call for segment
`i` of that attempt (same stride, same header size): the expected size does not change between
the attempt and the writing of the table. -/
theorem C31_table_matches_final_calls {β : Type} (L : TypeSizes) (cfg : BuildConfig)
    (drv : Driver β) (ops : BoundsOps β) (scene : Scene) (accelData accelSize fuel : Nat)
    (r : BuildResult β)
    (hok : rthwifBuild L cfg drv ops scene accelData accelSize fuel = some (.ok r)) :
    ∃ earlier : List BuildCall,
      r.calls = earlier ++ (List.range' 0 (maxTimeSegments scene)).map
        (segmentCall (headerBytes L (maxTimeSegments scene)) r.expected) ∧
      (∀ j, j < maxTimeSegments scene →
        ∃ b, drv.build (earlier.length + j) = .completed .SUCCESS b) ∧
      ∀ i, i < maxTimeSegments scene →
        ∃ c, r.calls[earlier.length + i]? = some c ∧ c.segment = i ∧
          c.accelBufferBytes = r.expected ∧
          c.accelBufferOffset =
            headerBytes L (maxTimeSegments scene) + (i * r.expected) % SIZE_MOD ∧
          r.AccelTable[i]? = some (accelData + c.accelBufferOffset) := by
  obtain ⟨st, hloop, herrS, _, htab, _, hexp, _, hcalls, _⟩ :=
    rthwifBuild_ok_inv L cfg drv ops scene accelData accelSize fuel r hok
  obtain ⟨st', hseg, _⟩ := buildLoop_final_attempt drv ops _ _ fuel _ _ hloop
  obtain ⟨hsucc, hE, hc⟩ := segmentLoop_success_all drv ops _ _ 0 _ _
    (one_le_maxTimeSegments scene) hseg herrS
  have hE' : st'.expected = r.expected := by rw [hexp, hE]; rfl
  have hc' : r.calls = st'.calls ++ (List.range' 0 (maxTimeSegments scene)).map
      (segmentCall (headerBytes L (maxTimeSegments scene)) r.expected) := by
    rw [hcalls, hc, ← hE']; rfl
  refine ⟨st'.calls, hc', hsucc, ?_⟩
  intro i hi
  refine ⟨segmentCall (headerBytes L (maxTimeSegments scene)) r.expected i, ?_, rfl, rfl, rfl, ?_⟩
  · rw [hc', List.getElem?_append_right (by omega), Nat.add_sub_cancel_left, List.getElem?_map,
      List.getElem?_range' _ _ hi, Option.map_some', Nat.zero_add, Nat.one_mul]
  · rw [htab, List.getElem?_map, List.getElem?_range hi, Option.map_some', ← hexp]
    show some (accelData + headerBytes L (maxTimeSegments scene) +
      (i * r.expected) % SIZE_MOD) = some (accelData +
        (headerBytes L (maxTimeSegments scene) + (i * r.expected) % SIZE_MOD))
    rw [Nat.add_assoc]

/-- Witness for C31 on the example run, which retries once: the calls 2, 3 and 4 are the final
attempt. -/
theorem C31_table_matches_final_calls_witness :
    ∃ r, rthwifBuild exampleSizes exampleConfig exampleDriver exampleOps exampleScene 4096 0 5 =
        some (.ok r) ∧
      ∃ earlier : List BuildCall,
        r.calls = earlier ++ (List.range' 0 (maxTimeSegments exampleScene)).map
          (segmentCall (headerBytes exampleSizes (maxTimeSegments exampleScene)) r.expected) ∧
        (∀ j, j < maxTimeSegments exampleScene →
          ∃ b, exampleDriver.build (earlier.length + j) = .completed .SUCCESS b) ∧
        ∀ i, i < maxTimeSegments exampleScene →
          ∃ c, r.calls[earlier.length + i]? = some c ∧ c.segment = i ∧
            c.accelBufferBytes = r.expected ∧
            c.accelBufferOffset =
              headerBytes exampleSizes (maxTimeSegments exampleScene) +
                (i * r.expected) % SIZE_MOD ∧
            r.AccelTable[i]? = some (4096 + c.accelBufferOffset) :=
  ⟨_, rfl,
    C31_table_matches_final_calls exampleSizes exampleConfig exampleDriver exampleOps
      exampleScene 4096 0 5 _ rfl⟩

/-! ## Theorems: the accumulated bounds -/

/-- The smaller of two finite coordinates. -/
theorem coord_min_fin (x y : Int) : (Coord.fin x).min (.fin y) = .fin (Min.min x y) := by
  unfold Coord.min Coord.le
  by_cases h : x ≤ y
  · simp [h]
  · simp [h]; omega

/-- The larger of two finite coordinates. -/
theorem coord_max_fin (x y : Int) : (Coord.fin x).max (.fin y) = .fin (Max.max x y) := by
  unfold Coord.max Coord.le
  by_cases h : x ≤ y
  · simp [h]
  · simp [h]; omega

/-- Plus infinity is neutral for the minimum. -/
theorem coord_min_posInf (a : Coord) : a.min .posInf = a ∧ Coord.posInf.min a = a := by
  cases a <;> exact ⟨rfl, rfl⟩

/-- Minus infinity is neutral for the maximum. -/
theorem coord_max_negInf (a : Coord) : a.max .negInf = a ∧ Coord.negInf.max a = a := by
  cases a <;> exact ⟨rfl, rfl⟩

/-- Minus infinity absorbs under the minimum. -/
theorem coord_min_negInf (a : Coord) :
    a.min .negInf = .negInf ∧ Coord.negInf.min a = .negInf := by
  cases a <;> exact ⟨rfl, rfl⟩

/-- Plus infinity absorbs under the maximum. -/
theorem coord_max_posInf (a : Coord) :
    a.max .posInf = .posInf ∧ Coord.posInf.max a = .posInf := by
  cases a <;> exact ⟨rfl, rfl⟩

/-- The minimum of coordinates is associative. -/
theorem coord_min_assoc (a b c : Coord) : (a.min b).min c = a.min (b.min c) := by
  cases a <;> cases b <;> cases c <;>
    simp only [coord_min_fin, (coord_min_posInf _).1, (coord_min_posInf _).2,
      (coord_min_negInf _).1, (coord_min_negInf _).2, min_assoc]

/-- The maximum of coordinates is associative. -/
theorem coord_max_assoc (a b c : Coord) : (a.max b).max c = a.max (b.max c) := by
  cases a <;> cases b <;> cases c <;>
    simp only [coord_max_fin, (coord_max_posInf _).1, (coord_max_posInf _).2,
      (coord_max_negInf _).1, (coord_max_negInf _).2, max_assoc]

/-- Extending boxes is associative. -/
theorem box_extend_assoc (a b c : BBox3f) : (a.extend b).extend c = a.extend (b.extend c) := by
  simp only [BBox3f.extend, coord_min_assoc, coord_max_assoc]

/-- The empty box is neutral for `extend`, on either side. -/
theorem box_extend_empty (b : BBox3f) :
    b.extend BBox3f.empty = b ∧ BBox3f.empty.extend b = b := by
  obtain ⟨⟨lx, ly, lz⟩, ⟨ux, uy, uz⟩⟩ := b
  simp only [BBox3f.extend, BBox3f.empty, (coord_min_posInf _).1, (coord_min_posInf _).2,
    (coord_max_negInf _).1, (coord_max_negInf _).2, and_self]

/-- Accumulating over one more call extends by the bounds that call reports. -/
theorem extendReported_succ {β : Type} (drv : Driver β) (ops : BoundsOps β) (init : β)
    (first count : Nat) :
    extendReported drv ops init first (count + 1) =
      ops.extend (extendReported drv ops init first count)
        ((drv.build (first + count)).reported ops) := by
  unfold extendReported
  rw [List.range'_1_concat, List.foldl_append, List.foldl_cons, List.foldl_nil]

/-- Accumulating over two consecutive runs of calls is accumulating over their concatenation. -/
theorem extendReported_append {β : Type} (drv : Driver β) (ops : BoundsOps β) (init : β)
    (first a b : Nat) :
    extendReported drv ops (extendReported drv ops init first a) (first + a) b =
      extendReported drv ops init first (a + b) := by
  unfold extendReported
  rw [← List.foldl_append, List.range'_append_1, Nat.add_comm b a]

/-- One run of the segment loop extends `fullBounds` by the bounds reported by each call it
issues, in call order. -/
theorem segmentLoop_bounds {β : Type} (drv : Driver β) (ops : BoundsOps β) (hb : Nat)
    (n : Nat) : ∀ (i : Nat) (st r : BuildState β), segmentLoop drv ops hb n i st = .ok r →
    ∃ k, r.calls.length = st.calls.length + k ∧
      r.fullBounds = extendReported drv ops st.fullBounds st.calls.length k := by
  induction n with
  | zero =>
    intro i st r h
    simp only [segmentLoop, Except.ok.injEq] at h
    subst h
    exact ⟨0, rfl, rfl⟩
  | succ n ih =>
    intro i st r h
    rw [segmentLoop] at h
    cases hrep : drv.build st.calls.length with
    | propertiesFailed => rw [hrep] at h; simp at h
    | completed err b =>
      rw [hrep] at h
      simp only [] at h
      have hone : ops.extend st.fullBounds b =
          extendReported drv ops st.fullBounds st.calls.length 1 := by
        show _ = ops.extend st.fullBounds ((drv.build st.calls.length).reported ops)
        rw [hrep]; rfl
      by_cases hoom : err = .ERROR_OUT_OF_HOST_MEMORY
      · rw [if_pos hoom] at h
        by_cases hmax : st.expected = drv.rtasBufferSizeBytesMax
        · rw [if_pos hmax] at h; simp at h
        · rw [if_neg hmax] at h
          simp only [Except.ok.injEq] at h
          subst h
          exact ⟨1, by simp, hone⟩
      · rw [if_neg hoom] at h
        by_cases hsucc : err = .SUCCESS
        · rw [if_neg (by simpa using hsucc)] at h
          obtain ⟨k, hk, hfb⟩ := ih _ _ _ h
          simp only [List.length_append, List.length_singleton] at hk hfb
          refine ⟨1 + k, by omega, ?_⟩
          rw [hfb, hone]
          exact extendReported_append drv ops st.fullBounds st.calls.length 1 k
        · rw [if_pos (by simpa using hsucc)] at h
          simp only [Except.ok.injEq] at h
          subst h
          exact ⟨1, by simp, hone⟩

/-- The build loop extends `fullBounds` by the bounds reported by every call of every pass: the
box is not reset between passes. -/
theorem buildLoop_bounds {β : Type} (drv : Driver β) (ops : BoundsOps β) (mts hb : Nat)
    (fuel : Nat) : ∀ (st r : BuildState β), buildLoop drv ops mts hb fuel st = some (.ok r) →
    ∃ k, r.calls.length = st.calls.length + k ∧
      r.fullBounds = extendReported drv ops st.fullBounds st.calls.length k := by
  induction fuel with
  | zero => intro st r h; simp [buildLoop] at h
  | succ fuel ih =>
    intro st r h
    rw [buildLoop] at h
    cases hseg : segmentLoop drv ops hb mts 0 (resizeAccel mts hb st) with
    | error e => rw [hseg] at h; simp at h
    | ok st1 =>
      rw [hseg] at h
      simp only [] at h
      obtain ⟨k1, hk1, hfb1⟩ := segmentLoop_bounds drv ops hb mts 0 _ _ hseg
      have hk1' : st1.calls.length = st.calls.length + k1 := hk1
      have hfb1' : st1.fullBounds = extendReported drv ops st.fullBounds st.calls.length k1 :=
        hfb1
      by_cases herr : st1.err = .ERROR_OUT_OF_HOST_MEMORY
      · rw [if_neg (by simpa using herr)] at h
        obtain ⟨k2, hk2, hfb2⟩ := ih _ _ h
        refine ⟨k1 + k2, by omega, ?_⟩
        rw [hfb2, hfb1', hk1']
        exact extendReported_append drv ops st.fullBounds st.calls.length k1 k2
      · rw [if_pos (by simpa using herr)] at h
        simp only [Option.some.injEq, Except.ok.injEq] at h
        subst h
        exact ⟨k1, hk1', hfb1'⟩

/-- Accumulating boxes from a start box is extending the start box by what is accumulated from the
empty box. -/
theorem box_extendReported_split (drv : Driver BBox3f) (init : BBox3f) (first count : Nat) :
    extendReported drv boxOps init first count =
      init.extend (extendReported drv boxOps BBox3f.empty first count) := by
  induction count with
  | zero => exact (box_extend_empty init).1.symm
  | succ n ih =>
    rw [extendReported_succ, extendReported_succ, ih]
    exact box_extend_assoc _ _ _

/-- C32 fails as stated: in a run with two time segments whose first attempt builds segment 0
with bounds `[0,10]^3` and is abandoned on out-of-host-memory at segment 1, and whose second
attempt builds the two segments with bounds `[0,1]^3` and `[0,2]^3`, the returned bounds are
`[0,10]^3`, not the union `[0,2]^3` of the bounds of the final attempt (calls 2 and 3). -/
theorem C32_counterexample :
    ∃ r, rthwifBuild exampleSizes exampleConfig boundsDriver boxOps twoSegmentScene 4096 0 5 =
        some (.ok r) ∧
      maxTimeSegments twoSegmentScene = 2 ∧ r.calls.length = 4 ∧
      r.fullBounds = cube 0 10 ∧
      extendReported boundsDriver boxOps BBox3f.empty 2 2 = cube 0 2 ∧
      r.fullBounds ≠ extendReported boundsDriver boxOps BBox3f.empty 2 2 :=
  ⟨_, rfl, by decide, by decide, by decide, by decide, by decide⟩

/-- C32 (amended). On successful return of `rthwifBuild`, the last `maxTimeSegments` builder calls
are the final, successful attempt, and the returned full-scene bounds equal the component-wise
min/max union of the bounds reported by all segment builds of the run in call order: the union
over the `maxTimeSegments` segment builds of the final attempt, extended by the bounds reported
during the attempts that were abandoned and retried (`fullBounds` is not reset on a retry).
Without an abandoned attempt the returned bounds are the union over the `maxTimeSegments` segment
builds.  A segment whose reported bounds stay the empty box (lower=+inf, upper=-inf) leaves the
union unchanged. -/
theorem C32_full_bounds (L : TypeSizes) (cfg : BuildConfig) (drv : Driver BBox3f)
    (scene : Scene) (accelData accelSize fuel : Nat) (r : BuildResult BBox3f)
    (hok : rthwifBuild L cfg drv boxOps scene accelData accelSize fuel = some (.ok r)) :
    (∃ p, r.calls.length = p + maxTimeSegments scene ∧
      (∀ j, j < maxTimeSegments scene → ∃ b, drv.build (p + j) = .completed .SUCCESS b) ∧
      r.fullBounds = extendReported drv boxOps BBox3f.empty 0 (p + maxTimeSegments scene) ∧
      r.fullBounds =
        (extendReported drv boxOps BBox3f.empty 0 p).extend
          (extendReported drv boxOps BBox3f.empty p (maxTimeSegments scene)) ∧
      (p = 0 →
        r.fullBounds = extendReported drv boxOps BBox3f.empty 0 (maxTimeSegments scene))) ∧
    (∀ fb : BBox3f, fb.extend BBox3f.empty = fb) ∧
    (∀ (init : BBox3f) (k : Nat),
      (drv.build k).reported boxOps = BBox3f.empty →
      extendReported drv boxOps init k 1 = init) := by
  obtain ⟨st, hloop, herrS, _, _, _, _, hfb, hcalls, _⟩ :=
    rthwifBuild_ok_inv L cfg drv boxOps scene accelData accelSize fuel r hok
  obtain ⟨st', hseg, _⟩ := buildLoop_final_attempt drv boxOps _ _ fuel _ _ hloop
  obtain ⟨hsucc, _, hc⟩ := segmentLoop_success_all drv boxOps _ _ 0 _ _
    (one_le_maxTimeSegments scene) hseg herrS
  obtain ⟨k, hk, hacc⟩ := buildLoop_bounds drv boxOps _ _ fuel _ _ hloop
  have hlen : st.calls.length = st'.calls.length + maxTimeSegments scene := by
    rw [hc]
    show (st'.calls ++ _).length = _
    rw [List.length_append, List.length_map, List.length_range']
  have hk' : k = st'.calls.length + maxTimeSegments scene := by
    have : st.calls.length = 0 + k := hk
    omega
  have hall : r.fullBounds =
      extendReported drv boxOps BBox3f.empty 0 (st'.calls.length + maxTimeSegments scene) := by
    rw [hfb, hacc, hk']; rfl
  have hsplit : r.fullBounds =
      (extendReported drv boxOps BBox3f.empty 0 st'.calls.length).extend
        (extendReported drv boxOps BBox3f.empty st'.calls.length (maxTimeSegments scene)) := by
    rw [hall, ← extendReported_append drv boxOps BBox3f.empty 0 st'.calls.length
      (maxTimeSegments scene), Nat.zero_add]
    exact box_extendReported_split drv _ _ _
  refine ⟨⟨st'.calls.length, by rw [hcalls, hlen], hsucc, hall, hsplit, ?_⟩,
    fun fb => (box_extend_empty fb).1, ?_⟩
  · intro hp
    rw [hall, hp, Nat.zero_add]
  · intro init k hrep
    show BBox3f.extend init ((drv.build k).reported boxOps) = init
    rw [hrep]
    exact (box_extend_empty init).1

/-- Witness for C32 (amended) on a run without retry whose second segment leaves the bounds
empty. -/
theorem C32_full_bounds_witness :
    ∃ r, rthwifBuild exampleSizes exampleConfig steadyDriver boxOps twoSegmentScene 4096 0 5 =
        some (.ok r) ∧
      (∃ p, r.calls.length = p + maxTimeSegments twoSegmentScene ∧
        (∀ j, j < maxTimeSegments twoSegmentScene →
          ∃ b, steadyDriver.build (p + j) = .completed .SUCCESS b) ∧
        r.fullBounds =
          extendReported steadyDriver boxOps BBox3f.empty 0 (p + maxTimeSegments twoSegmentScene) ∧
        r.fullBounds =
          (extendReported steadyDriver boxOps BBox3f.empty 0 p).extend
            (extendReported steadyDriver boxOps BBox3f.empty p
              (maxTimeSegments twoSegmentScene)) ∧
        (p = 0 →
          r.fullBounds =
            extendReported steadyDriver boxOps BBox3f.empty 0
              (maxTimeSegments twoSegmentScene))) :=
  ⟨_, rfl,
    (C32_full_bounds exampleSizes exampleConfig steadyDriver twoSegmentScene 4096 0 5 _ rfl).1⟩

/-- The two example runs evaluated: without retry the returned bounds are the union `[0,1]^3` of
the two segment builds, the second of which leaves the bounds empty; with the retry the returned
bounds are the union over all four calls. -/
theorem example_full_bounds :
    (∃ r, rthwifBuild exampleSizes exampleConfig steadyDriver boxOps twoSegmentScene 4096 0 5 =
        some (.ok r) ∧ r.calls.length = 2 ∧ r.fullBounds = cube 0 1 ∧
      extendReported steadyDriver boxOps BBox3f.empty 0 2 = cube 0 1) ∧
    extendReported boundsDriver boxOps BBox3f.empty 0 4 = cube 0 10 ∧
    extendReported boundsDriver boxOps BBox3f.empty 0 2 = cube 0 10 ∧
    (cube 0 10).extend (cube 0 2) = cube 0 10 ∧
    (cube (-3) 1).extend (cube 0 2) = cube (-3) 2 :=
  ⟨⟨_, rfl, by decide, by decide, by decide⟩, by decide, by decide, by decide, by decide⟩

end embree
